import Mathlib

/-!
# malptainer: container bring-up, termination and registry

A shallow embedding of the Go sources of the container manager
(`containers/container_init.go`, `containers/container_cleanup.go`,
`containers/container_create.go`, `containers/main.go`, `utils/random_cn.go`).

Every interaction with the operating system is recorded, in program order, in a
trace of `Op` values.  The answers of the operating system (the error returned
by a call, the outcome of a `stat`, the next random number, the pid of a
spawned child) are supplied by a `World`, which may answer differently
depending on everything the process has done so far.
-/

namespace Malptainer

/-! ## Operations, worlds, states -/

/-- One interaction of the process with its environment. -/
inductive Op where
  | mount (source target fstype : String) (flags : Nat) (data : String)
  | unmount (target : String) (flags : Nat)
  | pivotRoot (newroot putold : String)
  | mknod (path : String) (mode dev : Nat)
  | chown (path : String) (uid gid : Nat)
  | sethostname (name : String)
  | mkdirAll (path : String) (perm : Nat)
  | symlink (oldname newname : String)
  | openFile (name : String) (flag perm : Nat)
  | close (name : String)
  | chdir (dir : String)
  | removeAll (path : String)
  | stat (name : String)
  | exec (argv0 : String) (argv envv : List String)
  | stdout (text : String)
  | stderr (text : String)
  | logFatal (text : String)
  | kill (pid : Int) (sig : Nat)
  | sleep (d : Int)
  | copy (src dest : String)
  | writeFile (name data : String) (perm : Nat)
  | chmod (name : String) (mode : Nat)
  | getwd
  | start (path : String) (args env : List String) (cloneflags : Nat) (setpgid : Bool)
  | randIntn (n : Nat)
  deriving DecidableEq, Repr

/-- The record kept for one container (`container_definitions.go`). -/
structure Container where
  Name : String
  Location : String
  RootfsLocation : String
  NamespacePID : Int
  deriving DecidableEq, Repr

/-- The environment of the process.  Every answer may depend on the operations
performed so far (first argument). -/
structure World where
  /-- `os.Getenv`: an unset variable reads as the empty string. -/
  getenv : String → String
  /-- `os.Environ()`. -/
  environ : List String
  /-- Error returned by a fallible call (`none`: the call succeeds); the string
  is the rendering of the error under `%v`. -/
  err : List Op → Op → Option String
  /-- Result of `FileInfo.IsDir()` for a successful `stat`. -/
  isDir : List Op → String → Bool
  /-- Value returned by `rand.Intn n`. -/
  intn : List Op → Nat → Nat
  /-- Value returned by a successful `os.Getwd`. -/
  cwd : List Op → String
  /-- Pid of the child created by a successful `cmd.Start`. -/
  childPid : List Op → Int

/-- Process state: the three registries of `container_definitions.go`, the
operations performed so far, and a virtual clock in nanoseconds that advances
only while the process sleeps. -/
structure State where
  ContainersRunning : List Container
  ContainersStarting : List Container
  ContainerStopped : List Container
  trace : List Op
  now : Int

/-- How a process stops running its own code: `os.Exit code`, a successful
`exec` (the image is replaced), or a loop that ran out of its iteration bound. -/
inductive Halt where
  | exited (code : Nat)
  | execd
  | hung
  deriving DecidableEq, Repr

/-- Result of running a piece of code: it returns a value or the process stops. -/
inductive Outcome (α : Type) where
  | ret (a : α)
  | halt (h : Halt)
  deriving DecidableEq, Repr

/-- A piece of imperative code acting on the process state. -/
def Proc (α : Type) : Type := State → Outcome α × State

/-- Sequencing: code after a halted process does not run. -/
def Proc.bind {α β : Type} (p : Proc α) (f : α → Proc β) : Proc β := fun s =>
  match p s with
  | (Outcome.ret a, s1) => f a s1
  | (Outcome.halt h, s1) => (Outcome.halt h, s1)

/-- Return a value without touching the state. -/
def Proc.pure {α : Type} (a : α) : Proc α := fun s => (Outcome.ret a, s)

instance : Monad Proc where
  pure := Proc.pure
  bind := Proc.bind

/-- Stop the process. -/
def halt {α : Type} (h : Halt) : Proc α := fun s => (Outcome.halt h, s)

/-- Record an operation that returns nothing the code looks at. -/
def emit (op : Op) : Proc Unit := fun s =>
  (Outcome.ret (), { s with trace := s.trace ++ [op] })

/-- Perform a fallible call: the world decides its error from the operations
performed before it. -/
def call (w : World) (op : Op) : Proc (Option String) := fun s =>
  (Outcome.ret (w.err s.trace op), { s with trace := s.trace ++ [op] })

/-- Read the state. -/
def getState : Proc State := fun s => (Outcome.ret s, s)

/-- Go `for _, x := range xs { body }` without early exit. -/
def forEach {α : Type} : List α → (α → Proc Unit) → Proc Unit
  | [], _ => Proc.pure ()
  | x :: xs, body => Proc.bind (body x) (fun _ => forEach xs body)

/-- `fmt.Println` / `fmt.Printf` on standard output, argument already formatted. -/
def Printf (text : String) : Proc Unit := emit (Op.stdout text)

/-! ## Constants of `golang.org/x/sys/unix` (Linux) -/

def MS_RDONLY : Nat := 0x1
def MS_NOSUID : Nat := 0x2
def MS_NODEV : Nat := 0x4
def MS_NOEXEC : Nat := 0x8
def MS_REMOUNT : Nat := 0x20
def MS_BIND : Nat := 0x1000
def MS_REC : Nat := 0x4000
def MS_PRIVATE : Nat := 0x40000
def MS_SLAVE : Nat := 0x80000
def MS_STRICTATIME : Nat := 0x1000000
def MNT_DETACH : Nat := 0x2
def S_IFCHR : Nat := 0x2000
def O_WRONLY : Nat := 0x1
def O_CREATE : Nat := 0x40
def SIGKILL : Nat := 9
def SIGTERM : Nat := 15

/-- Device number of `unix.Mkdev` on Linux. -/
def Mkdev (major minor : Nat) : Nat :=
  (((major &&& 0x00000fff) <<< 8) ||| ((major &&& 0xfffff000) <<< 32)) |||
    (((minor &&& 0x000000ff) <<< 0) ||| ((minor &&& 0xffffff00) <<< 12))

/-! ## `container_init.go` -/

/-- Configuration passed to the init process. -/
structure InitConfig where
  RootfsPath : String
  ContainerDir : String
  BinaryPath : String
  Hostname : String

/-- `fatal`: diagnostic on standard error, then `os.Exit(1)`. -/
def fatal {α : Type} (msg : String) : Proc α := do
  emit (Op.stderr ("Container init error: " ++ msg ++ "\n"))
  halt (Halt.exited 1)

/-- `unix.Mount`. -/
def Mount (w : World) (source target fstype : String) (flags : Nat) (data : String) :
    Proc (Option String) :=
  call w (Op.mount source target fstype flags data)

/-- `createDeviceNodes`. -/
def createDeviceNodes (join : List String → String) (w : World) (devPath : String) :
    Proc Unit :=
  let devices : List (String × Nat × Nat × Nat) :=
    [("null", 0o666, 1, 3), ("zero", 0o666, 1, 5), ("full", 0o666, 1, 7),
     ("random", 0o666, 1, 8), ("urandom", 0o666, 1, 9), ("tty", 0o666, 5, 0)]
  forEach devices fun dev => do
    let path := join [devPath, dev.1]
    let devNum := Mkdev dev.2.2.1 dev.2.2.2
    if let some err ← call w (Op.mknod path (S_IFCHR ||| dev.2.1) devNum) then
      Printf ("Warning: failed to create " ++ dev.1 ++ ": " ++ err ++ "\n")
    let _ ← call w (Op.chown path 0 0)

/-- `createDevSymlinks`. -/
def createDevSymlinks (join : List String → String) (w : World) (devPath : String) :
    Proc Unit :=
  let symlinks : List (String × String) :=
    [("/proc/self/fd", "fd"), ("/proc/self/fd/0", "stdin"), ("/proc/self/fd/1", "stdout"),
     ("/proc/self/fd/2", "stderr"), ("/proc/kcore", "core")]
  forEach symlinks fun sl => do
    let linkPath := join [devPath, sl.2]
    let _ ← call w (Op.symlink sl.1 linkPath)

/-- `bindMountNetworkFiles`. -/
def bindMountNetworkFiles (join : List String → String) (w : World)
    (rootfsPath containerDir : String) : Proc Unit :=
  let files : List String := ["hostname", "hosts", "resolv.conf"]
  forEach files fun f => do
    let src := join [containerDir, f]
    let dst := join [rootfsPath, "etc", f]
    let err ← call w (Op.openFile dst (O_CREATE ||| O_WRONLY) 0o644)
    if err.isNone then
      emit (Op.close dst)
    if let some err ← Mount w src dst "" MS_BIND "" then
      Printf ("Warning: failed to bind mount " ++ f ++ ": " ++ err ++ "\n")

/-- `hardenProc`. -/
def hardenProc (w : World) : Proc Unit :=
  let dirs : List String := ["bus", "fs", "irq", "sys", "sysrq-trigger"]
  forEach dirs fun d => do
    let path := "/proc/" ++ d
    let err ← call w (Op.stat path)
    if err.isNone then
      let _ ← Mount w path path "" MS_BIND ""
      let _ ← Mount w "" path "" (MS_REMOUNT ||| MS_BIND ||| MS_RDONLY) ""

/-- `maskSensitivePaths`. -/
def maskSensitivePaths (w : World) : Proc Unit :=
  let paths : List String :=
    ["/proc/asound", "/proc/interrupts", "/proc/kcore", "/proc/keys",
     "/proc/latency_stats", "/proc/timer_list", "/proc/timer_stats",
     "/proc/sched_debug", "/proc/acpi", "/proc/scsi", "/sys/firmware"]
  forEach paths fun p => do
    let before ← getState
    let err ← call w (Op.stat p)
    if err.isSome then
      pure ()
    else if w.isDir before.trace p then
      let _ ← Mount w "tmpfs" p "tmpfs" MS_RDONLY ""
    else
      let _ ← Mount w "/dev/null" p "" MS_BIND ""

/-- `RunContainerInit`.  `join` stands for `filepath.Join` of the Go standard
library. -/
def RunContainerInit (join : List String → String) (w : World) : Proc Unit := do
  let config : InitConfig :=
    { RootfsPath := w.getenv "CNTR_ROOTFS"
      ContainerDir := w.getenv "CNTR_DIR"
      BinaryPath := w.getenv "CNTR_BINARY"
      Hostname := w.getenv "CNTR_HOSTNAME" }
  if config.RootfsPath == "" then
    fatal "CNTR_ROOTFS not set"
  Printf "Container init: starting setup...\n"
  -- 1. Change root mount propagation to slave recursively
  if let some err ← Mount w "" "/" "" (MS_SLAVE ||| MS_REC) "" then
    fatal ("failed to make root rslave: " ++ err)
  -- 2. Recursive bind mount the rootfs to itself
  if let some err ← Mount w config.RootfsPath config.RootfsPath "" (MS_BIND ||| MS_REC) "" then
    fatal ("failed to bind mount rootfs: " ++ err)
  -- 3. Make the rootfs mount private
  if let some err ← Mount w "" config.RootfsPath "" MS_PRIVATE "" then
    fatal ("failed to make rootfs private: " ++ err)
  -- 4. Create and mount /proc
  let procPath := join [config.RootfsPath, "proc"]
  let _ ← call w (Op.mkdirAll procPath 0o755)
  if let some err ← Mount w "proc" procPath "proc" 0 "" then
    fatal ("failed to mount proc: " ++ err)
  -- 5. Create and mount /dev as tmpfs
  let devPath := join [config.RootfsPath, "dev"]
  let _ ← call w (Op.mkdirAll devPath 0o755)
  if let some err ← Mount w "tmpfs" devPath "tmpfs" (MS_NOSUID ||| MS_STRICTATIME)
      "mode=0755,size=65536k" then
    fatal ("failed to mount dev tmpfs: " ++ err)
  -- 6. Create device nodes
  createDeviceNodes join w devPath
  -- 7. Create symlinks
  createDevSymlinks join w devPath
  -- 8. Create and mount /dev/pts
  let ptsPath := join [devPath, "pts"]
  let _ ← call w (Op.mkdirAll ptsPath 0o755)
  if let some err ← Mount w "devpts" ptsPath "devpts" 0 "newinstance,ptmxmode=0666,mode=0620" then
    fatal ("failed to mount devpts: " ++ err)
  let _ ← call w (Op.symlink "/dev/pts/ptmx" (join [devPath, "ptmx"]))
  -- 9. Create and mount /dev/mqueue
  let mqueuePath := join [devPath, "mqueue"]
  let _ ← call w (Op.mkdirAll mqueuePath 0o755)
  if let some err ← Mount w "mqueue" mqueuePath "mqueue" (MS_NOSUID ||| MS_NODEV ||| MS_NOEXEC) "" then
    Printf ("Warning: failed to mount mqueue: " ++ err ++ "\n")
  -- 10. Create and mount /dev/shm
  let shmPath := join [devPath, "shm"]
  let _ ← call w (Op.mkdirAll shmPath 0o755)
  if let some err ← Mount w "tmpfs" shmPath "tmpfs" (MS_NOSUID ||| MS_NODEV ||| MS_NOEXEC)
      "mode=1777,size=67108864" then
    fatal ("failed to mount shm: " ++ err)
  -- 11. Create and mount /sys (read-only)
  let sysPath := join [config.RootfsPath, "sys"]
  let _ ← call w (Op.mkdirAll sysPath 0o755)
  if let some err ← Mount w "sysfs" sysPath "sysfs"
      (MS_RDONLY ||| MS_NOSUID ||| MS_NODEV ||| MS_NOEXEC) "" then
    fatal ("failed to mount sysfs: " ++ err)
  -- 12. Create and mount /sys/fs/cgroup (read-only)
  let cgroupPath := join [sysPath, "fs", "cgroup"]
  let _ ← call w (Op.mkdirAll cgroupPath 0o755)
  if let some err ← Mount w "cgroup2" cgroupPath "cgroup2"
      (MS_RDONLY ||| MS_NOSUID ||| MS_NODEV ||| MS_NOEXEC) "" then
    Printf ("Warning: failed to mount cgroup2: " ++ err ++ "\n")
  -- 13. Bind mount /etc/hostname, /etc/hosts, /etc/resolv.conf
  bindMountNetworkFiles join w config.RootfsPath config.ContainerDir
  -- 14. Pivot root
  let oldRoot := join [config.RootfsPath, ".oldroot"]
  let _ ← call w (Op.mkdirAll oldRoot 0o755)
  if let some err ← call w (Op.pivotRoot config.RootfsPath oldRoot) then
    fatal ("pivot_root failed: " ++ err)
  -- 15. Change to new root
  if let some err ← call w (Op.chdir "/") then
    fatal ("chdir to / failed: " ++ err)
  -- 16. Make new root rslave
  if let some err ← Mount w "" "/" "" (MS_SLAVE ||| MS_REC) "" then
    fatal ("failed to make new root rslave: " ++ err)
  -- 17. Unmount old root (lazy unmount)
  if let some err ← call w (Op.unmount "/.oldroot" MNT_DETACH) then
    fatal ("failed to unmount old root: " ++ err)
  -- 18. Remove old root directory
  let _ ← call w (Op.removeAll "/.oldroot")
  -- 19. Set hostname
  if config.Hostname != "" then
    if let some err ← call w (Op.sethostname config.Hostname) then
      Printf ("Warning: failed to set hostname: " ++ err ++ "\n")
  -- 20. Harden /proc
  hardenProc w
  -- 21. Mask sensitive paths
  maskSensitivePaths w
  Printf "Container init: setup complete, executing application...\n"
  -- 22. Finally, exec the container binary
  match ← call w (Op.exec config.BinaryPath [config.BinaryPath] w.environ) with
  | some err => fatal ("exec failed: " ++ err)
  | none => halt Halt.execd

/-! ## The set-up sequence as the specification words it -/

/-- Step 6: the six character devices, mode 0666, owner 0:0. -/
def specDeviceNodes (join : List String → String) (dev : String) : List Op :=
  [("null", 1, 3), ("zero", 1, 5), ("full", 1, 7), ("random", 1, 8), ("urandom", 1, 9),
    ("tty", 5, 0)].flatMap fun d =>
      [Op.mknod (join [dev, d.1]) (S_IFCHR ||| 0o666) (Mkdev d.2.1 d.2.2),
        Op.chown (join [dev, d.1]) 0 0]

/-- Step 7: the five symbolic links inside the device directory. -/
def specDevSymlinks (join : List String → String) (dev : String) : List Op :=
  [("fd", "/proc/self/fd"), ("stdin", "/proc/self/fd/0"), ("stdout", "/proc/self/fd/1"),
    ("stderr", "/proc/self/fd/2"), ("core", "/proc/kcore")].flatMap fun l =>
      [Op.symlink l.2 (join [dev, l.1])]

/-- Step 13: for each network file, make sure the target exists (`opened` tells
whether the file could be opened, in which case it is closed again), then
bind-mount the staged file over it. -/
def specNetworkFiles (join : List String → String) (rootfs dir : String)
    (opened : List Bool) : List Op :=
  (List.zip ["hostname", "hosts", "resolv.conf"] opened).flatMap fun p =>
    (Op.openFile (join [rootfs, "etc", p.1]) (O_CREATE ||| O_WRONLY) 0o644 ::
      (if p.2 then [Op.close (join [rootfs, "etc", p.1])] else [])) ++
      [Op.mount (join [dir, p.1]) (join [rootfs, "etc", p.1]) "" MS_BIND ""]

/-- Step 20: each entry that exists (`found`) is bind-mounted onto itself and
remounted read-only; absent entries are skipped. -/
def specHardenProc (found : List Bool) : List Op :=
  (List.zip ["bus", "fs", "irq", "sys", "sysrq-trigger"] found).flatMap fun p =>
    Op.stat ("/proc/" ++ p.1) ::
      (if p.2 then
        [Op.mount ("/proc/" ++ p.1) ("/proc/" ++ p.1) "" MS_BIND "",
          Op.mount "" ("/proc/" ++ p.1) "" (MS_REMOUNT ||| MS_BIND ||| MS_RDONLY) ""]
      else [])

/-- Step 21: each path is examined at run time (`kinds`: `none` absent,
`some true` a directory, `some false` a file); directories get a read-only
tmpfs, files get `/dev/null` bound over them. -/
def specMaskPaths (kinds : List (Option Bool)) : List Op :=
  (List.zip ["/proc/asound", "/proc/interrupts", "/proc/kcore", "/proc/keys",
      "/proc/latency_stats", "/proc/timer_list", "/proc/timer_stats", "/proc/sched_debug",
      "/proc/acpi", "/proc/scsi", "/sys/firmware"] kinds).flatMap fun p =>
    Op.stat p.1 ::
      (match p.2 with
        | none => []
        | some true => [Op.mount "tmpfs" p.1 "tmpfs" MS_RDONLY ""]
        | some false => [Op.mount "/dev/null" p.1 "" MS_BIND ""])

/-- Steps 1 to 21 of the set-up sequence, in the order of the specification. -/
def initSpecSetup (join : List String → String) (rootfs dir hostname : String)
    (opened found : List Bool) (kinds : List (Option Bool)) : List Op :=
  -- 1. root propagation
  [Op.mount "" "/" "" (MS_SLAVE ||| MS_REC) ""] ++
  -- 2. self-bind rootfs
  [Op.mount rootfs rootfs "" (MS_BIND ||| MS_REC) ""] ++
  -- 3. private rootfs
  [Op.mount "" rootfs "" MS_PRIVATE ""] ++
  -- 4. procfs
  [Op.mkdirAll (join [rootfs, "proc"]) 0o755,
    Op.mount "proc" (join [rootfs, "proc"]) "proc" 0 ""] ++
  -- 5. dev tmpfs
  [Op.mkdirAll (join [rootfs, "dev"]) 0o755,
    Op.mount "tmpfs" (join [rootfs, "dev"]) "tmpfs" (MS_NOSUID ||| MS_STRICTATIME)
      "mode=0755,size=65536k"] ++
  -- 6. device nodes
  specDeviceNodes join (join [rootfs, "dev"]) ++
  -- 7. dev symlinks
  specDevSymlinks join (join [rootfs, "dev"]) ++
  -- 8. devpts and ptmx
  [Op.mkdirAll (join [join [rootfs, "dev"], "pts"]) 0o755,
    Op.mount "devpts" (join [join [rootfs, "dev"], "pts"]) "devpts" 0
      "newinstance,ptmxmode=0666,mode=0620",
    Op.symlink "/dev/pts/ptmx" (join [join [rootfs, "dev"], "ptmx"])] ++
  -- 9. POSIX message queues
  [Op.mkdirAll (join [join [rootfs, "dev"], "mqueue"]) 0o755,
    Op.mount "mqueue" (join [join [rootfs, "dev"], "mqueue"]) "mqueue"
      (MS_NOSUID ||| MS_NODEV ||| MS_NOEXEC) ""] ++
  -- 10. shared memory
  [Op.mkdirAll (join [join [rootfs, "dev"], "shm"]) 0o755,
    Op.mount "tmpfs" (join [join [rootfs, "dev"], "shm"]) "tmpfs"
      (MS_NOSUID ||| MS_NODEV ||| MS_NOEXEC) "mode=1777,size=67108864"] ++
  -- 11. sysfs
  [Op.mkdirAll (join [rootfs, "sys"]) 0o755,
    Op.mount "sysfs" (join [rootfs, "sys"]) "sysfs"
      (MS_RDONLY ||| MS_NOSUID ||| MS_NODEV ||| MS_NOEXEC) ""] ++
  -- 12. cgroup v2
  [Op.mkdirAll (join [join [rootfs, "sys"], "fs", "cgroup"]) 0o755,
    Op.mount "cgroup2" (join [join [rootfs, "sys"], "fs", "cgroup"]) "cgroup2"
      (MS_RDONLY ||| MS_NOSUID ||| MS_NODEV ||| MS_NOEXEC) ""] ++
  -- 13. network-file bind mounts
  specNetworkFiles join rootfs dir opened ++
  -- 14. pivot root
  [Op.mkdirAll (join [rootfs, ".oldroot"]) 0o755,
    Op.pivotRoot rootfs (join [rootfs, ".oldroot"])] ++
  -- 15. chdir to /
  [Op.chdir "/"] ++
  -- 16. mark new root slave
  [Op.mount "" "/" "" (MS_SLAVE ||| MS_REC) ""] ++
  -- 17. detach old root
  [Op.unmount "/.oldroot" MNT_DETACH] ++
  -- 18. delete mountpoint
  [Op.removeAll "/.oldroot"] ++
  -- 19. hostname
  (if hostname = "" then [] else [Op.sethostname hostname]) ++
  -- 20. proc hardening
  specHardenProc found ++
  -- 21. path masking
  specMaskPaths kinds

/-- Steps 1 to 22 of the set-up sequence: the set-up steps, then step 22, the
`exec` of the payload with itself as only argument. -/
def initSpecTrace (join : List String → String) (rootfs dir binary hostname : String)
    (environ : List String) (opened found : List Bool) (kinds : List (Option Bool)) :
    List Op :=
  initSpecSetup join rootfs dir hostname opened found kinds ++
    [Op.exec binary [binary] environ]

/-- Output on the standard streams, as opposed to a system operation. -/
def Op.isOutput : Op → Bool
  | Op.stdout _ => true
  | Op.stderr _ => true
  | _ => false

/-- The system operations of a trace, output left aside. -/
def sysOps (t : List Op) : List Op := t.filter fun op => !op.isOutput

/-- The operations whose success the init ordering claim assumes: mount, mknod,
pivot_root, chdir, unmount and sethostname. -/
def Op.isSetupCall : Op → Bool
  | Op.mount _ _ _ _ _ => true
  | Op.mknod _ _ _ => true
  | Op.pivotRoot _ _ => true
  | Op.chdir _ => true
  | Op.unmount _ _ => true
  | Op.sethostname _ => true
  | _ => false

/-- The operations a piece of code performs when started in state `s`. -/
def performed {α : Type} (p : Proc α) (s : State) : List Op :=
  (p s).2.trace.drop s.trace.length

/-- The calls of `RunContainerInit` whose error is checked and passed to
`fatal`: the mounts of steps 1 to 5, 8, 10, 11 and 16 (told apart from the
unchecked mounts by file-system type and flags), `pivot_root`, `chdir`, the
unmount of the old root and the final `exec`. -/
def Op.isCheckedCall : Op → Bool
  | Op.mount _ _ fstype flags _ =>
    fstype == "proc" || fstype == "devpts" || fstype == "sysfs" ||
      (fstype == "tmpfs" && flags != MS_RDONLY) ||
      (fstype == "" &&
        (flags == (MS_SLAVE ||| MS_REC) || flags == (MS_BIND ||| MS_REC) || flags == MS_PRIVATE))
  | Op.pivotRoot _ _ => true
  | Op.chdir _ => true
  | Op.unmount _ _ => true
  | Op.exec _ _ _ => true
  | _ => false

/-- A piece of code stops at the first checked call that fails: whenever the
operations it performs contain a checked call `op` that the world fails, the
only operation after `op` is the diagnostic of `fatal` and the process has
exited with status 1. -/
def FailStop {α : Type} (w : World) (p : Proc α) : Prop :=
  ∀ s : State,
    (∃ ops, (p s).2.trace = s.trace ++ ops) ∧
    ∀ (pre : List Op) (op : Op) (post : List Op) (e : String),
      (p s).2.trace = s.trace ++ pre ++ op :: post →
      Op.isCheckedCall op = true → w.err (s.trace ++ pre) op = some e →
      (p s).1 = Outcome.halt (Halt.exited 1) ∧
        ∃ msg, post = [Op.stderr ("Container init error: " ++ msg ++ "\n")]

/-! ## Concrete environments used to exercise the statements -/

/-- State of a process that has not done anything yet: empty registries, empty
trace, clock at zero. -/
def State.initial : State :=
  { ContainersRunning := [], ContainersStarting := [], ContainerStopped := [],
    trace := [], now := 0 }

/-- Joining path elements with a slash; stands in for `filepath.Join` in the
concrete runs. -/
def pathJoin (elem : List String) : String := "/".intercalate elem

/-- The variables the launcher passes to the init process. -/
def launcherEnv (key : String) : String :=
  if key = "CNTR_ROOTFS" then "/c/root_fs"
  else if key = "CNTR_DIR" then "/c"
  else if key = "CNTR_BINARY" then "/home/container/container-app"
  else if key = "CNTR_HOSTNAME" then "container-aaaaaaa"
  else ""

/-- A world in which every call succeeds. -/
def calmWorld : World :=
  { getenv := launcherEnv, environ := [], err := fun _ _ => none, isDir := fun _ _ => false,
    intn := fun _ _ => 0, cwd := fun _ => "/work", childPid := fun _ => 4242 }

/-- A world in which no environment variable is set. -/
def bareWorld : World :=
  { calmWorld with getenv := fun _ => "" }

/-- A world in which creating a symbolic link is refused and every other call
succeeds. -/
def symlinkDeniedWorld : World :=
  { calmWorld with
    err := fun _ op =>
      match op with
      | Op.symlink _ _ => some "permission denied"
      | _ => none }

/-- A world in which every mount is refused and every other call succeeds. -/
def mountDeniedWorld : World :=
  { calmWorld with
    err := fun _ op =>
      match op with
      | Op.mount _ _ _ _ _ => some "operation not permitted"
      | _ => none }

/-! ## `container_cleanup.go`: liveness probe and termination -/

/-- `time.Millisecond`, in nanoseconds like every `time.Duration`. -/
def Millisecond : Int := 1000000

/-- `time.Second`. -/
def Second : Int := 1000 * Millisecond

/-- `time.Now()`: the reading of the virtual clock. -/
def timeNow : Proc Int := fun s => (Outcome.ret s.now, s)

/-- `time.Sleep d`: the clock advances by `d`; a negative or zero duration
returns immediately. -/
def timeSleep (d : Int) : Proc Unit := fun s =>
  (Outcome.ret (), { s with trace := s.trace ++ [Op.sleep d], now := s.now + max d 0 })

/-- `processExists`: signal 0 is delivered without error. -/
def processExists (w : World) (pid : Int) : Proc Bool := do
  let err ← call w (Op.kill pid 0)
  pure err.isNone

/-- The loop `for time.Now().Before(deadline) { if !processExists(pid) { return nil };
time.Sleep(100 * time.Millisecond) }` of `killAndWait`.  The result is `true`
when the function returns from inside the loop (the process died) and `false`
when the deadline ends the loop.  `fuel` bounds the number of condition
checks; running out of it halts the process as `hung`. -/
def pollUntilDead (w : World) (pid : Int) (deadline : Int) : Nat → Proc Bool
  | 0 => halt Halt.hung
  | fuel + 1 => do
    let now ← timeNow
    if now < deadline then
      let alive ← processExists w pid
      if !alive then
        pure true
      else do
        timeSleep (100 * Millisecond)
        pollUntilDead w pid deadline fuel
    else
      pure false

/-- Number of condition checks granted to one polling loop: enough for the
clock, advancing by 100 ms per iteration, to reach the deadline. -/
def pollBound (timeout : Int) : Nat := (timeout / (100 * Millisecond)).toNat + 2

/-- `killAndWait`; the result is the returned `error` (`none` for `nil`). -/
def killAndWait (w : World) (pid : Int) (timeout : Int) : Proc (Option String) := do
  -- First check if process exists
  let alive ← processExists w pid
  if !alive then
    pure none
  else do
    -- Try SIGTERM first
    let _ ← call w (Op.kill pid SIGTERM)
    -- Wait for process to die (check every 100ms)
    let deadline := (← timeNow) + timeout
    let died ← pollUntilDead w pid deadline (pollBound timeout)
    if died then
      pure none
    else do
      -- Process didn't die, force kill with SIGKILL
      let _ ← call w (Op.kill pid SIGKILL)
      -- Wait again for SIGKILL to take effect
      let deadline := (← timeNow) + timeout
      let died ← pollUntilDead w pid deadline (pollBound timeout)
      if died then
        pure none
      else do
        -- Check one last time
        let alive ← processExists w pid
        if alive then
          pure (some ("process " ++ toString pid ++ " still exists after SIGKILL"))
        else
          pure none

/-- Number of 100 ms sleeps one polling phase takes when the process never
dies: the timeout rounded up to whole poll intervals. -/
def pollTicks (timeout : Int) : Nat := ((timeout + (100 * Millisecond - 1)) / (100 * Millisecond)).toNat

/-- One round of a polling phase on a live process: a probe, then a sleep. -/
def pollRound (pid : Int) : List Op := [Op.kill pid 0, Op.sleep (100 * Millisecond)]

/-- A world in which the probed process never dies. -/
def unkillableWorld : World :=
  { calmWorld with err := fun _ _ => none }

/-- A world in which the process is alive until the manager has slept once, and
dead from then on: signals sent to it fail once a sleep has elapsed. -/
def diesWhileSleepingWorld : World :=
  { calmWorld with
    err := fun h op =>
      match op with
      | Op.kill _ _ => if h.any (fun o => match o with | Op.sleep _ => true | _ => false)
          then some "no such process" else none
      | _ => none }

/-- A signal that is meant to act on the process: any `kill` other than the
liveness probe with signal 0. -/
def Op.isSignal : Op → Bool
  | Op.kill _ sig => sig != 0
  | _ => false

/-- The signals sent in a trace, liveness probes left aside. -/
def signalsSent (t : List Op) : List Op := t.filter Op.isSignal

/-! ## `utils/random_cn.go` -/

/-- The alphabet of container names. -/
def charset : String := "abcdefghijklmnopqrstuvwxyzABCDEFGHIJKLMNOPQRSTUVWXYZ0123456789"

/-- `rand.Intn n`. -/
def randIntn (w : World) (n : Nat) : Proc Nat := fun s =>
  (Outcome.ret (w.intn s.trace n), { s with trace := s.trace ++ [Op.randIntn n] })

/-- The loop of `GenerateRandomContainerName`: `n` more bytes are written to
the builder `sb`.  An index outside the alphabet is a run-time panic (exit
status 2). -/
def writeRandomBytes (w : World) : Nat → String → Proc String
  | 0, sb => pure sb
  | n + 1, sb => do
    let k ← randIntn w charset.length
    match charset.data[k]? with
    | some c => writeRandomBytes w n (sb.push c)
    | none => halt (Halt.exited 2)

/-- `GenerateRandomContainerName`; growing the builder by a negative length is
a run-time panic (exit status 2). -/
def GenerateRandomContainerName (w : World) (length : Int) : Proc String := do
  if length < 0 then
    halt (Halt.exited 2)
  else do
    let sb ← writeRandomBytes w length.toNat ""
    pure ("container-" ++ sb)

/-! ## `container_create.go` -/

/-- `log.Fatal`: the message goes to the logger, then `os.Exit(1)`. -/
def logFatal {α : Type} (msg : String) : Proc α := do
  emit (Op.logFatal msg)
  halt (Halt.exited 1)

/-- `prepareNewContainerRootFs`. -/
def prepareNewContainerRootFs (w : World) : Proc Container := do
  Printf "Preparing root filesystem..\n"
  let containerName ← GenerateRandomContainerName w 7
  let containerPath := ".containers/" ++ containerName
  let rootFsPath := containerPath ++ "/root_fs"
  let _ ← call w (Op.mkdirAll rootFsPath 0o755)
  -- container dir is created. Now copy the base rootfs over there
  let cp_err ← call w (Op.copy "./root_fs/" rootFsPath)
  match cp_err with
  | some e => logFatal e
  | none =>
    pure { Name := containerName, Location := containerPath, RootfsLocation := rootFsPath,
           NamespacePID := 0 }

/-- `prepareTempNetworkFiles`. -/
def prepareTempNetworkFiles (w : World) (container : Container) : Proc Unit := do
  let etcHostsContentFormatted :=
    "127.0.0.1\t\tlocalhost " ++ container.Name ++
      "\n::1\t\t\t\tlocalhost ip6-localhost ip6-loopback"
  let etcHostnameContentFormatted := container.Name
  let err ← call w (Op.writeFile (container.Location ++ "/hosts") etcHostsContentFormatted 0o644)
  if err.isSome then
    Printf "Could not write the /etc/hosts file temporarily"
  let err ← call w
    (Op.writeFile (container.Location ++ "/hostname") etcHostnameContentFormatted 0o644)
  if err.isSome then
    Printf "Could not write the /etc/hostname file temporarily"
  -- Copy /etc/resolv.conf
  let cp_err ← call w (Op.copy "/etc/resolv.conf" (container.Location ++ "/resolv.conf"))
  if cp_err.isSome then
    Printf "Could not copy /etc/resolv.conf file temporarily"

/-- `absolutePath`: the path and the error of the Go pair. -/
def absolutePath (w : World) (path : String) : Proc (String × Option String) := do
  if path.data.head? = some '/' then
    pure (path, none)
  else do
    let before ← getState
    match ← call w Op.getwd with
    | some err => pure ("", some err)
    | none => pure (w.cwd before.trace ++ "/" ++ path, none)

def CLONE_NEWNS : Nat := 0x20000
def CLONE_NEWCGROUP : Nat := 0x2000000
def CLONE_NEWUTS : Nat := 0x4000000
def CLONE_NEWPID : Nat := 0x20000000
def CLONE_NEWNET : Nat := 0x40000000

/-- `launchNamespaces`: the container as the pointer argument leaves it, and
the returned error. -/
def launchNamespaces (w : World) (container : Container) (binaryPath : String) :
    Proc (Container × Option String) := do
  Printf "Launching new namespaces using re-exec pattern...\n"
  let containerAppDir := container.RootfsLocation ++ "/home/container"
  let containerAppPath := containerAppDir ++ "/container-app"
  -- Create the /home/container directory if it doesn't exist
  match ← call w (Op.mkdirAll containerAppDir 0o755) with
  | some err => pure (container, some ("failed to create /home/container directory: " ++ err))
  | none =>
  -- Copy the binary
  match ← call w (Op.copy binaryPath containerAppPath) with
  | some err => pure (container, some ("failed to copy binary to container: " ++ err))
  | none =>
  -- Make it executable
  match ← call w (Op.chmod containerAppPath 0o755) with
  | some err => pure (container, some ("failed to make binary executable: " ++ err))
  | none =>
  Printf ("Copied " ++ binaryPath ++ " to container at /home/container/container-app\n")
  -- Get absolute paths for the container
  match ← absolutePath w container.RootfsLocation with
  | (_, some err) => pure (container, some ("failed to get absolute rootfs path: " ++ err))
  | (absRootfs, none) =>
  match ← absolutePath w container.Location with
  | (_, some err) =>
    pure (container, some ("failed to get absolute container dir path: " ++ err))
  | (absContainerDir, none) =>
  -- Re-exec pattern: run ourselves with "init" argument
  let env := w.environ ++
    ["CNTR_ROOTFS=" ++ absRootfs, "CNTR_DIR=" ++ absContainerDir,
     "CNTR_BINARY=/home/container/container-app", "CNTR_HOSTNAME=" ++ container.Name]
  let before ← getState
  -- Start the init process in new namespaces
  match ← call w (Op.start "/proc/self/exe" ["/proc/self/exe", "init"] env
      (CLONE_NEWNS ||| CLONE_NEWPID ||| CLONE_NEWCGROUP ||| CLONE_NEWUTS ||| CLONE_NEWNET) true) with
  | some err => pure (container, some ("failed to start container init process: " ++ err))
  | none =>
  -- Store the PID of the namespace process
  let container := { container with NamespacePID := w.childPid before.trace }
  Printf ("Launched container init process with PID " ++ toString container.NamespacePID ++
    " for container: " ++ container.Name ++ "\n")
  pure (container, none)

/-! ## `main.go` of the container package -/

/-- Replace the registry of running containers. -/
def setRunning (cs : List Container) : Proc Unit := fun s =>
  (Outcome.ret (), { s with ContainersRunning := cs })

/-- Replace the registry of starting containers. -/
def setStarting (cs : List Container) : Proc Unit := fun s =>
  (Outcome.ret (), { s with ContainersStarting := cs })

/-- `LaunchContainer`. -/
def LaunchContainer (w : World) (binaryPath : String) : Proc Unit := do
  Printf ("Launching container with binary: " ++ binaryPath ++ "\n")
  -- Prepare the container
  let newContainer ← prepareNewContainerRootFs w
  prepareTempNetworkFiles w newContainer
  -- Launch the namespaces with the binary
  let (newContainer, err) ← launchNamespaces w newContainer binaryPath
  match err with
  | some e => Printf ("Error launching container: " ++ e ++ "\n")
  | none =>
    -- Move container from starting to running
    setRunning ((← getState).ContainersRunning ++ [newContainer])
    Printf ("Container '" ++ newContainer.Name ++ "' launched successfully (PID: " ++
      toString newContainer.NamespacePID ++ ")\n")

/-- `ListContainers`. -/
def ListContainers (w : World) : Proc Unit := do
  Printf "\n=== Containers ===\n"
  let running := (← getState).ContainersRunning
  if running.length = 0 then
    Printf "No containers found.\n"
  else
    if running.length > 0 then
      Printf "\nRunning:\n"
      forEach running fun c => do
        let alive ← processExists w c.NamespacePID
        let status := if !alive then "stopped" else "running"
        Printf ("  - " ++ c.Name ++ " (PID: " ++ toString c.NamespacePID ++ ", Status: " ++
          status ++ ")\n")

/-- Go `for i, c := range xs { ... }` whose body may return from the enclosing
function: the body answers `true` when it returned, and the loop stops there.
`i` is the index of the head of `xs`. -/
def rangeUntil {α : Type} : List α → Nat → (Nat → α → Proc Bool) → Proc Bool
  | [], _, _ => pure false
  | x :: xs, i, body => do
    if ← body i x then
      pure true
    else
      rangeUntil xs (i + 1) body

/-- The steps of `DeleteContainer` on a record that matched: kill the process,
remove the directory. -/
def stopAndRemove (w : World) (c : Container) : Proc Unit := do
  -- Kill the process
  if c.NamespacePID > 0 then
    match ← killAndWait w c.NamespacePID (5 * Second) with
    | some err => Printf ("Warning: " ++ err ++ "\n")
    | none => pure ()
  -- Remove the container directory
  match ← call w (Op.removeAll c.Location) with
  | some err => Printf ("Error removing container directory: " ++ err ++ "\n")
  | none => pure ()

/-- `DeleteContainer`. -/
def DeleteContainer (w : World) (name : String) : Proc Unit := do
  -- Search in running containers
  let returned ← rangeUntil (← getState).ContainersRunning 0 fun i c => do
    if c.Name = name then
      stopAndRemove w c
      -- Remove from list
      let running := (← getState).ContainersRunning
      setRunning (running.take i ++ running.drop (i + 1))
      Printf ("Container '" ++ name ++ "' deleted successfully\n")
      pure true
    else
      pure false
  if returned then
    pure ()
  else do
    -- Search in starting containers
    let returned ← rangeUntil (← getState).ContainersStarting 0 fun i c => do
      if c.Name = name then
        stopAndRemove w c
        -- Remove from list
        let starting := (← getState).ContainersStarting
        setStarting (starting.take i ++ starting.drop (i + 1))
        Printf ("Container '" ++ name ++ "' deleted successfully\n")
        pure true
      else
        pure false
    if returned then
      pure ()
    else
      Printf ("Container '" ++ name ++ "' not found\n")

/-! ## `container_cleanup.go`: bulk cleanup -/

/-- The body shared by `cleanupRunningContainers` and
`cleanupStartingContainers`; `kind` is the word of the failure message. -/
def cleanupOne (w : World) (kind : String) (container : Container) : Proc Unit := do
  -- Kill the namespace process if it exists
  if container.NamespacePID > 0 then
    Printf ("Killing namespace process (PID " ++ toString container.NamespacePID ++
      ") for container: " ++ container.Name ++ "\n")
    match ← killAndWait w container.NamespacePID (5 * Second) with
    | some err => Printf ("Warning: " ++ err ++ "\n")
    | none => Printf ("Confirmed process " ++ toString container.NamespacePID ++ " is terminated\n")
  -- remove the container directory inside the .containers folder
  let err ← call w (Op.removeAll container.Location)
  if err.isSome then
    Printf ("Could not remove " ++ kind ++ " container: " ++ container.Name ++ "\n")

/-- `cleanupRunningContainers`. -/
def cleanupRunningContainers (w : World) : Proc Unit := do
  forEach (← getState).ContainersRunning (cleanupOne w "running")
  if (← getState).ContainersRunning.length > 0 then
    Printf "Cleaned-up all running containers.\n"

/-- `cleanupStartingContainers`. -/
def cleanupStartingContainers (w : World) : Proc Unit := do
  forEach (← getState).ContainersStarting (cleanupOne w "starting")
  if (← getState).ContainersStarting.length > 0 then
    Printf "Cleaned-up all starting containers.\n"

/-- `cleanupContainers`. -/
def cleanupContainers (w : World) : Proc Unit := do
  cleanupRunningContainers w
  cleanupStartingContainers w

/-- `CleanupAllContainers`. -/
def CleanupAllContainers (w : World) : Proc Unit := do
  Printf "Cleaning up all containers...\n"
  cleanupContainers w

/-! ## Runs of the manager -/

/-- One operation of the manager, as chosen from the menu. -/
inductive Cmd where
  | launch (binaryPath : String)
  | list
  | delete (name : String)
  | cleanup
  deriving DecidableEq, Repr

/-- Carry out one operation. -/
def Cmd.run (w : World) : Cmd → Proc Unit
  | Cmd.launch binaryPath => LaunchContainer w binaryPath
  | Cmd.list => ListContainers w
  | Cmd.delete name => DeleteContainer w name
  | Cmd.cleanup => CleanupAllContainers w

/-- Carry out a sequence of operations, one after the other. -/
def runCmds (w : World) (cmds : List Cmd) : Proc Unit := forEach cmds (Cmd.run w)

/-- The state the manager reaches from its start by a sequence of operations. -/
def reached (w : World) (cmds : List Cmd) : State := (runCmds w cmds State.initial).2

/-! ## The directory tree, as the manager's own calls shape it -/

/-- `p` is the path `root` itself or a path below it. -/
def pathWithin (root p : String) : Bool :=
  p = root || (root.data ++ ['/']).isPrefixOf p.data

/-- The calls that create or remove paths. -/
def Op.touchesDisk : Op → Bool
  | Op.mkdirAll _ _ => true
  | Op.copy _ _ => true
  | Op.writeFile _ _ _ => true
  | Op.removeAll _ => true
  | _ => false

/-- Effect of one operation, issued after history `h`, on the set `d` of
existing paths.  A successful `MkdirAll` or copy makes its target and every
ancestor of it exist, a successful `WriteFile` its target, a successful
`RemoveAll` removes its target and everything below; a failed call and every
other operation leave the set as it is. -/
def applyOp (w : World) (h : List Op) (d : String → Bool) (op : Op) : String → Bool :=
  match op with
  | Op.mkdirAll path _ =>
    if (w.err h op).isNone then fun q => d q || pathWithin q path else d
  | Op.copy _ dest =>
    if (w.err h op).isNone then fun q => d q || pathWithin q dest else d
  | Op.writeFile name _ _ =>
    if (w.err h op).isNone then fun q => d q || q = name else d
  | Op.removeAll path =>
    if (w.err h op).isNone then fun q => d q && !pathWithin path q else d
  | _ => d

/-- Effect of the operations `ops`, issued in order after history `h`. -/
def replay (w : World) : List Op → (String → Bool) → List Op → (String → Bool)
  | _, d, [] => d
  | h, d, op :: ops => replay w (h ++ [op]) (applyOp w h d op) ops

/-- The paths that exist once a process that started on disk `d0` has
performed the trace `t`. -/
def diskAfter (w : World) (d0 : String → Bool) (t : List Op) : String → Bool :=
  replay w [] d0 t

/-- The names held by the three registries. -/
def State.names (s : State) : List String :=
  (s.ContainersRunning ++ s.ContainersStarting ++ s.ContainerStopped).map Container.Name

/-- What `DeleteContainer` prints after `killAndWait` returned `r`. -/
def killWarning (r : Option String) : List Op :=
  match r with
  | some err => [Op.stdout ("Warning: " ++ err ++ "\n")]
  | none => []

/-- What `DeleteContainer` prints after `os.RemoveAll` returned `r`. -/
def removeError (r : Option String) : List Op :=
  match r with
  | some err => [Op.stdout ("Error removing container directory: " ++ err ++ "\n")]
  | none => []

/-- A piece of code leaves the three registries alone:
it keeps the registries, only adds to the trace, and every value it returns
satisfies `Q`. -/
def Keeps {α : Type} (Q : α → Prop) (p : Proc α) : Prop :=
  ∀ s : State,
    ((p s).2.ContainersRunning = s.ContainersRunning ∧
      (p s).2.ContainersStarting = s.ContainersStarting ∧
      (p s).2.ContainerStopped = s.ContainerStopped) ∧
    (∃ ops, (p s).2.trace = s.trace ++ ops) ∧
    ∀ a, (p s).1 = Outcome.ret a → Q a

/-- The state in which `LaunchContainer` draws the name of the new container:
the two progress lines have been printed. -/
def State.atDraw (s : State) (binaryPath : String) : State :=
  { s with
    trace := s.trace ++ [Op.stdout ("Launching container with binary: " ++ binaryPath ++ "\n")] ++
      [Op.stdout "Preparing root filesystem..\n"] }

/-- The operations of a launch in which every call succeeds, from the moment
the name `n` has been drawn (history `h`): staging of the root file system and
of the three network files, staging of the payload, resolution of the two
paths, spawn of the init process, and the two closing lines. -/
def launchOps (w : World) (h : List Op) (binaryPath n : String) : List Op :=
  let loc := ".containers/" ++ n
  let rootfs := loc ++ "/root_fs"
  let app := rootfs ++ "/home/container" ++ "/container-app"
  let staged : List Op :=
    [Op.mkdirAll rootfs 0o755,
     Op.copy "./root_fs/" rootfs,
     Op.writeFile (loc ++ "/hosts")
       ("127.0.0.1\t\tlocalhost " ++ n ++ "\n::1\t\t\t\tlocalhost ip6-localhost ip6-loopback") 0o644,
     Op.writeFile (loc ++ "/hostname") n 0o644,
     Op.copy "/etc/resolv.conf" (loc ++ "/resolv.conf"),
     Op.stdout "Launching new namespaces using re-exec pattern...\n",
     Op.mkdirAll (rootfs ++ "/home/container") 0o755,
     Op.copy binaryPath app,
     Op.chmod app 0o755,
     Op.stdout ("Copied " ++ binaryPath ++ " to container at /home/container/container-app\n")]
  let absRootfs := w.cwd (h ++ staged) ++ "/" ++ rootfs
  let absContainerDir := w.cwd (h ++ staged ++ [Op.getwd]) ++ "/" ++ loc
  let env := w.environ ++
    ["CNTR_ROOTFS=" ++ absRootfs, "CNTR_DIR=" ++ absContainerDir,
     "CNTR_BINARY=/home/container/container-app", "CNTR_HOSTNAME=" ++ n]
  let pid := w.childPid (h ++ staged ++ [Op.getwd, Op.getwd])
  staged ++ [Op.getwd, Op.getwd,
    Op.start "/proc/self/exe" ["/proc/self/exe", "init"] env
      (CLONE_NEWNS ||| CLONE_NEWPID ||| CLONE_NEWCGROUP ||| CLONE_NEWUTS ||| CLONE_NEWNET) true,
    Op.stdout ("Launched container init process with PID " ++ toString pid ++
      " for container: " ++ n ++ "\n"),
    Op.stdout ("Container '" ++ n ++ "' launched successfully (PID: " ++ toString pid ++ ")\n")]

/-- The pid recorded by a launch in which every call succeeds. -/
def launchPid (w : World) (h : List Op) (binaryPath n : String) : Int :=
  w.childPid (h ++ (launchOps w h binaryPath n).take 12)

/-- Along the run of `cmds` from state `s`, every launch draws a name that no
registry holds at that moment. -/
def FreshNames (w : World) : State → List Cmd → Prop
  | _, [] => True
  | s, c :: cs =>
    (∀ binaryPath n s1, c = Cmd.launch binaryPath →
      GenerateRandomContainerName w 7 (s.atDraw binaryPath) = (Outcome.ret n, s1) →
      n ∉ s.names) ∧
    (∀ s', Cmd.run w c s = (Outcome.ret (), s') → FreshNames w s' cs)

/-- The record a launch produces in `calmWorld`, whose random source always
answers 0 and whose children always get pid 4242. -/
def calmContainer : Container :=
  { Name := "container-aaaaaaa", Location := ".containers/container-aaaaaaa",
    RootfsLocation := ".containers/container-aaaaaaa/root_fs", NamespacePID := 4242 }

/-- The state reached in `calmWorld` by launching twice. -/
def twinState : State := reached calmWorld [Cmd.launch "/bin/sh", Cmd.launch "/bin/sh"]

/-- A world in which every signal, the liveness probe included, finds no
process, and every other call succeeds. -/
def deadProcessWorld : World :=
  { calmWorld with
    err := fun _ op =>
      match op with
      | Op.kill _ _ => some "no such process"
      | _ => none }

/-- A manager state whose only record is `calmContainer`, in running. -/
def singleState : State :=
  { State.initial with ContainersRunning := [calmContainer] }

/-- Deleting `name` from state `s`, where `c` is the first record with that
name (after `pre`, before `post`, in running or else in starting) and its
process is already dead: `DeleteContainer` probes once, sends no signal, does
not sleep, calls `RemoveAll` on the location, removes the record from its
registry and reports success; when the `RemoveAll` succeeds the location is
gone from the disk that started as `d0`. -/
def QuietDelete (w : World) (name : String) (s : State) (c : Container)
    (pre post : List Container) (d0 : String → Bool) : Prop :=
  ∃ s' : State,
    DeleteContainer w name s = (Outcome.ret (), s') ∧
    performed (DeleteContainer w name) s =
      [Op.kill c.NamespacePID 0, Op.removeAll c.Location] ++
        removeError (w.err (s.trace ++ [Op.kill c.NamespacePID 0]) (Op.removeAll c.Location)) ++
        [Op.stdout ("Container '" ++ name ++ "' deleted successfully\n")] ∧
    signalsSent (performed (DeleteContainer w name) s) = [] ∧
    s'.now = s.now ∧
    (s.ContainersRunning = pre ++ c :: post →
      s'.ContainersRunning = pre ++ post ∧ s'.ContainersStarting = s.ContainersStarting) ∧
    (s.ContainersStarting = pre ++ c :: post → (∀ x ∈ s.ContainersRunning, x.Name ≠ name) →
      s'.ContainersRunning = s.ContainersRunning ∧ s'.ContainersStarting = pre ++ post) ∧
    s'.ContainerStopped = s.ContainerStopped ∧
    (w.err (s.trace ++ [Op.kill c.NamespacePID 0]) (Op.removeAll c.Location) = none →
      diskAfter w d0 s'.trace c.Location = false)

/-! ## Location directories and registry records -/

/-- The calls a launch makes to stage and spawn a container. -/
def Op.isLaunchCall : Op → Bool
  | Op.mkdirAll _ _ => true
  | Op.copy _ _ => true
  | Op.writeFile _ _ _ => true
  | Op.chmod _ _ => true
  | Op.getwd => true
  | Op.start _ _ _ _ _ => true
  | _ => false

/-- Every staging and spawn call succeeds, whenever it is made. -/
def LaunchCallsSucceed (w : World) : Prop :=
  ∀ h op, Op.isLaunchCall op = true → w.err h op = none

/-- Every `os.RemoveAll` succeeds, whenever it is made. -/
def RemovalsSucceed (w : World) : Prop :=
  ∀ h path, w.err h (Op.removeAll path) = none

/-- The operation is a launch or a delete. -/
def Cmd.isLaunchOrDelete : Cmd → Bool
  | Cmd.launch _ => true
  | Cmd.delete _ => true
  | _ => false

/-- The records of running and starting. -/
def State.live (s : State) : List Container := s.ContainersRunning ++ s.ContainersStarting

/-- A disk on which nothing exists. -/
def emptyDisk : String → Bool := fun _ => false

/-- A world in which spawning a process is refused and every other call
succeeds. -/
def spawnDeniedWorld : World :=
  { calmWorld with
    err := fun _ op =>
      match op with
      | Op.start _ _ _ _ _ => some "operation not permitted"
      | _ => none }

/-- A world in which `os.RemoveAll` is refused, every signal finds no process,
and every other call succeeds. -/
def removeDeniedWorld : World :=
  { calmWorld with
    err := fun _ op =>
      match op with
      | Op.removeAll _ => some "permission denied"
      | Op.kill _ _ => some "no such process"
      | _ => none }

/-- The operations of a launch whose staging succeeds and whose spawn fails
with `e`, from the moment the name `n` has been drawn (history `h`). -/
def failedLaunchOps (w : World) (h : List Op) (binaryPath n e : String) : List Op :=
  (launchOps w h binaryPath n).take 13 ++
    [Op.stdout ("Error launching container: " ++
      ("failed to start container init process: " ++ e) ++ "\n")]

/-- The trace of a launch that starts the manager, up to the moment the name
has been drawn. -/
def firstDraw (binaryPath : String) : List Op :=
  [Op.stdout ("Launching container with binary: " ++ binaryPath ++ "\n"),
   Op.stdout "Preparing root filesystem..\n",
   Op.randIntn 62, Op.randIntn 62, Op.randIntn 62, Op.randIntn 62, Op.randIntn 62,
   Op.randIntn 62, Op.randIntn 62]

/-- The link between registries and disk that launches and deletes maintain
as long as their calls succeed and names do not repeat: starting and stopped
are empty, names are distinct, every running record has a slash-free name and
the location `.containers/<name>`, and a directory `.containers/<n>` exists
exactly when running holds a record named `n`. -/
def Tidy (w : World) (d0 : String → Bool) (s : State) : Prop :=
  s.ContainersStarting = [] ∧ s.ContainerStopped = [] ∧ s.names.Nodup ∧
  (∀ c ∈ s.ContainersRunning, '/' ∉ c.Name.data ∧ c.Location = ".containers/" ++ c.Name) ∧
  ∀ n : String, '/' ∉ n.data →
    (diskAfter w d0 s.trace (".containers/" ++ n) = true ↔ ∃ c ∈ s.ContainersRunning, c.Name = n)

/-! ## Bulk cleanup, record by record -/

/-- A recursive removal. -/
def Op.isRemoval : Op → Bool
  | Op.removeAll _ => true
  | _ => false

/-- Between `s` and `s'` the process has only written to standard output. -/
def OnlyOutput (s s' : State) : Prop :=
  ∃ outs : List Op, (∀ op ∈ outs, ∃ text, op = Op.stdout text) ∧
    s' = { s with trace := s.trace ++ outs }

/-- One visit of bulk cleanup, from `s` to `s'`: `killAndWait` with the pid of
the record and 5 s runs exactly when the pid is positive, then `RemoveAll` is
called on the location of the record; before, between and after the two the
process only writes to standard output. -/
def Visit (w : World) (c : Container) (s s' : State) : Prop :=
  ∃ s1 s2 s3 : State, OnlyOutput s s1 ∧
    (if 0 < c.NamespacePID then
      ∃ r, killAndWait w c.NamespacePID (5 * Second) s1 = (Outcome.ret r, s2)
    else s2 = s1) ∧
    OnlyOutput s2 s3 ∧
    OnlyOutput { s3 with trace := s3.trace ++ [Op.removeAll c.Location] } s'

/-- The records `cs` are visited one after the other, in order. -/
def Visits (w : World) : List Container → State → State → Prop
  | [], s, s' => s' = s
  | c :: cs, s, s' => ∃ s1, Visit w c s s1 ∧ Visits w cs s1 s'

/-- The line bulk cleanup prints after `killAndWait` returned `r`. -/
def cleanupResultLine (pid : Int) (r : Option String) : Op :=
  match r with
  | some err => Op.stdout ("Warning: " ++ err ++ "\n")
  | none => Op.stdout ("Confirmed process " ++ toString pid ++ " is terminated\n")

/-- What bulk cleanup prints after `os.RemoveAll` returned `r`. -/
def cleanupFailLine (kind name : String) (r : Option String) : List Op :=
  match r with
  | some _ => [Op.stdout ("Could not remove " ++ kind ++ " container: " ++ name ++ "\n")]
  | none => []

/-- A record without a process. -/
def idleContainer : Container :=
  { Name := "container-bbbbbbb", Location := ".containers/container-bbbbbbb",
    RootfsLocation := ".containers/container-bbbbbbb/root_fs", NamespacePID := 0 }

/-- A record whose init process has pid 77. -/
def otherContainer : Container :=
  { Name := "container-ccccccc", Location := ".containers/container-ccccccc",
    RootfsLocation := ".containers/container-ccccccc/root_fs", NamespacePID := 77 }

/-- A manager state with two records in running, the second without a
process, and one in starting. -/
def mixedState : State :=
  { State.initial with
    ContainersRunning := [calmContainer, idleContainer],
    ContainersStarting := [otherContainer] }

/-! ## Reasoning about `Proc` -/

@[simp] theorem bind_eq {α β : Type} (p : Proc α) (f : α → Proc β) : (p >>= f) = Proc.bind p f := rfl
@[simp] theorem pure_eq {α : Type} (a : α) : (pure a : Proc α) = Proc.pure a := rfl
@[simp] theorem pure_apply {α : Type} (a : α) (s : State) : Proc.pure a s = (Outcome.ret a, s) := rfl
@[simp] theorem halt_apply {α : Type} (h : Halt) (s : State) : (halt h : Proc α) s = (Outcome.halt h, s) := rfl
@[simp] theorem emit_apply (op : Op) (s : State) :
    emit op s = (Outcome.ret (), { s with trace := s.trace ++ [op] }) := rfl
@[simp] theorem Printf_apply (text : String) (s : State) :
    Printf text s = (Outcome.ret (), { s with trace := s.trace ++ [Op.stdout text] }) := rfl
@[simp] theorem call_apply (w : World) (op : Op) (s : State) :
    call w op s = (Outcome.ret (w.err s.trace op), { s with trace := s.trace ++ [op] }) := rfl
@[simp] theorem getState_apply (s : State) : getState s = (Outcome.ret s, s) := rfl
theorem bind_apply {α β : Type} (p : Proc α) (f : α → Proc β) (s : State) :
    Proc.bind p f s = match p s with
      | (Outcome.ret a, s1) => f a s1
      | (Outcome.halt h, s1) => (Outcome.halt h, s1) := rfl
theorem bind_ret {α β : Type} {p : Proc α} {f : α → Proc β} {s s1 : State} {a : α}
    (h : p s = (Outcome.ret a, s1)) : Proc.bind p f s = f a s1 := by
  simp [bind_apply, h]
theorem bind_halt {α β : Type} {p : Proc α} {f : α → Proc β} {s s1 : State} {x : Halt}
    (h : p s = (Outcome.halt x, s1)) : Proc.bind p f s = (Outcome.halt x, s1) := by
  simp [bind_apply, h]

theorem forEach_det {α : Type} (body : α → Proc Unit) (seg : α → List Op)
    (hbody : ∀ x s, body x s = (Outcome.ret (), { s with trace := s.trace ++ seg x })) :
    ∀ (xs : List α) (s : State),
      forEach xs body s = (Outcome.ret (), { s with trace := s.trace ++ xs.flatMap seg })
  | [], s => by simp [forEach]
  | x :: xs, s => by
    simp [forEach, bind_apply, hbody, forEach_det body seg hbody xs, List.append_assoc]

theorem forEach_obs {α β : Type} (body : α → Proc Unit) (seg : α → β → List Op)
    (hbody : ∀ x s, ∃ b, body x s = (Outcome.ret (), { s with trace := s.trace ++ seg x b })) :
    ∀ (xs : List α) (s : State), ∃ bs : List β, bs.length = xs.length ∧
      forEach xs body s =
        (Outcome.ret (), { s with trace := s.trace ++ (List.zip xs bs).flatMap fun p => seg p.1 p.2 })
  | [], s => ⟨[], by simp [forEach]⟩
  | x :: xs, s => by
    obtain ⟨b, hb⟩ := hbody x s
    obtain ⟨bs, hlen, hbs⟩ := forEach_obs body seg hbody xs { s with trace := s.trace ++ seg x b }
    refine ⟨b :: bs, by simp [hlen], ?_⟩
    simp [forEach, bind_apply, hb, hbs, List.append_assoc]

/-! ## The init process -/

theorem createDeviceNodes_run (join : List String → String) (w : World) (dev : String)
    (hmknod : ∀ h p m d, w.err h (Op.mknod p m d) = none) (s : State) :
    createDeviceNodes join w dev s =
      (Outcome.ret (), { s with trace := s.trace ++ specDeviceNodes join dev }) := by
  unfold createDeviceNodes specDeviceNodes
  rw [forEach_det _ (fun d : String × Nat × Nat × Nat =>
      [Op.mknod (join [dev, d.1]) (S_IFCHR ||| d.2.1) (Mkdev d.2.2.1 d.2.2.2),
        Op.chown (join [dev, d.1]) 0 0])]
  · simp
  · intro x s
    simp [bind_apply, hmknod]

theorem createDevSymlinks_run (join : List String → String) (w : World) (dev : String)
    (s : State) :
    createDevSymlinks join w dev s =
      (Outcome.ret (), { s with trace := s.trace ++ specDevSymlinks join dev }) := by
  unfold createDevSymlinks specDevSymlinks
  rw [forEach_det _ (fun l : String × String => [Op.symlink l.1 (join [dev, l.2])])]
  · simp
  · intro x s
    simp [bind_apply]

theorem bindMountNetworkFiles_run (join : List String → String) (w : World)
    (rootfs dir : String)
    (hmount : ∀ h a b c d e, w.err h (Op.mount a b c d e) = none) (s : State) :
    ∃ opened : List Bool, opened.length = 3 ∧
      bindMountNetworkFiles join w rootfs dir s =
        (Outcome.ret (), { s with trace := s.trace ++ specNetworkFiles join rootfs dir opened }) := by
  unfold bindMountNetworkFiles specNetworkFiles
  refine Exists.imp (fun bs h => ⟨by simpa using h.1, h.2⟩) (forEach_obs _ (fun (f : String) (o : Bool) =>
    (Op.openFile (join [rootfs, "etc", f]) (O_CREATE ||| O_WRONLY) 0o644 ::
      (if o then [Op.close (join [rootfs, "etc", f])] else [])) ++
      [Op.mount (join [dir, f]) (join [rootfs, "etc", f]) "" MS_BIND ""]) ?_ _ s)
  intro f s
  refine ⟨(w.err s.trace (Op.openFile (join [rootfs, "etc", f]) (O_CREATE ||| O_WRONLY) 0o644)).isNone, ?_⟩
  cases h : w.err s.trace (Op.openFile (join [rootfs, "etc", f]) (O_CREATE ||| O_WRONLY) 0o644) <;>
    simp [bind_apply, h, Mount, hmount]

theorem hardenProc_run (w : World) (s : State) :
    ∃ found : List Bool, found.length = 5 ∧
      hardenProc w s = (Outcome.ret (), { s with trace := s.trace ++ specHardenProc found }) := by
  unfold hardenProc specHardenProc
  refine Exists.imp (fun bs h => ⟨by simpa using h.1, h.2⟩) (forEach_obs _ (fun (d : String) (e : Bool) =>
    Op.stat ("/proc/" ++ d) ::
      (if e then
        [Op.mount ("/proc/" ++ d) ("/proc/" ++ d) "" MS_BIND "",
          Op.mount "" ("/proc/" ++ d) "" (MS_REMOUNT ||| MS_BIND ||| MS_RDONLY) ""]
      else [])) ?_ _ s)
  intro d s
  refine ⟨(w.err s.trace (Op.stat ("/proc/" ++ d))).isNone, ?_⟩
  cases h : w.err s.trace (Op.stat ("/proc/" ++ d)) <;>
    simp [bind_apply, h, Mount]

theorem maskSensitivePaths_run (w : World) (s : State) :
    ∃ kinds : List (Option Bool), kinds.length = 11 ∧
      maskSensitivePaths w s =
        (Outcome.ret (), { s with trace := s.trace ++ specMaskPaths kinds }) := by
  unfold maskSensitivePaths specMaskPaths
  refine Exists.imp (fun bs h => ⟨by simpa using h.1, h.2⟩) (forEach_obs _ (fun (p : String) (k : Option Bool) =>
    Op.stat p ::
      (match k with
        | none => []
        | some true => [Op.mount "tmpfs" p "tmpfs" MS_RDONLY ""]
        | some false => [Op.mount "/dev/null" p "" MS_BIND ""])) ?_ _ s)
  intro p s
  refine ⟨if (w.err s.trace (Op.stat p)).isSome then none else some (w.isDir s.trace p), ?_⟩
  cases h : w.err s.trace (Op.stat p) <;> cases h2 : w.isDir s.trace p <;>
    simp [bind_apply, h, h2, Mount]

/-- Everything `RunContainerInit` does when the set-up calls succeed. -/
theorem RunContainerInit_run (join : List String → String) (w : World)
    (hroot : w.getenv "CNTR_ROOTFS" ≠ "")
    (hok : ∀ h op, Op.isSetupCall op = true → w.err h op = none) (s : State) :
    ∃ (opened found : List Bool) (kinds : List (Option Bool)),
      opened.length = 3 ∧ found.length = 5 ∧ kinds.length = 11 ∧
      ∃ before : List Op,
        before = s.trace ++ Op.stdout "Container init: starting setup...\n" ::
          (initSpecSetup join (w.getenv "CNTR_ROOTFS") (w.getenv "CNTR_DIR")
            (w.getenv "CNTR_HOSTNAME") opened found kinds ++
            [Op.stdout "Container init: setup complete, executing application...\n"]) ∧
        RunContainerInit join w s =
          match w.err before
              (Op.exec (w.getenv "CNTR_BINARY") [w.getenv "CNTR_BINARY"] w.environ) with
          | none =>
            (Outcome.halt Halt.execd,
              { s with trace := before ++
                  [Op.exec (w.getenv "CNTR_BINARY") [w.getenv "CNTR_BINARY"] w.environ] })
          | some e =>
            (Outcome.halt (Halt.exited 1),
              { s with trace := before ++
                  [Op.exec (w.getenv "CNTR_BINARY") [w.getenv "CNTR_BINARY"] w.environ,
                    Op.stderr ("Container init error: " ++ ("exec failed: " ++ e) ++ "\n")] }) := by
  have hmount : ∀ h a b c d e, w.err h (Op.mount a b c d e) = none :=
    fun h a b c d e => hok h _ rfl
  have hmknod : ∀ h p m d, w.err h (Op.mknod p m d) = none := fun h p m d => hok h _ rfl
  have hpivot : ∀ h a b, w.err h (Op.pivotRoot a b) = none := fun h a b => hok h _ rfl
  have hchdir : ∀ h a, w.err h (Op.chdir a) = none := fun h a => hok h _ rfl
  have humount : ∀ h a b, w.err h (Op.unmount a b) = none := fun h a b => hok h _ rfl
  have hhost : ∀ h a, w.err h (Op.sethostname a) = none := fun h a => hok h _ rfl
  choose o ho1 ho2 using bindMountNetworkFiles_run join w (w.getenv "CNTR_ROOTFS")
    (w.getenv "CNTR_DIR") hmount
  choose f hf1 hf2 using hardenProc_run w
  choose k hk1 hk2 using maskSensitivePaths_run w
  by_cases hh : w.getenv "CNTR_HOSTNAME" = ""
  · simp only [RunContainerInit, bind_eq, pure_eq, bind_apply, call_apply, Mount, hmount,
      hroot, hh, Printf, emit_apply, pure_apply, createDeviceNodes_run join w _ hmknod,
      createDevSymlinks_run, ho2, hf2, hk2, hpivot, hchdir, humount, hhost, fatal, halt_apply,
      beq_iff_eq, bne_iff_ne, ne_eq, if_false, if_true, not_true_eq_false, not_false_eq_true,
      ite_true, ite_false, List.append_assoc, List.cons_append, List.nil_append,
      List.singleton_append]
    generalize hO : o _ = opened
    generalize hF : f _ = found
    generalize hK : k _ = kinds
    refine ⟨opened, found, kinds, hO ▸ ho1 _, hF ▸ hf1 _, hK ▸ hk1 _, _, rfl, ?_⟩
    simp only [initSpecSetup, hh, if_true, if_false, List.append_assoc, List.cons_append,
      List.nil_append, List.singleton_append]
    cases w.err _ (Op.exec (w.getenv "CNTR_BINARY") [w.getenv "CNTR_BINARY"] w.environ) <;>
      simp [bind_apply]
  · simp only [RunContainerInit, bind_eq, pure_eq, bind_apply, call_apply, Mount, hmount,
      hroot, hh, Printf, emit_apply, pure_apply, createDeviceNodes_run join w _ hmknod,
      createDevSymlinks_run, ho2, hf2, hk2, hpivot, hchdir, humount, hhost, fatal, halt_apply,
      beq_iff_eq, bne_iff_ne, ne_eq, if_false, if_true, not_true_eq_false, not_false_eq_true,
      ite_true, ite_false, List.append_assoc, List.cons_append, List.nil_append,
      List.singleton_append]
    generalize hO : o _ = opened
    generalize hF : f _ = found
    generalize hK : k _ = kinds
    refine ⟨opened, found, kinds, hO ▸ ho1 _, hF ▸ hf1 _, hK ▸ hk1 _, _, rfl, ?_⟩
    simp only [initSpecSetup, hh, if_true, if_false, List.append_assoc, List.cons_append,
      List.nil_append, List.singleton_append]
    cases w.err _ (Op.exec (w.getenv "CNTR_BINARY") [w.getenv "CNTR_BINARY"] w.environ) <;>
      simp [bind_apply]

theorem sysOps_append (a b : List Op) : sysOps (a ++ b) = sysOps a ++ sysOps b := by
  simp [sysOps]

theorem sysOps_flatMap {α : Type} (seg : α → List Op) (hseg : ∀ x, sysOps (seg x) = seg x) :
    ∀ xs : List α, sysOps (xs.flatMap seg) = xs.flatMap seg
  | [] => rfl
  | x :: xs => by
    rw [List.flatMap_cons, sysOps_append, hseg, sysOps_flatMap seg hseg xs]

theorem sysOps_initSpecSetup (join : List String → String) (rootfs dir hostname : String)
    (opened found : List Bool) (kinds : List (Option Bool)) :
    sysOps (initSpecSetup join rootfs dir hostname opened found kinds) =
      initSpecSetup join rootfs dir hostname opened found kinds := by
  have h6 : sysOps (specDeviceNodes join (join [rootfs, "dev"])) =
      specDeviceNodes join (join [rootfs, "dev"]) :=
    sysOps_flatMap _ (fun x => by simp [sysOps, Op.isOutput]) _
  have h7 : sysOps (specDevSymlinks join (join [rootfs, "dev"])) =
      specDevSymlinks join (join [rootfs, "dev"]) :=
    sysOps_flatMap _ (fun x => by simp [sysOps, Op.isOutput]) _
  have h13 : sysOps (specNetworkFiles join rootfs dir opened) =
      specNetworkFiles join rootfs dir opened :=
    sysOps_flatMap _ (fun x => by cases x.2 <;> simp [sysOps, Op.isOutput]) _
  have h20 : sysOps (specHardenProc found) = specHardenProc found :=
    sysOps_flatMap _ (fun x => by cases x.2 <;> simp [sysOps, Op.isOutput]) _
  have h21 : sysOps (specMaskPaths kinds) = specMaskPaths kinds :=
    sysOps_flatMap _ (fun x => by
      rcases x.2 with _ | _ | _ <;> simp [sysOps, Op.isOutput]) _
  unfold initSpecSetup
  simp only [sysOps_append, h6, h7, h13, h20, h21]
  by_cases hh : hostname = "" <;> simp [sysOps, Op.isOutput, hh]

theorem sysOps_stdout (t : String) : sysOps [Op.stdout t] = [] := rfl

theorem sysOps_stderr (t : String) : sysOps [Op.stderr t] = [] := rfl

theorem sysOps_exec (a : String) (b c : List String) :
    sysOps [Op.exec a b c] = [Op.exec a b c] := rfl

theorem performed_of_run {α : Type} {p : Proc α} {s : State} {o : Outcome α} {s1 : State}
    {ops : List Op} (h : p s = (o, s1)) (ht : s1.trace = s.trace ++ ops) :
    performed p s = ops := by
  simp [performed, h, ht]

theorem failStop_pure {α : Type} (w : World) (a : α) : FailStop w (Proc.pure a) := by
  intro s
  refine ⟨⟨[], by simp⟩, ?_⟩
  intro pre op post e h
  have := congrArg List.length h
  simp at this

theorem failStop_halt {α : Type} (w : World) (x : Halt) : FailStop w (halt x : Proc α) := by
  intro s
  refine ⟨⟨[], by simp⟩, ?_⟩
  intro pre op post e h
  have := congrArg List.length h
  simp at this

theorem failStop_bind {α β : Type} {w : World} {p : Proc α} {f : α → Proc β}
    (hp : FailStop w p) (hf : ∀ a, FailStop w (f a)) : FailStop w (Proc.bind p f) := by
  intro s
  obtain ⟨⟨ops1, h1⟩, hp2⟩ := hp s
  rcases hps : p s with ⟨_ | x, s1⟩
  · rename_i a
    rw [hps] at h1 hp2
    simp only at h1 hp2
    obtain ⟨⟨ops2, h2⟩, hf2⟩ := hf a s1
    rw [bind_ret hps]
    refine ⟨⟨ops1 ++ ops2, by rw [h2, h1, List.append_assoc]⟩, ?_⟩
    intro pre op post e h hc he
    rw [h2, h1, List.append_assoc, List.append_assoc, List.append_cancel_left_eq] at h
    rcases List.append_eq_append_iff.1 h with ⟨a', ha1, ha2⟩ | ⟨c', hc1, hc2⟩
    · subst ha1
      exact hf2 a' op post e (by rw [h2, ha2, List.append_assoc]) hc
        (by rw [h1, List.append_assoc]; exact he)
    · cases c' with
      | nil =>
        simp only [List.append_nil, List.nil_append] at hc1 hc2
        subst hc1
        exact hf2 [] op post e (by rw [h2, List.append_nil, hc2]) hc
          (by rw [List.append_nil, h1]; exact he)
      | cons b c'' =>
        simp only [List.cons_append, List.cons.injEq] at hc2
        obtain ⟨rfl, -⟩ := hc2
        have := (hp2 pre op c'' e (by rw [h1, hc1, List.append_assoc]) hc he).1
        cases this
  · rw [bind_halt hps]
    rw [hps] at h1 hp2
    refine ⟨⟨ops1, h1⟩, ?_⟩
    intro pre op post e h hc he
    obtain ⟨hx, hmsg⟩ := hp2 pre op post e h hc he
    simp only [Outcome.halt.injEq] at hx
    subst hx
    exact ⟨rfl, hmsg⟩

theorem failStop_emit (w : World) (op : Op) (hop : Op.isCheckedCall op = false) :
    FailStop w (emit op) := by
  intro s
  refine ⟨⟨[op], by simp⟩, ?_⟩
  intro pre op1 post e h hc
  simp only [emit_apply, List.append_assoc, List.append_cancel_left_eq] at h
  cases pre with
  | nil =>
    simp only [List.nil_append, List.cons.injEq] at h
    rw [← h.1, hop] at hc
    cases hc
  | cons b pre1 =>
    have := congrArg List.length h
    simp at this

theorem failStop_call_unchecked {β : Type} {w : World} {op : Op} {k : Option String → Proc β}
    (hop : Op.isCheckedCall op = false) (hk : ∀ r, FailStop w (k r)) :
    FailStop w (Proc.bind (call w op) k) := by
  refine failStop_bind ?_ hk
  intro s
  refine ⟨⟨[op], by simp⟩, ?_⟩
  intro pre op1 post e h hc
  simp only [call_apply, List.append_assoc, List.append_cancel_left_eq] at h
  cases pre with
  | nil =>
    simp only [List.nil_append, List.cons.injEq] at h
    rw [← h.1, hop] at hc
    cases hc
  | cons b pre1 =>
    have := congrArg List.length h
    simp at this

theorem failStop_call_checked {β : Type} {w : World} {op : Op} {k : Option String → Proc β}
    (hnone : FailStop w (k none))
    (hsome : ∀ e, ∃ msg, ∀ s, k (some e) s = (Outcome.halt (Halt.exited 1),
      { s with trace := s.trace ++ [Op.stderr ("Container init error: " ++ msg ++ "\n")] })) :
    FailStop w (Proc.bind (call w op) k) := by
  intro s
  cases hr : w.err s.trace op with
  | none =>
    have hrun : Proc.bind (call w op) k s = k none { s with trace := s.trace ++ [op] } := by
      simp [bind_apply, hr]
    obtain ⟨⟨ops, hops⟩, hk⟩ := hnone { s with trace := s.trace ++ [op] }
    rw [hrun]
    refine ⟨⟨op :: ops, by rw [hops]; simp⟩, ?_⟩
    intro pre op1 post e h hc he
    cases pre with
    | nil =>
      rw [hops] at h
      simp only [List.append_assoc, List.append_cancel_left_eq, List.nil_append,
        List.singleton_append, List.cons.injEq] at h
      rw [List.append_nil, ← h.1, hr] at he
      cases he
    | cons b pre1 =>
      have hb : b = op := by
        rw [hops] at h
        simp only [List.append_assoc, List.append_cancel_left_eq, List.cons_append,
          List.singleton_append, List.cons.injEq] at h
        exact h.1.symm
      subst hb
      exact hk pre1 op1 post e (by rw [h]; simp) hc (by simpa using he)
  | some err =>
    obtain ⟨msg, hmsg⟩ := hsome err
    have hrun : Proc.bind (call w op) k s = (Outcome.halt (Halt.exited 1),
        { s with trace := s.trace ++ [op, Op.stderr ("Container init error: " ++ msg ++ "\n")] }) := by
      simp [bind_apply, hr, hmsg]
    rw [hrun]
    refine ⟨⟨_, rfl⟩, ?_⟩
    intro pre op1 post e h hc he
    simp only [List.append_assoc, List.append_cancel_left_eq] at h
    cases pre with
    | nil =>
      simp only [List.nil_append, List.cons.injEq] at h
      exact ⟨rfl, msg, h.2.symm⟩
    | cons b pre1 =>
      cases pre1 with
      | nil =>
        simp only [List.cons_append, List.nil_append, List.cons.injEq] at h
        rw [← h.2.1] at hc
        cases hc
      | cons c pre2 =>
        have := congrArg List.length h
        simp at this

theorem failStop_ite {α : Type} {w : World} {c : Prop} [Decidable c] {p q : Proc α}
    (hp : FailStop w p) (hq : FailStop w q) : FailStop w (if c then p else q) := by
  split
  · exact hp
  · exact hq

theorem failStop_forEach {α : Type} {w : World} {body : α → Proc Unit}
    (hbody : ∀ x, FailStop w (body x)) : ∀ xs : List α, FailStop w (forEach xs body)
  | [] => failStop_pure w ()
  | x :: xs => failStop_bind (hbody x) (fun _ => failStop_forEach hbody xs)

theorem failStop_fatal {α : Type} (w : World) (msg : String) :
    FailStop w (fatal msg : Proc α) :=
  failStop_bind (failStop_emit w _ rfl) (fun _ => failStop_halt w _)

theorem createDeviceNodes_failStop (join : List String → String) (w : World) (dev : String) :
    FailStop w (createDeviceNodes join w dev) := by
  unfold createDeviceNodes
  refine failStop_forEach (fun x => ?_) _
  simp only [bind_eq, pure_eq, Printf]
  refine failStop_call_unchecked rfl (fun r => ?_)
  cases r <;> dsimp only
  · exact failStop_bind (failStop_pure w _)
      (fun _ => failStop_call_unchecked rfl (fun _ => failStop_pure w _))
  · exact failStop_bind (failStop_emit w _ rfl)
      (fun _ => failStop_call_unchecked rfl (fun _ => failStop_pure w _))

theorem createDevSymlinks_failStop (join : List String → String) (w : World) (dev : String) :
    FailStop w (createDevSymlinks join w dev) := by
  unfold createDevSymlinks
  refine failStop_forEach (fun x => ?_) _
  simp only [bind_eq, pure_eq]
  exact failStop_call_unchecked rfl (fun _ => failStop_pure w _)

theorem isCheckedCall_bind (a b : String) :
    Op.isCheckedCall (Op.mount a b "" MS_BIND "") = false := by
  simp [Op.isCheckedCall, MS_BIND, MS_SLAVE, MS_REC, MS_PRIVATE]

theorem isCheckedCall_remount (a b : String) :
    Op.isCheckedCall (Op.mount a b "" (MS_REMOUNT ||| MS_BIND ||| MS_RDONLY) "") = false := by
  simp [Op.isCheckedCall, MS_BIND, MS_SLAVE, MS_REC, MS_PRIVATE, MS_REMOUNT, MS_RDONLY]

theorem isCheckedCall_mask (a b : String) :
    Op.isCheckedCall (Op.mount a b "tmpfs" MS_RDONLY "") = false := by
  simp [Op.isCheckedCall]

theorem bindMountNetworkFiles_failStop (join : List String → String) (w : World)
    (rootfs dir : String) : FailStop w (bindMountNetworkFiles join w rootfs dir) := by
  unfold bindMountNetworkFiles
  refine failStop_forEach (fun x => ?_) _
  simp only [bind_eq, pure_eq, Printf, Mount]
  refine failStop_call_unchecked rfl (fun r => ?_)
  have hrest : ∀ y : Unit, FailStop w
      ((fun (_ : Unit) => Proc.bind (call w (Op.mount (join [dir, x]) (join [rootfs, "etc", x]) ""
        MS_BIND "")) fun r =>
          match r with
          | some err => emit (Op.stdout ("Warning: failed to bind mount " ++ x ++ ": " ++ err ++ "\n"))
          | _ => Proc.pure PUnit.unit) y) := by
    intro y
    refine failStop_call_unchecked (isCheckedCall_bind _ _) (fun r => ?_)
    cases r
    · exact failStop_pure w _
    · exact failStop_emit w _ rfl
  refine failStop_ite ?_ ?_
  · exact failStop_bind (failStop_emit w _ rfl) hrest
  · exact failStop_bind (failStop_pure w _) hrest

theorem hardenProc_failStop (w : World) : FailStop w (hardenProc w) := by
  unfold hardenProc
  refine failStop_forEach (fun x => ?_) _
  simp only [bind_eq, pure_eq, Mount]
  refine failStop_call_unchecked rfl (fun r => ?_)
  refine failStop_ite ?_ (failStop_pure w _)
  exact failStop_call_unchecked (isCheckedCall_bind _ _) (fun _ =>
    failStop_call_unchecked (isCheckedCall_remount _ _) (fun _ => failStop_pure w _))

theorem maskSensitivePaths_failStop (w : World) : FailStop w (maskSensitivePaths w) := by
  unfold maskSensitivePaths
  refine failStop_forEach (fun x => ?_) _
  simp only [bind_eq, pure_eq, Mount]
  refine failStop_bind ?_ (fun before => ?_)
  · intro s
    refine ⟨⟨[], by simp⟩, ?_⟩
    intro pre op post e h
    have := congrArg List.length h
    simp at this
  refine failStop_call_unchecked rfl (fun r => ?_)
  refine failStop_ite (failStop_pure w _) (failStop_ite ?_ ?_)
  · exact failStop_call_unchecked (isCheckedCall_mask _ _) (fun _ => failStop_pure w _)
  · exact failStop_call_unchecked (isCheckedCall_bind _ _) (fun _ => failStop_pure w _)

theorem failStop_ite_then {β : Type} {w : World} {c : Prop} [Decidable c]
    {p q : Proc Unit} {j : Unit → Proc β} (hp : FailStop w p) (hq : FailStop w q)
    (hj : ∀ y, FailStop w (j y)) :
    FailStop w (if c then Proc.bind p j else Proc.bind q j) :=
  failStop_ite (failStop_bind hp hj) (failStop_bind hq hj)

theorem failStop_call_fatal_then {β : Type} {w : World} {op : Op}
    {k : Option String → Proc β} (j : Unit → Proc β) (m : String → String)
    (hnone : k none = Proc.bind (Proc.pure ()) j)
    (hsome : ∀ e, k (some e) = Proc.bind (fatal (m e)) j)
    (hj : ∀ y, FailStop w (j y)) :
    FailStop w (Proc.bind (call w op) k) := by
  refine failStop_call_checked ?_ ?_
  · rw [hnone]
    exact failStop_bind (failStop_pure w _) hj
  · intro e
    refine ⟨m e, fun s => ?_⟩
    rw [hsome]
    rfl

theorem failStop_call_warn_then {β : Type} {w : World} {op : Op}
    {k : Option String → Proc β} (j : Unit → Proc β) (m : String → String)
    (hop : Op.isCheckedCall op = false)
    (hnone : k none = Proc.bind (Proc.pure ()) j)
    (hsome : ∀ e, k (some e) = Proc.bind (emit (Op.stdout (m e))) j)
    (hj : ∀ y, FailStop w (j y)) :
    FailStop w (Proc.bind (call w op) k) := by
  refine failStop_call_unchecked hop (fun r => ?_)
  cases r with
  | none =>
    rw [hnone]
    exact failStop_bind (failStop_pure w _) hj
  | some e =>
    rw [hsome]
    exact failStop_bind (failStop_emit w _ rfl) hj

theorem failStop_ite_warn_then {β : Type} {w : World} {c : Prop} [Decidable c] {op : Op}
    {k : Option String → Proc β} (j : Unit → Proc β) (m : String → String)
    (hop : Op.isCheckedCall op = false)
    (hnone : k none = Proc.bind (Proc.pure ()) j)
    (hsome : ∀ e, k (some e) = Proc.bind (emit (Op.stdout (m e))) j)
    (hj : ∀ y, FailStop w (j y)) :
    FailStop w (if c then Proc.bind (call w op) k else Proc.bind (Proc.pure ()) j) :=
  failStop_ite (failStop_call_warn_then j m hop hnone hsome hj)
    (failStop_bind (failStop_pure w _) hj)

theorem isCheckedCall_mqueue (a b : String) (f : Nat) :
    Op.isCheckedCall (Op.mount a b "mqueue" f "") = false := by
  simp [Op.isCheckedCall]

theorem isCheckedCall_cgroup2 (a b : String) (f : Nat) :
    Op.isCheckedCall (Op.mount a b "cgroup2" f "") = false := by
  simp [Op.isCheckedCall]

theorem RunContainerInit_failStop (join : List String → String) (w : World) :
    FailStop w (RunContainerInit join w) := by
  unfold RunContainerInit
  refine failStop_ite_then (failStop_fatal w _) (failStop_pure w _) (fun _ => ?_)
  refine failStop_bind (failStop_emit w _ rfl) (fun _ => ?_)
  -- steps 1 to 3
  refine failStop_call_fatal_then _ _ rfl (fun _ => rfl) (fun _ => ?_)
  refine failStop_call_fatal_then _ _ rfl (fun _ => rfl) (fun _ => ?_)
  refine failStop_call_fatal_then _ _ rfl (fun _ => rfl) (fun _ => ?_)
  -- steps 4 and 5
  refine failStop_call_unchecked rfl (fun _ => ?_)
  refine failStop_call_fatal_then _ _ rfl (fun _ => rfl) (fun _ => ?_)
  refine failStop_call_unchecked rfl (fun _ => ?_)
  refine failStop_call_fatal_then _ _ rfl (fun _ => rfl) (fun _ => ?_)
  -- steps 6 and 7
  refine failStop_bind (createDeviceNodes_failStop join w _) (fun _ => ?_)
  refine failStop_bind (createDevSymlinks_failStop join w _) (fun _ => ?_)
  -- step 8
  refine failStop_call_unchecked rfl (fun _ => ?_)
  refine failStop_call_fatal_then _ _ rfl (fun _ => rfl) (fun _ => ?_)
  refine failStop_call_unchecked rfl (fun _ => ?_)
  -- step 9
  refine failStop_call_unchecked rfl (fun _ => ?_)
  refine failStop_call_warn_then _ _ (isCheckedCall_mqueue _ _ _) rfl (fun _ => rfl) (fun _ => ?_)
  -- steps 10 and 11
  refine failStop_call_unchecked rfl (fun _ => ?_)
  refine failStop_call_fatal_then _ _ rfl (fun _ => rfl) (fun _ => ?_)
  refine failStop_call_unchecked rfl (fun _ => ?_)
  refine failStop_call_fatal_then _ _ rfl (fun _ => rfl) (fun _ => ?_)
  -- step 12
  refine failStop_call_unchecked rfl (fun _ => ?_)
  refine failStop_call_warn_then _ _ (isCheckedCall_cgroup2 _ _ _) rfl (fun _ => rfl) (fun _ => ?_)
  -- step 13
  refine failStop_bind (bindMountNetworkFiles_failStop join w _ _) (fun _ => ?_)
  -- steps 14 to 18
  refine failStop_call_unchecked rfl (fun _ => ?_)
  refine failStop_call_fatal_then _ _ rfl (fun _ => rfl) (fun _ => ?_)
  refine failStop_call_fatal_then _ _ rfl (fun _ => rfl) (fun _ => ?_)
  refine failStop_call_fatal_then _ _ rfl (fun _ => rfl) (fun _ => ?_)
  refine failStop_call_fatal_then _ _ rfl (fun _ => rfl) (fun _ => ?_)
  refine failStop_call_unchecked rfl (fun _ => ?_)
  -- step 19
  refine failStop_ite_warn_then _ _ rfl rfl (fun _ => rfl) (fun _ => ?_)
  -- steps 20 to 22
  refine failStop_bind (hardenProc_failStop w) (fun _ => ?_)
  refine failStop_bind (maskSensitivePaths_failStop w) (fun _ => ?_)
  refine failStop_bind (failStop_emit w _ rfl) (fun _ => ?_)
  refine failStop_call_checked (failStop_halt w _) (fun e => ⟨_, fun s => rfl⟩)

/-! ## Claims about the init process -/

theorem launcherEnv_rootfs : launcherEnv "CNTR_ROOTFS" = "/c/root_fs" := by
  simp [launcherEnv]

theorem launcherEnv_rootfs_ne : launcherEnv "CNTR_ROOTFS" ≠ "" := by
  simp [launcherEnv]

/-- C3: when `CNTR_ROOTFS` reads as the empty string, `RunContainerInit` writes
`Container init error: CNTR_ROOTFS not set` to standard error and exits with
status 1; that write is the only operation it performs, whatever the other
variables hold. -/
theorem RunContainerInit_missing_rootfs (join : List String → String) (w : World)
    (s : State) (hroot : w.getenv "CNTR_ROOTFS" = "") :
    RunContainerInit join w s =
      (Outcome.halt (Halt.exited 1),
        { s with trace := s.trace ++ [Op.stderr "Container init error: CNTR_ROOTFS not set\n"] }) ∧
    performed (RunContainerInit join w) s =
      [Op.stderr "Container init error: CNTR_ROOTFS not set\n"] := by
  have h : RunContainerInit join w s =
      (Outcome.halt (Halt.exited 1),
        { s with trace := s.trace ++ [Op.stderr "Container init error: CNTR_ROOTFS not set\n"] }) := by
    simp [RunContainerInit, hroot, fatal, bind_apply]
  exact ⟨h, performed_of_run h rfl⟩

/-- Witness of C3: the world in which no variable is set. -/
theorem RunContainerInit_missing_rootfs_witness :
    bareWorld.getenv "CNTR_ROOTFS" = "" ∧
    RunContainerInit pathJoin bareWorld State.initial =
      (Outcome.halt (Halt.exited 1),
        { State.initial with
          trace := State.initial.trace ++
            [Op.stderr "Container init error: CNTR_ROOTFS not set\n"] }) ∧
    performed (RunContainerInit pathJoin bareWorld) State.initial =
      [Op.stderr "Container init error: CNTR_ROOTFS not set\n"] :=
  ⟨rfl, RunContainerInit_missing_rootfs pathJoin bareWorld State.initial rfl⟩

theorem RunContainerInit_mountDenied :
    RunContainerInit pathJoin mountDeniedWorld State.initial =
      (Outcome.halt (Halt.exited 1),
        { State.initial with
          trace := [Op.stdout "Container init: starting setup...\n",
            Op.mount "" "/" "" (MS_SLAVE ||| MS_REC) "",
            Op.stderr ("Container init error: " ++
              "failed to make root rslave: operation not permitted" ++ "\n")] }) := by
  simp [RunContainerInit, mountDeniedWorld, calmWorld, launcherEnv, State.initial, fatal,
    bind_apply, Mount, Printf]

@[simp] theorem timeNow_apply (s : State) : timeNow s = (Outcome.ret s.now, s) := rfl

@[simp] theorem timeSleep_apply (d : Int) (s : State) :
    timeSleep d s =
      (Outcome.ret (), { s with trace := s.trace ++ [Op.sleep d], now := s.now + max d 0 }) :=
  rfl

@[simp] theorem processExists_apply (w : World) (pid : Int) (s : State) :
    processExists w pid s =
      (Outcome.ret (w.err s.trace (Op.kill pid 0)).isNone,
        { s with trace := s.trace ++ [Op.kill pid 0] }) := rfl

theorem pollUntilDead_succ (w : World) (pid deadline : Int) (fuel : Nat) (s : State) :
    pollUntilDead w pid deadline (fuel + 1) s =
      if s.now < deadline then
        match w.err s.trace (Op.kill pid 0) with
        | none =>
          pollUntilDead w pid deadline fuel
            { s with trace := s.trace ++ [Op.kill pid 0, Op.sleep (100 * Millisecond)],
                     now := s.now + 100 * Millisecond }
        | some _ => (Outcome.ret true, { s with trace := s.trace ++ [Op.kill pid 0] })
      else (Outcome.ret false, s) := by
  by_cases hlt : s.now < deadline
  · cases he : w.err s.trace (Op.kill pid 0) <;>
      simp [pollUntilDead, bind_apply, hlt, he, Millisecond]
  · simp [pollUntilDead, bind_apply, hlt]

/-- A polling phase on a process that never dies: `m` rounds of probe and
sleep, where `m` is the timeout rounded up to whole poll intervals. -/
theorem pollUntilDead_alive (w : World) (pid deadline : Int)
    (halive : ∀ h, w.err h (Op.kill pid 0) = none) :
    ∀ (m fuel : Nat) (s : State), m < fuel →
      deadline ≤ s.now + m * (100 * Millisecond) →
      (m ≠ 0 → s.now + ((m : Int) - 1) * (100 * Millisecond) < deadline) →
      pollUntilDead w pid deadline fuel s =
        (Outcome.ret false,
          { s with trace := s.trace ++ (List.replicate m (pollRound pid)).flatten,
                   now := s.now + m * (100 * Millisecond) })
  | m, 0, s, hf, _, _ => absurd hf (Nat.not_lt_zero m)
  | 0, fuel + 1, s, _, hd, _ => by
    have : ¬ s.now < deadline := by simpa using hd
    simp [pollUntilDead_succ, this]
  | m + 1, fuel + 1, s, hf, hd, hl => by
    have hlt : s.now < deadline := by
      have := hl (Nat.succ_ne_zero m)
      simp only [Millisecond] at this ⊢
      push_cast at this
      omega
    rw [pollUntilDead_succ, if_pos hlt, halive]
    simp only
    rw [pollUntilDead_alive w pid deadline halive m fuel _ (Nat.lt_of_succ_lt_succ hf)]
    · simp only [List.replicate_succ, List.flatten_cons, pollRound, List.append_assoc,
        List.cons_append, List.nil_append, Prod.mk.injEq, true_and]
      congr 1
      push_cast
      ring
    · simp only [Millisecond] at hd ⊢
      push_cast at hd
      omega
    · intro _
      have := hl (Nat.succ_ne_zero m)
      simp only [Millisecond] at this ⊢
      push_cast at this
      omega

theorem pollTicks_covers (timeout : Int) :
    timeout ≤ (pollTicks timeout : Int) * (100 * Millisecond) := by
  unfold pollTicks Millisecond
  omega

theorem pollTicks_tight (timeout : Int) (h : pollTicks timeout ≠ 0) :
    ((pollTicks timeout : Int) - 1) * (100 * Millisecond) < timeout := by
  unfold pollTicks Millisecond at *
  omega

theorem pollTicks_lt_pollBound (timeout : Int) : pollTicks timeout < pollBound timeout := by
  unfold pollTicks pollBound Millisecond
  omega

/-- The whole of `killAndWait` on a process that stays alive at every probe. -/
theorem killAndWait_alive_run (w : World) (pid timeout : Int) (s : State)
    (halive : ∀ h, w.err h (Op.kill pid 0) = none) :
    killAndWait w pid timeout s =
      (Outcome.ret (some ("process " ++ toString pid ++ " still exists after SIGKILL")),
        { s with
          trace := s.trace ++ ([Op.kill pid 0, Op.kill pid SIGTERM] ++
            (List.replicate (pollTicks timeout) (pollRound pid)).flatten ++
            [Op.kill pid SIGKILL] ++
            (List.replicate (pollTicks timeout) (pollRound pid)).flatten ++
            [Op.kill pid 0]),
          now := s.now + 2 * ((pollTicks timeout : Int) * (100 * Millisecond)) }) := by
  have hpoll : ∀ (tr : List Op) (nw : Int),
      pollUntilDead w pid (nw + timeout) (pollBound timeout)
          { s with trace := tr, now := nw } =
        (Outcome.ret false,
          { s with trace := tr ++ (List.replicate (pollTicks timeout) (pollRound pid)).flatten,
                   now := nw + (pollTicks timeout : Int) * (100 * Millisecond) }) := by
    intro tr nw
    refine pollUntilDead_alive w pid _ halive _ _ _ (pollTicks_lt_pollBound timeout) ?_ ?_
    · have := pollTicks_covers timeout
      simp only
      omega
    · intro h
      have := pollTicks_tight timeout h
      simp only
      omega
  have hpoll2 : ∀ (tr : List Op) (nw : Int),
      pollUntilDead w pid (timeout + nw) (pollBound timeout)
          { s with trace := tr, now := nw } =
        (Outcome.ret false,
          { s with trace := tr ++ (List.replicate (pollTicks timeout) (pollRound pid)).flatten,
                   now := nw + (pollTicks timeout : Int) * (100 * Millisecond) }) := by
    intro tr nw
    rw [add_comm]
    exact hpoll tr nw
  simp only [killAndWait, bind_eq, pure_eq, bind_apply, processExists_apply, halive,
    Option.isNone_none, Bool.not_true, Bool.false_eq_true, if_false, call_apply,
    timeNow_apply, hpoll, hpoll2, pure_apply, if_true, List.append_assoc, List.cons_append,
    List.nil_append, Prod.mk.injEq, true_and]
  congr 1
  ring

/-- `killAndWait` on a process that the first probe reports dead. -/
theorem killAndWait_dead_run (w : World) (pid timeout : Int) (s : State) (e : String)
    (hdead : w.err s.trace (Op.kill pid 0) = some e) :
    killAndWait w pid timeout s =
      (Outcome.ret none, { s with trace := s.trace ++ [Op.kill pid 0] }) := by
  simp [killAndWait, bind_apply, hdead]

/-- A polling phase always ends, whatever the process does: it only probes and
sleeps, and when it reports the process dead its last operation is the probe
that failed. -/
theorem pollUntilDead_total (w : World) (pid deadline : Int) :
    ∀ (fuel : Nat) (s : State), 1 ≤ fuel →
      deadline ≤ s.now + ((fuel : Int) - 1) * (100 * Millisecond) →
      ∃ (b : Bool) (ops : List Op) (nw : Int),
        pollUntilDead w pid deadline fuel s =
          (Outcome.ret b, { s with trace := s.trace ++ ops, now := nw }) ∧
        (b = true → ∃ h e, ops = h ++ [Op.kill pid 0] ∧
          w.err (s.trace ++ h) (Op.kill pid 0) = some e) ∧
        (∀ op ∈ ops, op = Op.kill pid 0 ∨ op = Op.sleep (100 * Millisecond))
  | 0, s, hf, _ => absurd hf (by decide)
  | fuel + 1, s, _, hd => by
    rw [pollUntilDead_succ]
    by_cases hlt : s.now < deadline
    · rw [if_pos hlt]
      cases he : w.err s.trace (Op.kill pid 0) with
      | none =>
        simp only
        have hf1 : 1 ≤ fuel := by
          simp only [Millisecond] at hd
          push_cast at hd
          omega
        obtain ⟨b, ops, nw, hrun, hb, hops⟩ := pollUntilDead_total w pid deadline fuel
          { s with trace := s.trace ++ [Op.kill pid 0, Op.sleep (100 * Millisecond)],
                   now := s.now + 100 * Millisecond } hf1 (by
            simp only [Millisecond] at hd ⊢
            push_cast at hd
            omega)
        refine ⟨b, [Op.kill pid 0, Op.sleep (100 * Millisecond)] ++ ops, nw, ?_, ?_, ?_⟩
        · rw [hrun]
          simp
        · intro hbt
          obtain ⟨h, e, h1, h2⟩ := hb hbt
          refine ⟨[Op.kill pid 0, Op.sleep (100 * Millisecond)] ++ h, e, ?_, ?_⟩
          · rw [h1]
            simp
          · simpa using h2
        · intro op hop
          simp only [List.mem_append, List.mem_cons, List.mem_singleton, List.not_mem_nil,
            or_false] at hop
          rcases hop with (h1 | h1) | h1
          · exact Or.inl h1
          · exact Or.inr h1
          · exact hops op h1
      | some e =>
        refine ⟨true, [Op.kill pid 0], s.now, rfl, ?_, ?_⟩
        · intro _
          exact ⟨[], e, rfl, by simpa using he⟩
        · intro op hop
          exact Or.inl (by simpa using hop)
    · rw [if_neg hlt]
      refine ⟨false, [], s.now, by simp, by simp, by simp⟩

/-- `killAndWait` always returns.  It leaves the registries and the disk alone,
its last operation is a liveness probe, and it returns the error, which names
the pid, exactly when that last probe found the process alive. -/
theorem killAndWait_total (w : World) (pid timeout : Int) (s : State) :
    ∃ (r : Option String) (h : List Op) (nw : Int),
      killAndWait w pid timeout s =
        (Outcome.ret r, { s with trace := s.trace ++ (h ++ [Op.kill pid 0]), now := nw }) ∧
      (r.isSome = true ↔ w.err (s.trace ++ h) (Op.kill pid 0) = none) ∧
      (∀ msg, r = some msg →
        msg = "process " ++ toString pid ++ " still exists after SIGKILL") ∧
      (∀ op ∈ h, op = Op.kill pid 0 ∨ op = Op.kill pid SIGTERM ∨ op = Op.kill pid SIGKILL ∨
        op = Op.sleep (100 * Millisecond)) := by
  have hfuel : ∀ nw : Int,
      nw + timeout ≤ nw + (((pollBound timeout : Nat) : Int) - 1) * (100 * Millisecond) := by
    intro nw
    unfold pollBound Millisecond
    push_cast
    omega
  have hone : 1 ≤ pollBound timeout := by
    unfold pollBound
    omega
  cases h0 : w.err s.trace (Op.kill pid 0) with
  | some e =>
    refine ⟨none, [], s.now, ?_, ?_, ?_, ?_⟩
    · rw [killAndWait_dead_run w pid timeout s e h0]
      simp
    · simp [h0]
    · intro msg hmsg
      cases hmsg
    · intro op hop
      cases hop
  | none =>
    have hp : ∀ (tr : List Op) (nw : Int), ∃ (b : Bool) (ops : List Op) (nw1 : Int),
        pollUntilDead w pid (nw + timeout) (pollBound timeout)
            { s with trace := tr, now := nw } =
          (Outcome.ret b, { s with trace := tr ++ ops, now := nw1 }) ∧
        (b = true → ∃ h e, ops = h ++ [Op.kill pid 0] ∧
          w.err (tr ++ h) (Op.kill pid 0) = some e) ∧
        (∀ op ∈ ops, op = Op.kill pid 0 ∨ op = Op.sleep (100 * Millisecond)) := by
      intro tr nw
      exact pollUntilDead_total w pid (nw + timeout) (pollBound timeout)
        { s with trace := tr, now := nw } hone (hfuel nw)
    choose b ops nw1 hrun hdead hops using hp
    have hrun2 : ∀ (tr : List Op) (nw : Int),
        pollUntilDead w pid (timeout + nw) (pollBound timeout)
            { s with trace := tr, now := nw } =
          (Outcome.ret (b tr nw), { s with trace := tr ++ ops tr nw, now := nw1 tr nw }) := by
      intro tr nw
      rw [add_comm]
      exact hrun tr nw
    simp only [killAndWait, bind_eq, pure_eq, bind_apply, processExists_apply, h0,
      Option.isNone_none, Bool.not_true, Bool.false_eq_true, if_false, call_apply,
      timeNow_apply, hrun, hrun2, pure_apply]
    generalize htr1 : s.trace ++ [Op.kill pid 0] ++ [Op.kill pid SIGTERM] = tr1
    cases hb1 : b tr1 s.now with
    | true =>
      obtain ⟨h, e, h1, h2⟩ := hdead tr1 s.now hb1
      refine ⟨none, [Op.kill pid 0, Op.kill pid SIGTERM] ++ h, nw1 tr1 s.now, ?_, ?_, ?_, ?_⟩
      · rw [h1, ← htr1]
        simp
      · rw [← htr1] at h2
        simp only [List.append_assoc, List.singleton_append, List.cons_append,
          List.nil_append] at h2 ⊢
        simp [h2]
      · intro msg hm
        cases hm
      · intro op hop
        have hsub : ∀ x ∈ h, x ∈ ops tr1 s.now := fun x hx => by rw [h1]; simp [hx]
        simp only [List.mem_append, List.mem_cons, List.mem_singleton, List.not_mem_nil,
          or_false] at hop
        rcases hop with (hx | hx) | hx
        · exact Or.inl hx
        · exact Or.inr (Or.inl hx)
        · rcases hops tr1 s.now op (hsub op hx) with hy | hy
          · exact Or.inl hy
          · exact Or.inr (Or.inr (Or.inr hy))
    | false =>
      simp only [Bool.false_eq_true, if_false, bind_apply, call_apply, timeNow_apply, hrun,
        hrun2, pure_apply, processExists_apply]
      generalize htr2 : tr1 ++ ops tr1 s.now ++ [Op.kill pid SIGKILL] = tr2
      cases hb2 : b tr2 (nw1 tr1 s.now) with
      | true =>
        obtain ⟨h, e, h1, h2⟩ := hdead tr2 (nw1 tr1 s.now) hb2
        refine ⟨none, [Op.kill pid 0, Op.kill pid SIGTERM] ++ ops tr1 s.now ++
          [Op.kill pid SIGKILL] ++ h, nw1 tr2 (nw1 tr1 s.now), ?_, ?_, ?_, ?_⟩
        · rw [h1, ← htr2, ← htr1]
          simp
        · have hh : s.trace ++ ([Op.kill pid 0, Op.kill pid SIGTERM] ++ ops tr1 s.now ++
              [Op.kill pid SIGKILL] ++ h) = tr2 ++ h := by
            rw [← htr2, ← htr1]
            simp
          rw [hh, h2]
          simp
        · intro msg hm
          cases hm
        · intro op hop
          have hsub : ∀ x ∈ h, x ∈ ops tr2 (nw1 tr1 s.now) := fun x hx => by
            rw [h1]; simp [hx]
          simp only [List.mem_append, List.mem_cons, List.mem_singleton, List.not_mem_nil,
            or_false] at hop
          rcases hop with (((hx | hx) | hx) | hx) | hx
          · exact Or.inl hx
          · exact Or.inr (Or.inl hx)
          · rcases hops tr1 s.now op hx with hy | hy
            · exact Or.inl hy
            · exact Or.inr (Or.inr (Or.inr hy))
          · exact Or.inr (Or.inr (Or.inl hx))
          · rcases hops tr2 (nw1 tr1 s.now) op (hsub op hx) with hy | hy
            · exact Or.inl hy
            · exact Or.inr (Or.inr (Or.inr hy))
      | false =>
        refine ⟨if (w.err (tr2 ++ ops tr2 (nw1 tr1 s.now)) (Op.kill pid 0)).isNone = true
            then some ("process " ++ toString pid ++ " still exists after SIGKILL") else none,
          [Op.kill pid 0, Op.kill pid SIGTERM] ++ ops tr1 s.now ++
            [Op.kill pid SIGKILL] ++ ops tr2 (nw1 tr1 s.now), nw1 tr2 (nw1 tr1 s.now),
          ?_, ?_, ?_, ?_⟩
        · simp only [Bool.false_eq_true, if_false, bind_apply, processExists_apply, pure_apply]
          cases he : w.err (tr2 ++ ops tr2 (nw1 tr1 s.now)) (Op.kill pid 0) <;>
            simp [← htr2, ← htr1]
        · have hh : s.trace ++ ([Op.kill pid 0, Op.kill pid SIGTERM] ++ ops tr1 s.now ++
              [Op.kill pid SIGKILL] ++ ops tr2 (nw1 tr1 s.now)) =
              tr2 ++ ops tr2 (nw1 tr1 s.now) := by
            rw [← htr2, ← htr1]
            simp
          rw [hh]
          cases he : w.err (tr2 ++ ops tr2 (nw1 tr1 s.now)) (Op.kill pid 0) <;> simp
        · intro msg hm
          split at hm
          · exact (Option.some.inj hm).symm
          · cases hm
        · intro op hop
          simp only [List.mem_append, List.mem_cons, List.mem_singleton, List.not_mem_nil,
            or_false] at hop
          rcases hop with (((hx | hx) | hx) | hx) | hx
          · exact Or.inl hx
          · exact Or.inr (Or.inl hx)
          · rcases hops tr1 s.now op hx with hy | hy
            · exact Or.inl hy
            · exact Or.inr (Or.inr (Or.inr hy))
          · exact Or.inr (Or.inr (Or.inl hx))
          · rcases hops tr2 (nw1 tr1 s.now) op hx with hy | hy
            · exact Or.inl hy
            · exact Or.inr (Or.inr (Or.inr hy))

theorem signalsSent_append (a b : List Op) :
    signalsSent (a ++ b) = signalsSent a ++ signalsSent b := by
  simp [signalsSent]

theorem signalsSent_rounds (pid : Int) :
    ∀ n : Nat, signalsSent (List.replicate n (pollRound pid)).flatten = []
  | 0 => rfl
  | n + 1 => by
    rw [List.replicate_succ, List.flatten_cons, signalsSent_append, signalsSent_rounds pid n]
    rfl

theorem killAndWait_diesWhileSleeping :
    killAndWait diesWhileSleepingWorld 7 (100 * Millisecond) State.initial =
      (Outcome.ret none,
        { State.initial with
          trace := [Op.kill 7 0, Op.kill 7 SIGTERM, Op.kill 7 0, Op.sleep (100 * Millisecond),
            Op.kill 7 SIGKILL, Op.kill 7 0],
          now := 100 * Millisecond }) := by
  have hb : pollBound (100 * Millisecond) = 2 + 1 := by
    simp [pollBound, Millisecond]
  simp [killAndWait, hb, pollUntilDead_succ, pollUntilDead, bind_apply, diesWhileSleepingWorld,
    State.initial, Millisecond, SIGTERM, SIGKILL]

/-- C6, the code at the failing input: the process is alive at the probes of
the TERM phase and dies during the last 100 ms sleep of that phase (timeout
100 ms).  The loop ends on the deadline without probing again and `killAndWait`
sends KILL although a probe at that moment reports the process dead. -/
theorem killAndWait_sends_KILL_to_dead_process :
    performed (killAndWait diesWhileSleepingWorld 7 (100 * Millisecond)) State.initial =
      [Op.kill 7 0, Op.kill 7 SIGTERM, Op.kill 7 0, Op.sleep (100 * Millisecond)] ++
        Op.kill 7 SIGKILL :: [Op.kill 7 0] ∧
    diesWhileSleepingWorld.err
        (State.initial.trace ++
          [Op.kill 7 0, Op.kill 7 SIGTERM, Op.kill 7 0, Op.sleep (100 * Millisecond)])
        (Op.kill 7 0) = some "no such process" ∧
    diesWhileSleepingWorld.err (State.initial.trace ++ [Op.kill 7 0, Op.kill 7 SIGTERM])
        (Op.kill 7 0) = none :=
  ⟨performed_of_run killAndWait_diesWhileSleeping rfl, rfl, rfl⟩

/-! ## `DeleteContainer` -/

@[simp] theorem setRunning_apply (cs : List Container) (s : State) :
    setRunning cs s = (Outcome.ret (), { s with ContainersRunning := cs }) := rfl

@[simp] theorem setStarting_apply (cs : List Container) (s : State) :
    setStarting cs s = (Outcome.ret (), { s with ContainersStarting := cs }) := rfl

theorem stopAndRemove_of_kill (w : World) (c : Container) (s s1 : State) (r : Option String)
    (hpid : 0 < c.NamespacePID)
    (hk : killAndWait w c.NamespacePID (5 * Second) s = (Outcome.ret r, s1)) :
    stopAndRemove w c s =
      (Outcome.ret (),
        { s1 with trace := s1.trace ++ (killWarning r ++ Op.removeAll c.Location ::
            removeError (w.err (s1.trace ++ killWarning r) (Op.removeAll c.Location))) }) := by
  cases r with
  | none =>
    cases hr : w.err (s1.trace ++ killWarning none) (Op.removeAll c.Location) <;>
      simp only [killWarning, List.append_nil] at hr <;>
      simp [stopAndRemove, bind_apply, hpid, hk, killWarning, removeError, hr]
  | some msg =>
    cases hr : w.err (s1.trace ++ killWarning (some msg)) (Op.removeAll c.Location) <;>
      simp only [killWarning] at hr <;>
      simp [stopAndRemove, bind_apply, hpid, hk, killWarning, removeError, hr]

theorem stopAndRemove_no_pid (w : World) (c : Container) (s : State)
    (hpid : c.NamespacePID ≤ 0) :
    stopAndRemove w c s =
      (Outcome.ret (),
        { s with trace := s.trace ++ (Op.removeAll c.Location ::
            removeError (w.err s.trace (Op.removeAll c.Location))) }) := by
  have hn : ¬ c.NamespacePID > 0 := by omega
  cases hr : w.err s.trace (Op.removeAll c.Location) <;>
    simp [stopAndRemove, bind_apply, hn, removeError, hr]

/-- What `stopAndRemove` does, whatever the world answers: some probing,
signalling and sleeping with at most a warning, then the `RemoveAll` of the
location, then at most an error message.  The registries are not touched. -/
theorem stopAndRemove_run (w : World) (c : Container) (s : State) :
    ∃ (pre : List Op) (nw : Int),
      stopAndRemove w c s =
        (Outcome.ret (),
          { s with
            trace := s.trace ++ (pre ++ Op.removeAll c.Location ::
              removeError (w.err (s.trace ++ pre) (Op.removeAll c.Location))),
            now := nw }) ∧
      (∀ op ∈ pre, Op.touchesDisk op = false) ∧
      (c.NamespacePID ≤ 0 → pre = [] ∧ nw = s.now) ∧
      (∀ e, w.err s.trace (Op.kill c.NamespacePID 0) = some e → 0 < c.NamespacePID →
        pre = [Op.kill c.NamespacePID 0] ∧ nw = s.now) := by
  by_cases hpid : 0 < c.NamespacePID
  · obtain ⟨r, h, nw, hk, -, -, hkops⟩ := killAndWait_total w c.NamespacePID (5 * Second) s
    refine ⟨h ++ [Op.kill c.NamespacePID 0] ++ killWarning r, nw, ?_, ?_, ?_, ?_⟩
    · rw [stopAndRemove_of_kill w c s _ r hpid hk]
      simp
    · intro op hop
      simp only [List.mem_append, List.mem_singleton] at hop
      rcases hop with (hx | hx) | hx
      · rcases hkops op hx with hy | hy | hy | hy <;> rw [hy] <;> rfl
      · rw [hx]; rfl
      · cases r with
        | none => cases hx
        | some msg =>
          simp only [killWarning, List.mem_singleton] at hx
          rw [hx]; rfl
    · intro hle
      omega
    · intro e he _
      rw [killAndWait_dead_run w c.NamespacePID (5 * Second) s e he] at hk
      simp only [Prod.mk.injEq, Outcome.ret.injEq] at hk
      obtain ⟨hr, hs⟩ := hk
      have htr := congrArg State.trace hs
      have hnw := congrArg State.now hs
      simp only [List.append_cancel_left_eq] at htr
      simp only at hnw
      subst hr
      have hh : h = [] := by
        cases h with
        | nil => rfl
        | cons a t =>
          have := congrArg List.length htr
          simp at this
      subst hh
      exact ⟨rfl, hnw.symm⟩
  · have hle : c.NamespacePID ≤ 0 := by omega
    refine ⟨[], s.now, ?_, ?_, ?_, ?_⟩
    · rw [stopAndRemove_no_pid w c s hle]
      simp
    · intro op hop
      cases hop
    · intro _
      exact ⟨rfl, rfl⟩
    · intro e _ h0
      omega

theorem rangeUntil_miss {α : Type} (body : Nat → α → Proc Bool) :
    ∀ (xs : List α) (i : Nat) (s : State),
      (∀ x ∈ xs, ∀ j t, body j x t = (Outcome.ret false, t)) →
      rangeUntil xs i body s = (Outcome.ret false, s)
  | [], i, s, _ => rfl
  | x :: xs, i, s, h => by
    have hx := h x (List.mem_cons_self x xs) i s
    have hxs := rangeUntil_miss body xs (i + 1) s
      (fun y hy => h y (List.mem_cons_of_mem x hy))
    simp [rangeUntil, bind_apply, hx, hxs]

theorem rangeUntil_skip {α : Type} (body : Nat → α → Proc Bool) :
    ∀ (pre rest : List α) (i : Nat) (s : State),
      (∀ x ∈ pre, ∀ j t, body j x t = (Outcome.ret false, t)) →
      rangeUntil (pre ++ rest) i body s = rangeUntil rest (i + pre.length) body s
  | [], rest, i, s, _ => by simp
  | x :: pre, rest, i, s, h => by
    have hx := h x (List.mem_cons_self x pre) i s
    have hpre := rangeUntil_skip body pre rest (i + 1) s
      (fun y hy => h y (List.mem_cons_of_mem x hy))
    have hidx : i + 1 + pre.length = i + (pre.length + 1) := by omega
    rw [hidx] at hpre
    rw [List.length_cons, ← hpre]
    simp [rangeUntil, bind_apply, hx]

theorem rangeUntil_hit {α : Type} (body : Nat → α → Proc Bool) (x : α) (xs : List α)
    (i : Nat) (s s1 : State) (h : body i x s = (Outcome.ret true, s1)) :
    rangeUntil (x :: xs) i body s = (Outcome.ret true, s1) := by
  simp [rangeUntil, bind_apply, h]

theorem take_drop_split {α : Type} (pre post : List α) (c : α) :
    (pre ++ c :: post).take pre.length ++ (pre ++ c :: post).drop (pre.length + 1) =
      pre ++ post := by
  simp [List.take_append_eq_append_take, List.drop_append_eq_append_drop]

/-- `DeleteContainer` when the first record with the name is in running. -/
theorem DeleteContainer_running (w : World) (name : String) (s s1 : State)
    (pre post : List Container) (c : Container)
    (hsplit : s.ContainersRunning = pre ++ c :: post)
    (hpre : ∀ x ∈ pre, x.Name ≠ name) (hc : c.Name = name)
    (hstop : stopAndRemove w c s = (Outcome.ret (), s1))
    (hkeep : s1.ContainersRunning = s.ContainersRunning) :
    DeleteContainer w name s =
      (Outcome.ret (),
        { s1 with
          ContainersRunning := pre ++ post,
          trace := s1.trace ++ [Op.stdout ("Container '" ++ name ++ "' deleted successfully\n")] }) := by
  unfold DeleteContainer
  simp only [bind_eq, pure_eq, bind_apply, getState_apply, hsplit]
  rw [rangeUntil_skip _ pre (c :: post) 0 s (fun x hx j t => by simp [hpre x hx])]
  rw [rangeUntil_hit _ c post _ s
    { s1 with
      ContainersRunning := pre ++ post,
      trace := s1.trace ++ [Op.stdout ("Container '" ++ name ++ "' deleted successfully\n")] }
    (by simp [hc, bind_apply, hstop, hkeep, hsplit, take_drop_split])]
  simp

/-- `DeleteContainer` when no running record has the name and the first
record with the name is in starting. -/
theorem DeleteContainer_starting (w : World) (name : String) (s s1 : State)
    (pre post : List Container) (c : Container)
    (hrun : ∀ x ∈ s.ContainersRunning, x.Name ≠ name)
    (hsplit : s.ContainersStarting = pre ++ c :: post)
    (hpre : ∀ x ∈ pre, x.Name ≠ name) (hc : c.Name = name)
    (hstop : stopAndRemove w c s = (Outcome.ret (), s1))
    (hkeep : s1.ContainersStarting = s.ContainersStarting) :
    DeleteContainer w name s =
      (Outcome.ret (),
        { s1 with
          ContainersStarting := pre ++ post,
          trace := s1.trace ++ [Op.stdout ("Container '" ++ name ++ "' deleted successfully\n")] }) := by
  unfold DeleteContainer
  simp only [bind_eq, pure_eq, bind_apply, getState_apply]
  rw [rangeUntil_miss _ s.ContainersRunning 0 s (fun x hx j t => by simp [hrun x hx])]
  simp only [Bool.false_eq_true, if_false, bind_apply, getState_apply, hsplit]
  rw [rangeUntil_skip _ pre (c :: post) 0 s (fun x hx j t => by simp [hpre x hx])]
  rw [rangeUntil_hit _ c post _ s
    { s1 with
      ContainersStarting := pre ++ post,
      trace := s1.trace ++ [Op.stdout ("Container '" ++ name ++ "' deleted successfully\n")] }
    (by simp [hc, bind_apply, hstop, hkeep, hsplit, take_drop_split])]
  simp

/-- `DeleteContainer` when neither running nor starting holds the name. -/
theorem DeleteContainer_not_found (w : World) (name : String) (s : State)
    (hrun : ∀ x ∈ s.ContainersRunning, x.Name ≠ name)
    (hstart : ∀ x ∈ s.ContainersStarting, x.Name ≠ name) :
    DeleteContainer w name s =
      (Outcome.ret (),
        { s with trace := s.trace ++ [Op.stdout ("Container '" ++ name ++ "' not found\n")] }) := by
  unfold DeleteContainer
  simp only [bind_eq, pure_eq, bind_apply, getState_apply]
  rw [rangeUntil_miss _ s.ContainersRunning 0 s (fun x hx j t => by simp [hrun x hx])]
  simp only [Bool.false_eq_true, if_false, bind_apply, getState_apply]
  rw [rangeUntil_miss _ s.ContainersStarting 0 s (fun x hx j t => by simp [hstart x hx])]
  simp

/-! ## The disk after a trace -/

theorem replay_append (w : World) :
    ∀ (a b h : List Op) (d : String → Bool),
      replay w h d (a ++ b) = replay w (h ++ a) (replay w h d a) b
  | [], b, h, d => by simp [replay]
  | op :: a, b, h, d => by
    have ih := replay_append w a b (h ++ [op]) (applyOp w h d op)
    rw [List.append_assoc, List.singleton_append] at ih
    rw [List.cons_append, replay, replay, ih]

theorem diskAfter_append (w : World) (d0 : String → Bool) (t ops : List Op) :
    diskAfter w d0 (t ++ ops) = replay w t (diskAfter w d0 t) ops := by
  simp [diskAfter, replay_append]

theorem applyOp_inert (w : World) (h : List Op) (d : String → Bool) (op : Op)
    (hop : Op.touchesDisk op = false) : applyOp w h d op = d := by
  cases op <;> first | rfl | cases hop

theorem replay_inert (w : World) :
    ∀ (ops h : List Op) (d : String → Bool),
      (∀ op ∈ ops, Op.touchesDisk op = false) → replay w h d ops = d
  | [], h, d, _ => rfl
  | op :: ops, h, d, hops => by
    simp only [replay]
    rw [applyOp_inert w h d op (hops op (List.mem_cons_self op ops))]
    exact replay_inert w ops (h ++ [op]) d (fun x hx => hops x (List.mem_cons_of_mem op hx))

theorem removeError_inert (r : Option String) :
    ∀ op ∈ removeError r, Op.touchesDisk op = false := by
  intro op hop
  cases r with
  | none => cases hop
  | some err =>
    simp only [removeError, List.mem_singleton] at hop
    rw [hop]; rfl

theorem pathWithin_self (p : String) : pathWithin p p = true := by
  simp [pathWithin]

/-- After `pre` (which does not touch the disk), a `RemoveAll` of `loc` and any
operations `post` that do not touch the disk: how the disk looks. -/
theorem replay_remove (w : World) (h pre post : List Op) (d : String → Bool) (loc : String)
    (hpre : ∀ op ∈ pre, Op.touchesDisk op = false)
    (hpost : ∀ op ∈ post, Op.touchesDisk op = false) :
    replay w h d (pre ++ Op.removeAll loc :: post) =
      if (w.err (h ++ pre) (Op.removeAll loc)).isNone then fun q => d q && !pathWithin loc q
      else d := by
  rw [replay_append, replay_inert w pre h d hpre]
  simp only [replay]
  rw [replay_inert w post _ _ hpost]
  rfl

theorem exists_first_match (name : String) :
    ∀ l : List Container, (∃ x ∈ l, x.Name = name) →
      ∃ pre c post, l = pre ++ c :: post ∧ (∀ x ∈ pre, x.Name ≠ name) ∧ c.Name = name
  | [], h => by
    obtain ⟨x, hx, -⟩ := h
    cases hx
  | a :: l, h => by
    by_cases ha : a.Name = name
    · exact ⟨[], a, l, rfl, (fun x hx => by cases hx), ha⟩
    · have h' : ∃ x ∈ l, x.Name = name := by
        obtain ⟨x, hx, hn⟩ := h
        rcases List.mem_cons.1 hx with rfl | hx
        · exact absurd hn ha
        · exact ⟨x, hx, hn⟩
      obtain ⟨pre, c, post, hl, hpre, hc⟩ := exists_first_match name l h'
      refine ⟨a :: pre, c, post, by rw [hl]; rfl, ?_, hc⟩
      intro x hx
      rcases List.mem_cons.1 hx with rfl | hx
      · exact ha
      · exact hpre x hx

theorem eraseP_first_match (name : String) (pre post : List Container) (c : Container)
    (hpre : ∀ x ∈ pre, x.Name ≠ name) (hc : c.Name = name) :
    (pre ++ c :: post).eraseP (fun x => x.Name == name) = pre ++ post := by
  rw [List.eraseP_append_right _ (fun x hx => by simpa using hpre x hx)]
  rw [List.eraseP_cons_of_pos (by simpa using hc)]

theorem eraseP_no_match (name : String) (l : List Container)
    (h : ∀ x ∈ l, x.Name ≠ name) : l.eraseP (fun x => x.Name == name) = l :=
  List.eraseP_of_forall_not (fun x hx => by simpa using h x hx)

/-- What `DeleteContainer` leaves behind, whatever the world answers: it
returns, running loses its first record with the name, starting loses its
first record with the name when running had none, stopped is kept, and the
trace only grows. -/
theorem DeleteContainer_effect (w : World) (name : String) (s : State) :
    ∃ (ops : List Op) (nw : Int),
      DeleteContainer w name s =
        (Outcome.ret (),
          { ContainersRunning := s.ContainersRunning.eraseP (fun x => x.Name == name),
            ContainersStarting :=
              if ∃ x ∈ s.ContainersRunning, x.Name = name then s.ContainersStarting
              else s.ContainersStarting.eraseP (fun x => x.Name == name),
            ContainerStopped := s.ContainerStopped,
            trace := s.trace ++ ops,
            now := nw }) := by
  by_cases hr : ∃ x ∈ s.ContainersRunning, x.Name = name
  · obtain ⟨pre, c, post, hl, hpre, hc⟩ := exists_first_match name _ hr
    obtain ⟨kops, nw, hstop, -⟩ := stopAndRemove_run w c s
    refine ⟨(kops ++ Op.removeAll c.Location ::
        removeError (w.err (s.trace ++ kops) (Op.removeAll c.Location))) ++
        [Op.stdout ("Container '" ++ name ++ "' deleted successfully\n")], nw, ?_⟩
    rw [DeleteContainer_running w name s _ pre post c hl hpre hc hstop rfl, if_pos hr, hl,
      eraseP_first_match name pre post c hpre hc]
    simp
  · have hr' : ∀ x ∈ s.ContainersRunning, x.Name ≠ name := fun x hx hn => hr ⟨x, hx, hn⟩
    by_cases hs : ∃ x ∈ s.ContainersStarting, x.Name = name
    · obtain ⟨pre, c, post, hl, hpre, hc⟩ := exists_first_match name _ hs
      obtain ⟨kops, nw, hstop, -⟩ := stopAndRemove_run w c s
      refine ⟨(kops ++ Op.removeAll c.Location ::
        removeError (w.err (s.trace ++ kops) (Op.removeAll c.Location))) ++
        [Op.stdout ("Container '" ++ name ++ "' deleted successfully\n")], nw, ?_⟩
      rw [DeleteContainer_starting w name s _ pre post c hr' hl hpre hc hstop rfl, if_neg hr,
        eraseP_no_match name _ hr', hl, eraseP_first_match name pre post c hpre hc]
      simp
    · have hs' : ∀ x ∈ s.ContainersStarting, x.Name ≠ name := fun x hx hn => hs ⟨x, hx, hn⟩
      refine ⟨[Op.stdout ("Container '" ++ name ++ "' not found\n")], s.now, ?_⟩
      rw [DeleteContainer_not_found w name s hr' hs', if_neg hr, eraseP_no_match name _ hr',
        eraseP_no_match name _ hs']

/-! ## Code that leaves the registries alone -/

theorem keeps_pure {α : Type} {Q : α → Prop} (a : α) (h : Q a) : Keeps Q (Proc.pure a) := by
  intro s
  refine ⟨⟨rfl, rfl, rfl⟩, ⟨[], by simp⟩, ?_⟩
  intro b hb
  simp only [pure_apply, Outcome.ret.injEq] at hb
  exact hb ▸ h

theorem keeps_halt {α : Type} {Q : α → Prop} (x : Halt) : Keeps Q (halt x : Proc α) := by
  intro s
  refine ⟨⟨rfl, rfl, rfl⟩, ⟨[], by simp⟩, ?_⟩
  intro b hb
  cases hb

theorem keeps_emit (op : Op) : Keeps (fun _ => True) (emit op) := by
  intro s
  exact ⟨⟨rfl, rfl, rfl⟩, ⟨[op], rfl⟩, fun _ _ => trivial⟩

theorem keeps_Printf (text : String) : Keeps (fun _ => True) (Printf text) :=
  keeps_emit _

theorem keeps_call (w : World) (op : Op) : Keeps (fun _ => True) (call w op) := by
  intro s
  exact ⟨⟨rfl, rfl, rfl⟩, ⟨[op], rfl⟩, fun _ _ => trivial⟩

theorem keeps_getState : Keeps (fun _ => True) getState := by
  intro s
  exact ⟨⟨rfl, rfl, rfl⟩, ⟨[], by simp⟩, fun _ _ => trivial⟩

theorem keeps_randIntn (w : World) (n : Nat) : Keeps (fun _ => True) (randIntn w n) := by
  intro s
  exact ⟨⟨rfl, rfl, rfl⟩, ⟨[Op.randIntn n], rfl⟩, fun _ _ => trivial⟩

theorem keeps_weaken {α : Type} {Q R : α → Prop} {p : Proc α} (h : Keeps Q p)
    (hQR : ∀ a, Q a → R a) : Keeps R p := by
  intro s
  obtain ⟨h1, h2, h3⟩ := h s
  exact ⟨h1, h2, fun a ha => hQR a (h3 a ha)⟩

theorem keeps_bind {α β : Type} {Q : α → Prop} {R : β → Prop} {p : Proc α} {f : α → Proc β}
    (hp : Keeps Q p) (hf : ∀ a, Q a → Keeps R (f a)) : Keeps R (Proc.bind p f) := by
  intro s
  obtain ⟨⟨h1, h2, h3⟩, ⟨ops, h4⟩, h5⟩ := hp s
  rcases hps : p s with ⟨_ | x, s1⟩
  · rename_i a
    rw [hps] at h1 h2 h3 h4 h5
    obtain ⟨⟨g1, g2, g3⟩, ⟨ops2, g4⟩, g5⟩ := hf a (h5 a rfl) s1
    rw [bind_ret hps]
    exact ⟨⟨g1.trans h1, g2.trans h2, g3.trans h3⟩,
      ⟨ops ++ ops2, by rw [g4, h4, List.append_assoc]⟩, g5⟩
  · rw [hps] at h1 h2 h3 h4
    rw [bind_halt hps]
    exact ⟨⟨h1, h2, h3⟩, ⟨ops, h4⟩, fun a ha => by cases ha⟩

theorem keeps_ite {α : Type} {Q : α → Prop} {c : Prop} [Decidable c] {p q : Proc α}
    (hp : Keeps Q p) (hq : Keeps Q q) : Keeps Q (if c then p else q) := by
  split
  · exact hp
  · exact hq

theorem keeps_forEach {α : Type} {body : α → Proc Unit}
    (hbody : ∀ x, Keeps (fun _ => True) (body x)) :
    ∀ xs : List α, Keeps (fun _ => True) (forEach xs body)
  | [] => keeps_pure () trivial
  | x :: xs => keeps_bind (hbody x) (fun _ _ => keeps_forEach hbody xs)

theorem keeps_killAndWait (w : World) (pid timeout : Int) :
    Keeps (fun _ => True) (killAndWait w pid timeout) := by
  intro s
  obtain ⟨r, h, nw, hrun, -⟩ := killAndWait_total w pid timeout s
  rw [hrun]
  exact ⟨⟨rfl, rfl, rfl⟩, ⟨_, rfl⟩, fun _ _ => trivial⟩

theorem keeps_processExists (w : World) (pid : Int) :
    Keeps (fun _ => True) (processExists w pid) := by
  intro s
  exact ⟨⟨rfl, rfl, rfl⟩, ⟨[Op.kill pid 0], rfl⟩, fun _ _ => trivial⟩

theorem keeps_ite_then {β : Type} {R : β → Prop} {c : Prop} [Decidable c] {p q : Proc Unit}
    {j : Unit → Proc β} (hp : Keeps (fun _ => True) p) (hq : Keeps (fun _ => True) q)
    (hj : ∀ y, Keeps R (j y)) :
    Keeps R (if c then Proc.bind p j else Proc.bind q j) :=
  keeps_ite (keeps_bind hp (fun y _ => hj y)) (keeps_bind hq (fun y _ => hj y))

/-! ## Name generation and staging -/

theorem writeRandomBytes_keeps (w : World) :
    ∀ (n : Nat) (sb : String),
      Keeps (fun r : String => ∃ cs : List Char, r.data = sb.data ++ cs ∧ cs.length = n ∧
        ∀ c ∈ cs, c ∈ charset.data) (writeRandomBytes w n sb)
  | 0, sb => keeps_pure sb ⟨[], by simp, rfl, fun c hc => by cases hc⟩
  | n + 1, sb => by
    unfold writeRandomBytes
    refine keeps_bind (keeps_randIntn w _) (fun k _ => ?_)
    cases hk : charset.data[k]? with
    | none => exact keeps_halt _
    | some c =>
      refine keeps_weaken (writeRandomBytes_keeps w n (sb.push c)) ?_
      rintro r ⟨cs, h1, h2, h3⟩
      refine ⟨c :: cs, ?_, by simp [h2], ?_⟩
      · rw [h1]
        simp
      · intro x hx
        rcases List.mem_cons.1 hx with rfl | hx
        · exact List.getElem?_mem hk
        · exact h3 x hx

/-- Every name `GenerateRandomContainerName` returns is `container-` followed
by `length` characters of the alphabet. -/
theorem GenerateRandomContainerName_keeps (w : World) (length : Int) :
    Keeps (fun name : String => ∃ cs : List Char,
        name.data = "container-".data ++ cs ∧ cs.length = length.toNat ∧
        ∀ c ∈ cs, c ∈ charset.data)
      (GenerateRandomContainerName w length) := by
  unfold GenerateRandomContainerName
  refine keeps_ite (keeps_halt _) ?_
  refine keeps_bind (writeRandomBytes_keeps w length.toNat "") ?_
  rintro sb ⟨cs, h1, h2, h3⟩
  refine keeps_pure _ ⟨cs, ?_, h2, h3⟩
  rw [String.data_append, h1]
  simp

theorem slash_not_in_charset : '/' ∉ charset.data := by decide

theorem slash_not_in_name (name : String) (cs : List Char)
    (h1 : name.data = "container-".data ++ cs) (h3 : ∀ c ∈ cs, c ∈ charset.data) :
    '/' ∉ name.data := by
  rw [h1]
  intro hmem
  rcases List.mem_append.1 hmem with h | h
  · revert h
    decide
  · exact slash_not_in_charset (h3 _ h)

theorem prepareTempNetworkFiles_keeps (w : World) (c : Container) :
    Keeps (fun _ => True) (prepareTempNetworkFiles w c) := by
  unfold prepareTempNetworkFiles
  simp only [bind_eq, pure_eq]
  refine keeps_bind (keeps_call w _) (fun _ _ => ?_)
  refine keeps_ite_then (keeps_Printf _) (keeps_pure _ trivial) (fun _ => ?_)
  refine keeps_bind (keeps_call w _) (fun _ _ => ?_)
  refine keeps_ite_then (keeps_Printf _) (keeps_pure _ trivial) (fun _ => ?_)
  refine keeps_bind (keeps_call w _) (fun _ _ => ?_)
  exact keeps_ite (keeps_Printf _) (keeps_pure _ trivial)

theorem absolutePath_keeps (w : World) (path : String) :
    Keeps (fun _ => True) (absolutePath w path) := by
  unfold absolutePath
  simp only [bind_eq, pure_eq]
  refine keeps_ite (keeps_pure _ trivial) ?_
  refine keeps_bind keeps_getState (fun _ _ => ?_)
  refine keeps_bind (keeps_call w _) (fun r _ => ?_)
  cases r
  · exact keeps_pure _ trivial
  · exact keeps_pure _ trivial

/-- `launchNamespaces` returns the container it was given, with at most the
pid filled in. -/
theorem launchNamespaces_keeps (w : World) (c : Container) (binaryPath : String) :
    Keeps (fun r : Container × Option String => r.1.Name = c.Name ∧ r.1.Location = c.Location)
      (launchNamespaces w c binaryPath) := by
  unfold launchNamespaces
  simp only [bind_eq, pure_eq]
  refine keeps_bind (keeps_Printf _) (fun _ _ => ?_)
  refine keeps_bind (keeps_call w _) (fun r _ => ?_)
  cases r with
  | some e => exact keeps_pure _ ⟨rfl, rfl⟩
  | none =>
  refine keeps_bind (keeps_call w _) (fun r _ => ?_)
  cases r with
  | some e => exact keeps_pure _ ⟨rfl, rfl⟩
  | none =>
  refine keeps_bind (keeps_call w _) (fun r _ => ?_)
  cases r with
  | some e => exact keeps_pure _ ⟨rfl, rfl⟩
  | none =>
  refine keeps_bind (keeps_Printf _) (fun _ _ => ?_)
  refine keeps_bind (absolutePath_keeps w _) (fun r _ => ?_)
  rcases r with ⟨p1, _ | e⟩
  swap
  · exact keeps_pure _ ⟨rfl, rfl⟩
  refine keeps_bind (absolutePath_keeps w _) (fun r _ => ?_)
  rcases r with ⟨p2, _ | e⟩
  swap
  · exact keeps_pure _ ⟨rfl, rfl⟩
  refine keeps_bind keeps_getState (fun _ _ => ?_)
  refine keeps_bind (keeps_call w _) (fun r _ => ?_)
  cases r with
  | some e => exact keeps_pure _ ⟨rfl, rfl⟩
  | none =>
  refine keeps_bind (keeps_Printf _) (fun _ _ => ?_)
  exact keeps_pure _ ⟨rfl, rfl⟩

/-- `prepareNewContainerRootFs` keeps the registries; the record it returns
carries the name drawn after the progress line and the location derived from
it. -/
theorem prepareNewContainerRootFs_effect (w : World) (s : State) :
    ∃ (o : Outcome Container) (s' : State),
      prepareNewContainerRootFs w s = (o, s') ∧
      (s'.ContainersRunning = s.ContainersRunning ∧
        s'.ContainersStarting = s.ContainersStarting ∧
        s'.ContainerStopped = s.ContainerStopped) ∧
      (∃ ops, s'.trace = s.trace ++ ops) ∧
      ∀ nc, o = Outcome.ret nc →
        (∃ s1, GenerateRandomContainerName w 7
            { s with trace := s.trace ++ [Op.stdout "Preparing root filesystem..\n"] } =
          (Outcome.ret nc.Name, s1)) ∧
        nc.Location = ".containers/" ++ nc.Name := by
  obtain ⟨hreg, ⟨gops, hgops⟩, -⟩ := GenerateRandomContainerName_keeps w 7
    { s with trace := s.trace ++ [Op.stdout "Preparing root filesystem..\n"] }
  rcases hgen : GenerateRandomContainerName w 7
    { s with trace := s.trace ++ [Op.stdout "Preparing root filesystem..\n"] } with ⟨n | x, s1⟩
  · rw [hgen] at hreg hgops
    simp only at hreg hgops
    cases hcp : w.err (s1.trace ++ [Op.mkdirAll (".containers/" ++ n ++ "/root_fs") 0o755])
        (Op.copy "./root_fs/" (".containers/" ++ n ++ "/root_fs")) with
    | none =>
      refine ⟨Outcome.ret
          (Container.mk n (".containers/" ++ n) (".containers/" ++ n ++ "/root_fs") 0),
        { s1 with trace := s1.trace ++ [Op.mkdirAll (".containers/" ++ n ++ "/root_fs") 0o755] ++
            [Op.copy "./root_fs/" (".containers/" ++ n ++ "/root_fs")] }, ?_, ?_, ?_, ?_⟩
      · simp only [prepareNewContainerRootFs, bind_eq, pure_eq, bind_apply, Printf_apply, hgen,
          call_apply, hcp, pure_apply]
      · exact hreg
      · exact ⟨_, by rw [hgops]; simp only [List.append_assoc]; rfl⟩
      · intro nc hnc
        simp only [Outcome.ret.injEq] at hnc
        subst hnc
        exact ⟨⟨s1, rfl⟩, rfl⟩
    | some e =>
      refine ⟨Outcome.halt (Halt.exited 1),
        { s1 with trace := s1.trace ++ [Op.mkdirAll (".containers/" ++ n ++ "/root_fs") 0o755] ++
            [Op.copy "./root_fs/" (".containers/" ++ n ++ "/root_fs")] ++ [Op.logFatal e] },
        ?_, ?_, ?_, ?_⟩
      · simp only [prepareNewContainerRootFs, bind_eq, pure_eq, bind_apply, Printf_apply, hgen,
          call_apply, hcp, logFatal, emit_apply, halt_apply]
      · exact hreg
      · exact ⟨_, by rw [hgops]; simp only [List.append_assoc]; rfl⟩
      · intro nc hnc
        cases hnc
  · rw [hgen] at hreg hgops
    simp only at hreg hgops
    refine ⟨Outcome.halt x, s1, ?_, ?_, ?_, ?_⟩
    · simp only [prepareNewContainerRootFs, bind_eq, pure_eq, bind_apply, Printf_apply, hgen]
    · exact hreg
    · exact ⟨_, by rw [hgops]; simp only [List.append_assoc]; rfl⟩
    · intro nc hnc
      cases hnc

/-- What `LaunchContainer` leaves behind, whatever the world answers: starting
and stopped are kept, the trace only grows, and running is either kept or
gains, at its end, one record that carries the name drawn by
`GenerateRandomContainerName` and the location derived from that name. -/
theorem LaunchContainer_effect (w : World) (binaryPath : String) (s : State) :
    ∃ (o : Outcome Unit) (s' : State),
      LaunchContainer w binaryPath s = (o, s') ∧
      s'.ContainersStarting = s.ContainersStarting ∧
      s'.ContainerStopped = s.ContainerStopped ∧
      (∃ ops, s'.trace = s.trace ++ ops) ∧
      (s'.ContainersRunning = s.ContainersRunning ∨
        ∃ (n : String) (s1 : State) (c : Container),
          GenerateRandomContainerName w 7 (s.atDraw binaryPath) = (Outcome.ret n, s1) ∧
          c.Name = n ∧ c.Location = ".containers/" ++ n ∧
          s'.ContainersRunning = s.ContainersRunning ++ [c]) := by
  obtain ⟨o1, s1, hprep, ⟨hr1, hs1, hp1⟩, ⟨ops1, ht1⟩, hname⟩ :=
    prepareNewContainerRootFs_effect w
      { s with trace := s.trace ++
        [Op.stdout ("Launching container with binary: " ++ binaryPath ++ "\n")] }
  cases o1 with
  | halt x =>
    refine ⟨Outcome.halt x, s1, ?_, hs1, hp1, ⟨_, by rw [ht1]; simp only [List.append_assoc]; rfl⟩,
      Or.inl hr1⟩
    simp only [LaunchContainer, bind_eq, pure_eq, bind_apply, Printf_apply, hprep]
  | ret nc =>
    obtain ⟨⟨sg, hgen⟩, hloc⟩ := hname nc rfl
    obtain ⟨⟨hr2, hs2, hp2⟩, ⟨ops2, ht2⟩, -⟩ := prepareTempNetworkFiles_keeps w nc s1
    rcases htmp : prepareTempNetworkFiles w nc s1 with ⟨_ | x, s2⟩
    swap
    · rw [htmp] at hr2 hs2 hp2 ht2
      refine ⟨Outcome.halt x, s2, ?_, hs2.trans hs1, hp2.trans hp1,
        ⟨_, by rw [ht2, ht1]; simp only [List.append_assoc]; rfl⟩, Or.inl (hr2.trans hr1)⟩
      simp only [LaunchContainer, bind_eq, pure_eq, bind_apply, Printf_apply, hprep, htmp]
    rw [htmp] at hr2 hs2 hp2 ht2
    obtain ⟨⟨hr3, hs3, hp3⟩, ⟨ops3, ht3⟩, hsame⟩ := launchNamespaces_keeps w nc binaryPath s2
    rcases hln : launchNamespaces w nc binaryPath s2 with ⟨⟨c, err⟩ | x, s3⟩
    swap
    · rw [hln] at hr3 hs3 hp3 ht3
      refine ⟨Outcome.halt x, s3, ?_, hs3.trans (hs2.trans hs1), hp3.trans (hp2.trans hp1),
        ⟨_, by rw [ht3, ht2, ht1]; simp only [List.append_assoc]; rfl⟩,
        Or.inl (hr3.trans (hr2.trans hr1))⟩
      simp only [LaunchContainer, bind_eq, pure_eq, bind_apply, Printf_apply, hprep, htmp, hln]
    rw [hln] at hr3 hs3 hp3 ht3 hsame
    obtain ⟨hcn, hcl⟩ := hsame (c, err) rfl
    simp only at hr3 hs3 hp3 ht3 hcn hcl
    cases err with
    | some e =>
      refine ⟨Outcome.ret (),
        { s3 with trace := s3.trace ++ [Op.stdout ("Error launching container: " ++ e ++ "\n")] },
        ?_, hs3.trans (hs2.trans hs1), hp3.trans (hp2.trans hp1),
        ⟨_, by
          show s3.trace ++ _ = _
          rw [ht3, ht2, ht1]; simp only [List.append_assoc]; rfl⟩,
        Or.inl (hr3.trans (hr2.trans hr1))⟩
      simp only [LaunchContainer, bind_eq, pure_eq, bind_apply, Printf_apply, hprep, htmp, hln]
    | none =>
      refine ⟨Outcome.ret (),
        { s3 with
          ContainersRunning := s3.ContainersRunning ++ [c],
          trace := s3.trace ++ [Op.stdout ("Container '" ++ c.Name ++
            "' launched successfully (PID: " ++ toString c.NamespacePID ++ ")\n")] },
        ?_, hs3.trans (hs2.trans hs1), hp3.trans (hp2.trans hp1),
        ⟨_, by
          show s3.trace ++ _ = _
          rw [ht3, ht2, ht1]; simp only [List.append_assoc]; rfl⟩,
        Or.inr ⟨nc.Name, sg, c, hgen, hcn, by rw [hcl, hloc], ?_⟩⟩
      · simp only [LaunchContainer, bind_eq, pure_eq, bind_apply, Printf_apply, hprep, htmp,
          hln, getState_apply, setRunning_apply]
      · show s3.ContainersRunning ++ [c] = _
        rw [hr3, hr2, hr1]

theorem relative_head (x : String) : (".containers/" ++ x).data.head? ≠ some '/' := by
  intro h
  have h' : (some '.' : Option Char) = some '/' := h
  exact absurd h' (by decide)

/-- A launch in which every staging and spawn call succeeds. -/
theorem LaunchContainer_success (w : World) (binaryPath : String) (s s1 : State) (n : String)
    (hok : LaunchCallsSucceed w)
    (hgen : GenerateRandomContainerName w 7 (s.atDraw binaryPath) = (Outcome.ret n, s1)) :
    LaunchContainer w binaryPath s =
      (Outcome.ret (),
        { s1 with
          ContainersRunning := s1.ContainersRunning ++
            [{ Name := n, Location := ".containers/" ++ n,
               RootfsLocation := ".containers/" ++ n ++ "/root_fs",
               NamespacePID := launchPid w s1.trace binaryPath n }],
          trace := s1.trace ++ launchOps w s1.trace binaryPath n }) := by
  have hgen' : GenerateRandomContainerName w 7
      { s with trace := s.trace ++
          [Op.stdout ("Launching container with binary: " ++ binaryPath ++ "\n")] ++
          [Op.stdout "Preparing root filesystem..\n"] } = (Outcome.ret n, s1) := hgen
  have hrel : ∀ x : String, ¬ (".containers/" ++ x).data.head? = some '/' := relative_head
  have hrel2 : ¬ (".containers/" ++ n ++ "/root_fs").data.head? = some '/' := by
    rw [String.append_assoc]
    exact relative_head _
  have hmk : ∀ h p m, w.err h (Op.mkdirAll p m) = none := fun h p m => hok h _ rfl
  have hcp : ∀ h a b, w.err h (Op.copy a b) = none := fun h a b => hok h _ rfl
  have hwf : ∀ h a b c, w.err h (Op.writeFile a b c) = none := fun h a b c => hok h _ rfl
  have hch : ∀ h a b, w.err h (Op.chmod a b) = none := fun h a b => hok h _ rfl
  have hgw : ∀ h, w.err h Op.getwd = none := fun h => hok h _ rfl
  have hst : ∀ h a b c d e, w.err h (Op.start a b c d e) = none := fun h a b c d e => hok h _ rfl
  simp only [LaunchContainer, prepareNewContainerRootFs, prepareTempNetworkFiles,
    launchNamespaces, absolutePath, bind_eq, pure_eq, bind_apply, Printf_apply, hgen',
    call_apply, hmk, hcp, hwf, hch, hgw, hst, pure_apply, getState_apply, setRunning_apply,
    hrel, hrel2, if_false, Option.isSome_none, Bool.false_eq_true, launchOps, launchPid]
  simp

/-! ## Listing and bulk cleanup leave the registries alone -/

theorem ListContainers_keeps (w : World) : Keeps (fun _ => True) (ListContainers w) := by
  unfold ListContainers
  simp only [bind_eq, pure_eq]
  refine keeps_bind (keeps_Printf _) (fun _ _ => ?_)
  refine keeps_bind keeps_getState (fun st _ => ?_)
  refine keeps_ite (keeps_Printf _) (keeps_ite ?_ (keeps_pure _ trivial))
  refine keeps_bind (keeps_Printf _) (fun _ _ => ?_)
  refine keeps_forEach (fun c => ?_) _
  refine keeps_bind (keeps_processExists w _) (fun _ _ => ?_)
  exact keeps_Printf _

theorem cleanupOne_keeps (w : World) (kind : String) (c : Container) :
    Keeps (fun _ => True) (cleanupOne w kind c) := by
  unfold cleanupOne
  simp only [bind_eq, pure_eq]
  have hrest : ∀ y : Unit, Keeps (fun _ => True)
      ((fun (_ : Unit) => Proc.bind (call w (Op.removeAll c.Location)) fun err =>
        if err.isSome = true then
          Printf ("Could not remove " ++ kind ++ " container: " ++ c.Name ++ "\n")
        else Proc.pure PUnit.unit) y) := by
    intro y
    refine keeps_bind (keeps_call w _) (fun _ _ => ?_)
    exact keeps_ite (keeps_Printf _) (keeps_pure _ trivial)
  apply keeps_ite
  · refine keeps_bind (keeps_Printf _) (fun _ _ => ?_)
    refine keeps_bind (keeps_killAndWait w _ _) (fun r _ => ?_)
    cases r
    · exact keeps_bind (keeps_Printf _) (fun y _ => hrest y)
    · exact keeps_bind (keeps_Printf _) (fun y _ => hrest y)
  · exact @keeps_bind _ _ (fun _ => True) _ _ _ (keeps_pure _ trivial) (fun y _ => hrest y)

theorem cleanupRunningContainers_keeps (w : World) :
    Keeps (fun _ => True) (cleanupRunningContainers w) := by
  unfold cleanupRunningContainers
  simp only [bind_eq, pure_eq]
  refine keeps_bind keeps_getState (fun st _ => ?_)
  refine keeps_bind (keeps_forEach (cleanupOne_keeps w _) _) (fun _ _ => ?_)
  refine keeps_bind keeps_getState (fun st _ => ?_)
  exact keeps_ite (keeps_Printf _) (keeps_pure _ trivial)

theorem cleanupStartingContainers_keeps (w : World) :
    Keeps (fun _ => True) (cleanupStartingContainers w) := by
  unfold cleanupStartingContainers
  simp only [bind_eq, pure_eq]
  refine keeps_bind keeps_getState (fun st _ => ?_)
  refine keeps_bind (keeps_forEach (cleanupOne_keeps w _) _) (fun _ _ => ?_)
  refine keeps_bind keeps_getState (fun st _ => ?_)
  exact keeps_ite (keeps_Printf _) (keeps_pure _ trivial)

theorem CleanupAllContainers_keeps (w : World) :
    Keeps (fun _ => True) (CleanupAllContainers w) := by
  unfold CleanupAllContainers cleanupContainers
  simp only [bind_eq, pure_eq]
  refine keeps_bind (keeps_Printf _) (fun _ _ => ?_)
  exact keeps_bind (cleanupRunningContainers_keeps w)
    (fun _ _ => cleanupStartingContainers_keeps w)

/-! ## Name uniqueness -/

theorem names_of_keeps {p : Proc Unit} (h : Keeps (fun _ => True) p) (s : State) :
    (p s).2.names = s.names := by
  obtain ⟨⟨h1, h2, h3⟩, -, -⟩ := h s
  simp [State.names, h1, h2, h3]

theorem names_after_delete (w : World) (name : String) (s : State) :
    (DeleteContainer w name s).2.names.Sublist s.names := by
  obtain ⟨ops, nw, h⟩ := DeleteContainer_effect w name s
  rw [h]
  simp only [State.names]
  refine List.Sublist.map _ ?_
  refine List.Sublist.append (List.Sublist.append (List.eraseP_sublist _) ?_)
    (List.Sublist.refl _)
  split
  · exact List.Sublist.refl _
  · exact List.eraseP_sublist _

theorem names_after_launch (w : World) (binaryPath : String) (s : State)
    (hfresh : ∀ n s1, GenerateRandomContainerName w 7 (s.atDraw binaryPath) =
      (Outcome.ret n, s1) → n ∉ s.names)
    (hnodup : s.names.Nodup) : (LaunchContainer w binaryPath s).2.names.Nodup := by
  obtain ⟨o, s', hrun, hs, hp, -, hr⟩ := LaunchContainer_effect w binaryPath s
  rw [hrun]
  rcases hr with hr | ⟨n, s1, c, hgen, hcn, -, hr⟩
  · have : s'.names = s.names := by simp [State.names, hr, hs, hp]
    simpa [this] using hnodup
  · have hperm : s'.names.Perm (n :: s.names) := by
      simp only [State.names, hr, hs, hp, List.map_append, List.map_cons, List.map_nil, hcn,
        List.append_assoc, List.singleton_append]
      exact List.perm_middle
    exact (List.Perm.nodup_iff hperm).2 (List.nodup_cons.2 ⟨hfresh n s1 hgen, hnodup⟩)

/-- One operation of the manager keeps the names distinct, provided a launch
draws a name no registry holds. -/
theorem names_after_cmd (w : World) (c : Cmd) (s : State)
    (hfresh : ∀ binaryPath n s1, c = Cmd.launch binaryPath →
      GenerateRandomContainerName w 7 (s.atDraw binaryPath) = (Outcome.ret n, s1) →
      n ∉ s.names)
    (hnodup : s.names.Nodup) : (Cmd.run w c s).2.names.Nodup := by
  cases c with
  | launch binaryPath =>
    exact names_after_launch w binaryPath s (fun n s1 h => hfresh binaryPath n s1 rfl h) hnodup
  | list =>
    show (ListContainers w s).2.names.Nodup
    rw [names_of_keeps (ListContainers_keeps w)]
    exact hnodup
  | delete name =>
    exact List.Nodup.sublist (names_after_delete w name s) hnodup
  | cleanup =>
    show (CleanupAllContainers w s).2.names.Nodup
    rw [names_of_keeps (CleanupAllContainers_keeps w)]
    exact hnodup

theorem names_after_cmds (w : World) :
    ∀ (cmds : List Cmd) (s : State), s.names.Nodup → FreshNames w s cmds →
      (runCmds w cmds s).2.names.Nodup
  | [], s, hnodup, _ => hnodup
  | c :: cs, s, hnodup, hfresh => by
    have hstep := names_after_cmd w c s hfresh.1 hnodup
    show (Proc.bind (Cmd.run w c) (fun _ => forEach cs (Cmd.run w)) s).2.names.Nodup
    rcases hc : Cmd.run w c s with ⟨_ | x, s'⟩
    · rw [bind_ret hc]
      rw [hc] at hstep
      exact names_after_cmds w cs s' hstep (hfresh.2 s' hc)
    · rw [bind_halt hc]
      rw [hc] at hstep
      exact hstep

/-! ## Runs in the calm world -/

theorem calm_name (s : State) :
    GenerateRandomContainerName calmWorld 7 s =
      (Outcome.ret "container-aaaaaaa",
        { s with trace := s.trace ++ [Op.randIntn 62] ++ [Op.randIntn 62] ++ [Op.randIntn 62] ++
            [Op.randIntn 62] ++ [Op.randIntn 62] ++ [Op.randIntn 62] ++ [Op.randIntn 62] }) :=
  rfl

/-- A launch in the calm world appends `calmContainer` to running. -/
theorem calm_launch (binaryPath : String) (s : State) :
    ∃ s' : State,
      LaunchContainer calmWorld binaryPath s = (Outcome.ret (), s') ∧
      s'.ContainersRunning = s.ContainersRunning ++ [calmContainer] ∧
      s'.ContainersStarting = s.ContainersStarting ∧
      s'.ContainerStopped = s.ContainerStopped := by
  refine ⟨_, LaunchContainer_success calmWorld binaryPath s _ "container-aaaaaaa"
    (fun _ _ _ => rfl) (calm_name _), ?_, rfl, rfl⟩
  rfl

theorem twinState_registries :
    twinState.ContainersRunning = [calmContainer, calmContainer] ∧
    twinState.ContainersStarting = [] ∧ twinState.ContainerStopped = [] := by
  obtain ⟨s1, h1, r1, t1, p1⟩ := calm_launch "/bin/sh" State.initial
  obtain ⟨s2, h2, r2, t2, p2⟩ := calm_launch "/bin/sh" s1
  have hrun : runCmds calmWorld [Cmd.launch "/bin/sh", Cmd.launch "/bin/sh"] State.initial =
      (Outcome.ret (), s2) := by
    show Proc.bind (LaunchContainer calmWorld "/bin/sh")
      (fun _ => Proc.bind (LaunchContainer calmWorld "/bin/sh") (fun _ => Proc.pure ()))
      State.initial = _
    rw [bind_ret h1, bind_ret h2]
    rfl
  have hs : twinState = s2 := by
    show (runCmds calmWorld [Cmd.launch "/bin/sh", Cmd.launch "/bin/sh"] State.initial).2 = s2
    rw [hrun]
  rw [hs, r2, t2, p2, r1, t1, p1]
  exact ⟨rfl, rfl, rfl⟩

/-! ## Claims about deletion -/

theorem signalsSent_removeError (r : Option String) : signalsSent (removeError r) = [] := by
  cases r <;> rfl

/-- `stopAndRemove` on a record whose process the first probe reports dead. -/
theorem stopAndRemove_dead (w : World) (c : Container) (s : State) (e : String)
    (hpid : 0 < c.NamespacePID)
    (hdead : w.err s.trace (Op.kill c.NamespacePID 0) = some e) :
    stopAndRemove w c s =
      (Outcome.ret (),
        { s with trace := s.trace ++ ([Op.kill c.NamespacePID 0, Op.removeAll c.Location] ++
            removeError (w.err (s.trace ++ [Op.kill c.NamespacePID 0])
              (Op.removeAll c.Location))) }) := by
  rw [stopAndRemove_of_kill w c s _ none hpid
    (killAndWait_dead_run w c.NamespacePID (5 * Second) s e hdead)]
  simp [killWarning]

/-- The disk after a quiet delete whose `RemoveAll` succeeded. -/
theorem disk_after_quiet_delete (w : World) (d0 : String → Bool) (t : List Op) (pid : Int)
    (loc text : String) (hrm : w.err (t ++ [Op.kill pid 0]) (Op.removeAll loc) = none) :
    diskAfter w d0 (t ++ ([Op.kill pid 0, Op.removeAll loc] ++
      removeError (w.err (t ++ [Op.kill pid 0]) (Op.removeAll loc)) ++ [Op.stdout text]))
      loc = false := by
  have hshape : [Op.kill pid 0, Op.removeAll loc] ++
      removeError (w.err (t ++ [Op.kill pid 0]) (Op.removeAll loc)) ++ [Op.stdout text] =
      [Op.kill pid 0] ++ Op.removeAll loc ::
        (removeError (w.err (t ++ [Op.kill pid 0]) (Op.removeAll loc)) ++ [Op.stdout text]) := by
    simp
  rw [hshape, diskAfter_append, replay_remove w t _ _ _ loc
    (fun op hop => by simp only [List.mem_singleton] at hop; rw [hop]; rfl)
    (fun op hop => by
      rcases List.mem_append.1 hop with h | h
      · exact removeError_inert _ op h
      · simp only [List.mem_singleton] at h; rw [h]; rfl)]
  simp [hrm, pathWithin_self]

theorem deadProcess_probe (h : List Op) (pid : Int) :
    deadProcessWorld.err h (Op.kill pid 0) = some "no such process" := rfl

theorem name_not_in_after_delete (w : World) (name : String) (s : State)
    (hcount : s.names.count name ≤ 1)
    (hfound : ∃ c ∈ s.ContainersRunning ++ s.ContainersStarting, c.Name = name) :
    name ∉ (DeleteContainer w name s).2.names := by
  obtain ⟨ops, nw, h⟩ := DeleteContainer_effect w name s
  rw [h]
  simp only [State.names, List.map_append, List.count_append] at hcount ⊢
  by_cases hr : ∃ x ∈ s.ContainersRunning, x.Name = name
  · obtain ⟨pre, c, post, hl, hpre, hc⟩ := exists_first_match name _ hr
    rw [if_pos hr, hl, eraseP_first_match name pre post c hpre hc]
    rw [hl] at hcount
    simp only [List.map_append, List.map_cons, List.count_append, List.count_cons, hc,
      beq_self_eq_true, if_true] at hcount
    simp only [List.map_append, List.mem_append, not_or]
    refine ⟨⟨⟨?_, ?_⟩, ?_⟩, ?_⟩ <;>
      exact List.count_eq_zero.1 (by omega)
  · have hr' : ∀ x ∈ s.ContainersRunning, x.Name ≠ name := fun x hx hn => hr ⟨x, hx, hn⟩
    have hs : ∃ x ∈ s.ContainersStarting, x.Name = name := by
      obtain ⟨c, hc, hn⟩ := hfound
      rcases List.mem_append.1 hc with h1 | h1
      · exact absurd hn (hr' c h1)
      · exact ⟨c, h1, hn⟩
    obtain ⟨pre, c, post, hl, hpre, hc⟩ := exists_first_match name _ hs
    rw [if_neg hr, eraseP_no_match name _ hr', hl, eraseP_first_match name pre post c hpre hc]
    rw [hl] at hcount
    simp only [List.map_append, List.map_cons, List.count_append, List.count_cons, hc,
      beq_self_eq_true, if_true] at hcount
    simp only [List.map_append, List.mem_append, not_or]
    refine ⟨⟨?_, ?_, ?_⟩, ?_⟩ <;>
      exact List.count_eq_zero.1 (by omega)

/-- C7 as amended: in a registry state where at most one record carries the
name, once `DeleteContainer` has found a record with that name in running or
starting, it returns and no record with that name is left in running, starting
or stopped. -/
theorem DeleteContainer_removes_the_name (w : World) (name : String) (s : State)
    (hcount : s.names.count name ≤ 1)
    (hfound : ∃ c ∈ s.ContainersRunning ++ s.ContainersStarting, c.Name = name) :
    (DeleteContainer w name s).1 = Outcome.ret () ∧
      name ∉ (DeleteContainer w name s).2.names := by
  refine ⟨?_, name_not_in_after_delete w name s hcount hfound⟩
  obtain ⟨ops, nw, h⟩ := DeleteContainer_effect w name s
  rw [h]

theorem singleState_names : singleState.names = ["container-aaaaaaa"] := rfl

/-- Witness of the amended C7: the single record of `singleState`. -/
theorem DeleteContainer_removes_the_name_witness :
    singleState.names.count "container-aaaaaaa" ≤ 1 ∧
    (∃ c ∈ singleState.ContainersRunning ++ singleState.ContainersStarting,
      c.Name = "container-aaaaaaa") ∧
    (DeleteContainer calmWorld "container-aaaaaaa" singleState).1 = Outcome.ret () ∧
    "container-aaaaaaa" ∉ (DeleteContainer calmWorld "container-aaaaaaa" singleState).2.names :=
  have hcount : singleState.names.count "container-aaaaaaa" ≤ 1 := by
    rw [singleState_names]
    simp
  have hfound : ∃ c ∈ singleState.ContainersRunning ++ singleState.ContainersStarting,
      c.Name = "container-aaaaaaa" := ⟨calmContainer, List.mem_singleton.2 rfl, rfl⟩
  ⟨hcount, hfound,
    DeleteContainer_removes_the_name calmWorld "container-aaaaaaa" singleState hcount hfound⟩

theorem delete_from_twinState :
    ∃ (ops : List Op) (nw : Int),
      DeleteContainer calmWorld "container-aaaaaaa" twinState =
        (Outcome.ret (),
          { ContainersRunning := [calmContainer], ContainersStarting := [],
            ContainerStopped := [], trace := twinState.trace ++ ops, now := nw }) := by
  obtain ⟨ops, nw, h⟩ := DeleteContainer_effect calmWorld "container-aaaaaaa" twinState
  obtain ⟨hr, hs, hp⟩ := twinState_registries
  refine ⟨ops, nw, ?_⟩
  rw [h, hr, hs, hp]
  have he : List.eraseP (fun x : Container => x.Name == "container-aaaaaaa")
      [calmContainer, calmContainer] = [calmContainer] :=
    eraseP_first_match "container-aaaaaaa" [] [calmContainer] calmContainer
      (fun x hx => by cases hx) rfl
  rw [he]
  simp

/-- C7 refuted as stated: two launches whose random draws coincide leave two
records with one name in running; `DeleteContainer` finds and deletes the
first and returns, and a record with that name is still registered. -/
theorem delete_leaves_a_record_with_the_name :
    (∃ c ∈ twinState.ContainersRunning, c.Name = "container-aaaaaaa") ∧
    (DeleteContainer calmWorld "container-aaaaaaa" twinState).1 = Outcome.ret () ∧
    (DeleteContainer calmWorld "container-aaaaaaa" twinState).2.ContainersRunning =
      [calmContainer] ∧
    "container-aaaaaaa" ∈ (DeleteContainer calmWorld "container-aaaaaaa" twinState).2.names := by
  obtain ⟨ops, nw, h⟩ := delete_from_twinState
  refine ⟨⟨calmContainer, ?_, rfl⟩, ?_, ?_, ?_⟩
  · rw [twinState_registries.1]
    simp
  · rw [h]
  · rw [h]
  · rw [h]
    exact List.mem_singleton.2 rfl

theorem not_found_after_delete (w : World) (name : String) (s : State)
    (hcount : ((s.ContainersRunning ++ s.ContainersStarting).map Container.Name).count name ≤ 1) :
    (∀ x ∈ (DeleteContainer w name s).2.ContainersRunning, x.Name ≠ name) ∧
    (∀ x ∈ (DeleteContainer w name s).2.ContainersStarting, x.Name ≠ name) := by
  obtain ⟨ops, nw, h⟩ := DeleteContainer_effect w name s
  rw [h]
  simp only [List.map_append, List.count_append] at hcount
  have hmem : ∀ (l : List Container), (l.map Container.Name).count name = 0 →
      ∀ x ∈ l, x.Name ≠ name := by
    intro l hl x hx hn
    exact List.count_eq_zero.1 hl (hn ▸ List.mem_map_of_mem _ hx)
  by_cases hr : ∃ x ∈ s.ContainersRunning, x.Name = name
  · obtain ⟨pre, c, post, hl, hpre, hc⟩ := exists_first_match name _ hr
    simp only [if_pos hr]
    rw [hl, eraseP_first_match name pre post c hpre hc]
    rw [hl] at hcount
    simp only [List.map_append, List.map_cons, List.count_append, List.count_cons, hc,
      beq_self_eq_true, if_true] at hcount
    refine ⟨?_, hmem _ (by omega)⟩
    intro x hx
    rcases List.mem_append.1 hx with h1 | h1
    · exact hpre x h1
    · exact hmem post (by omega) x h1
  · have hr' : ∀ x ∈ s.ContainersRunning, x.Name ≠ name := fun x hx hn => hr ⟨x, hx, hn⟩
    simp only [if_neg hr]
    rw [eraseP_no_match name _ hr']
    refine ⟨hr', ?_⟩
    by_cases hs : ∃ x ∈ s.ContainersStarting, x.Name = name
    · obtain ⟨pre, c, post, hl, hpre, hc⟩ := exists_first_match name _ hs
      rw [hl, eraseP_first_match name pre post c hpre hc]
      rw [hl] at hcount
      simp only [List.map_append, List.map_cons, List.count_append, List.count_cons, hc,
        beq_self_eq_true, if_true] at hcount
      intro x hx
      rcases List.mem_append.1 hx with h1 | h1
      · exact hpre x h1
      · exact hmem post (by omega) x h1
    · have hs' : ∀ x ∈ s.ContainersStarting, x.Name ≠ name :=
        fun x hx hn => hs ⟨x, hx, hn⟩
      rw [eraseP_no_match name _ hs']
      exact hs'

/-- C8 as amended: when at most one record of running and starting carries the
name, a second `DeleteContainer` right after the first prints
`Container '<name>' not found` and does nothing else: registries and clock
are as before, no signal is sent, and the disk is as before. -/
theorem DeleteContainer_twice (w : World) (name : String) (s : State)
    (hcount : ((s.ContainersRunning ++ s.ContainersStarting).map Container.Name).count name ≤ 1) :
    DeleteContainer w name (DeleteContainer w name s).2 =
      (Outcome.ret (),
        { (DeleteContainer w name s).2 with
          trace := (DeleteContainer w name s).2.trace ++
            [Op.stdout ("Container '" ++ name ++ "' not found\n")] }) ∧
    performed (DeleteContainer w name) (DeleteContainer w name s).2 =
      [Op.stdout ("Container '" ++ name ++ "' not found\n")] ∧
    signalsSent (performed (DeleteContainer w name) (DeleteContainer w name s).2) = [] ∧
    ∀ d0 : String → Bool,
      diskAfter w d0 (DeleteContainer w name (DeleteContainer w name s).2).2.trace =
        diskAfter w d0 (DeleteContainer w name s).2.trace := by
  obtain ⟨h1, h2⟩ := not_found_after_delete w name s hcount
  have hdel := DeleteContainer_not_found w name _ h1 h2
  have hperf := performed_of_run hdel rfl
  refine ⟨hdel, hperf, by rw [hperf]; rfl, ?_⟩
  intro d0
  rw [hdel]
  simp only
  rw [diskAfter_append]
  rfl

/-- Witness of the amended C8: deleting the single record of `singleState`
twice. -/
theorem DeleteContainer_twice_witness :
    ((singleState.ContainersRunning ++ singleState.ContainersStarting).map
      Container.Name).count "container-aaaaaaa" ≤ 1 ∧
    performed (DeleteContainer calmWorld "container-aaaaaaa")
        (DeleteContainer calmWorld "container-aaaaaaa" singleState).2 =
      [Op.stdout ("Container '" ++ "container-aaaaaaa" ++ "' not found\n")] :=
  have hcount : ((singleState.ContainersRunning ++ singleState.ContainersStarting).map
      Container.Name).count "container-aaaaaaa" ≤ 1 := by
    show (["container-aaaaaaa"] : List String).count "container-aaaaaaa" ≤ 1
    simp
  ⟨hcount, (DeleteContainer_twice calmWorld "container-aaaaaaa" singleState hcount).2.1⟩

/-- C8 refuted as stated: in the state reached by two launches whose random
draws coincide, the second of two deletes in a row finds the twin record: it
removes it from running and ends by reporting a successful deletion instead
of `not found`. -/
theorem second_delete_finds_the_twin :
    (DeleteContainer calmWorld "container-aaaaaaa" twinState).2.ContainersRunning =
      [calmContainer] ∧
    (DeleteContainer calmWorld "container-aaaaaaa"
      (DeleteContainer calmWorld "container-aaaaaaa" twinState).2).2.ContainersRunning = [] ∧
    (performed (DeleteContainer calmWorld "container-aaaaaaa")
      (DeleteContainer calmWorld "container-aaaaaaa" twinState).2).getLast? =
      some (Op.stdout ("Container '" ++ "container-aaaaaaa" ++ "' deleted successfully\n")) := by
  obtain ⟨ops, nw, h⟩ := delete_from_twinState
  rw [h]
  simp only
  obtain ⟨kops, nw2, hstop, -⟩ := stopAndRemove_run calmWorld calmContainer
    { ContainersRunning := [calmContainer], ContainersStarting := [],
      ContainerStopped := [], trace := twinState.trace ++ ops, now := nw }
  have hdel := DeleteContainer_running calmWorld "container-aaaaaaa" _ _ [] [] calmContainer
    rfl (fun x hx => by cases hx) rfl hstop rfl
  refine ⟨trivial, ?_, ?_⟩
  · rw [hdel]
    rfl
  · rw [performed_of_run hdel (show _ = (twinState.trace ++ ops) ++
      ((kops ++ Op.removeAll calmContainer.Location ::
        removeError (calmWorld.err (twinState.trace ++ ops ++ kops)
          (Op.removeAll calmContainer.Location))) ++
        [Op.stdout ("Container '" ++ "container-aaaaaaa" ++ "' deleted successfully\n")])
      by simp)]
    exact List.getLast?_concat _

theorem freshNames_calm_relaunch :
    FreshNames calmWorld State.initial
      [Cmd.launch "/bin/sh", Cmd.delete "container-aaaaaaa", Cmd.launch "/bin/sh"] := by
  refine ⟨(fun _ _ _ _ _ => by simp [State.initial, State.names]), ?_⟩
  intro s1 h1
  obtain ⟨s1', h1', r1, t1, p1⟩ := calm_launch "/bin/sh" State.initial
  have hs1 : s1' = s1 := by
    have := h1'.symm.trans h1
    simpa using this
  subst hs1
  refine ⟨(fun _ _ _ hc _ => by cases hc), ?_⟩
  intro s2 h2
  obtain ⟨ops, nw, hd⟩ := DeleteContainer_effect calmWorld "container-aaaaaaa" s1'
  have hs2 := hd.symm.trans h2
  simp only [Prod.mk.injEq, true_and] at hs2
  have he : List.eraseP (fun x : Container => x.Name == "container-aaaaaaa")
      [calmContainer] = [] :=
    eraseP_first_match "container-aaaaaaa" [] [] calmContainer (fun x hx => by cases hx) rfl
  have hnames : s2.names = [] := by
    rw [← hs2]
    simp only [State.names, r1, t1, p1]
    rw [show State.initial.ContainersRunning ++ [calmContainer] = [calmContainer] from rfl, he]
    simp [State.initial]
  refine ⟨(fun _ _ _ _ _ => by simp [hnames]), fun _ _ => trivial⟩

theorem slash_prefix_iff :
    ∀ (m n r : List Char), '/' ∉ m → '/' ∉ n → ((m ++ ['/']) <+: (n ++ '/' :: r) ↔ m = n)
  | [], [], r, _, _ => by simp
  | [], b :: n, r, _, hn => by
    have hb : b ≠ '/' := fun h => hn (by simp [h])
    simp [List.cons_prefix_cons, Ne.symm hb]
  | a :: m, [], r, hm, _ => by
    have ha : a ≠ '/' := fun h => hm (by simp [h])
    simp [List.cons_prefix_cons, ha]
  | a :: m, b :: n, r, hm, hn => by
    have ih := slash_prefix_iff m n r (fun h => hm (List.mem_cons_of_mem _ h))
      (fun h => hn (List.mem_cons_of_mem _ h))
    simp only [List.cons_append, List.cons_prefix_cons, ih, List.cons.injEq]

theorem location_inj (a b : String) (h : ".containers/" ++ a = ".containers/" ++ b) : a = b := by
  have hd := congrArg String.data h
  simp only [String.data_append] at hd
  exact String.ext (List.append_cancel_left hd)

/-- A location is not a path below a location. -/
theorem location_ne_below (m n rest : String) (r : List Char) (hm : '/' ∉ m.data)
    (hrest : rest.data = '/' :: r) : ".containers/" ++ n ++ rest ≠ ".containers/" ++ m := by
  intro h
  rw [String.append_assoc] at h
  have := location_inj _ _ h
  apply hm
  rw [← this, String.data_append, hrest]
  simp

/-- Whether the location of `m` holds a path below the location of `n`. -/
theorem pathWithin_location_below (m n rest : String) (r : List Char) (hm : '/' ∉ m.data)
    (hn : '/' ∉ n.data) (hrest : rest.data = '/' :: r) :
    pathWithin (".containers/" ++ m) (".containers/" ++ n ++ rest) = decide (m = n) := by
  have hne := location_ne_below m n rest r hm hrest
  have hpre : ((".containers/" ++ m).data ++ ['/']).isPrefixOf (".containers/" ++ n ++ rest).data
      = decide (m = n) := by
    rw [Bool.eq_iff_iff, List.isPrefixOf_iff_prefix]
    simp only [String.data_append, hrest, List.append_assoc, List.prefix_append_right_inj,
      decide_eq_true_eq]
    rw [slash_prefix_iff m.data n.data r hm hn]
    exact ⟨String.ext, congrArg String.data⟩
  simp only [pathWithin, hpre, hne, decide_False, Bool.false_or]

/-- Whether the location of `n` holds the location of `m`. -/
theorem pathWithin_location (m n : String) (hm : '/' ∉ m.data) :
    pathWithin (".containers/" ++ n) (".containers/" ++ m) = decide (m = n) := by
  have hpre : ((".containers/" ++ n).data ++ ['/']).isPrefixOf (".containers/" ++ m).data
      = false := by
    rw [Bool.eq_false_iff]
    intro h
    rw [List.isPrefixOf_iff_prefix] at h
    simp only [String.data_append, List.append_assoc, List.prefix_append_right_inj] at h
    obtain ⟨t, ht⟩ := h
    apply hm
    rw [← ht]
    simp
  simp only [pathWithin, hpre, Bool.or_false]
  by_cases h : m = n
  · simp [h]
  · have : ".containers/" ++ m ≠ ".containers/" ++ n := fun e => h (location_inj _ _ e)
    simp [h, this]

/-! ## What a launch does to the disk -/

/-- A launch whose staging succeeds and whose spawn is refused: it reports the
error and returns; the registries are as before. -/
theorem LaunchContainer_spawn_refused (w : World) (binaryPath : String) (s s1 : State)
    (n e : String)
    (hmk : ∀ h p m, w.err h (Op.mkdirAll p m) = none)
    (hcp : ∀ h a b, w.err h (Op.copy a b) = none)
    (hwf : ∀ h a b c, w.err h (Op.writeFile a b c) = none)
    (hch : ∀ h a b, w.err h (Op.chmod a b) = none)
    (hgw : ∀ h, w.err h Op.getwd = none)
    (hst : ∀ h a b c d f, w.err h (Op.start a b c d f) = some e)
    (hgen : GenerateRandomContainerName w 7 (s.atDraw binaryPath) = (Outcome.ret n, s1)) :
    LaunchContainer w binaryPath s =
      (Outcome.ret (),
        { s1 with trace := s1.trace ++ failedLaunchOps w s1.trace binaryPath n e }) := by
  have hgen' : GenerateRandomContainerName w 7
      { s with trace := s.trace ++
          [Op.stdout ("Launching container with binary: " ++ binaryPath ++ "\n")] ++
          [Op.stdout "Preparing root filesystem..\n"] } = (Outcome.ret n, s1) := hgen
  have hrel : ∀ x : String, ¬ (".containers/" ++ x).data.head? = some '/' := relative_head
  have hrel2 : ¬ (".containers/" ++ n ++ "/root_fs").data.head? = some '/' := by
    rw [String.append_assoc]
    exact relative_head _
  simp only [LaunchContainer, prepareNewContainerRootFs, prepareTempNetworkFiles,
    launchNamespaces, absolutePath, bind_eq, pure_eq, bind_apply, Printf_apply, hgen',
    call_apply, hmk, hcp, hwf, hch, hgw, hst, pure_apply, getState_apply, setRunning_apply,
    hrel, hrel2, if_false, Option.isSome_none, Bool.false_eq_true, launchOps, failedLaunchOps]
  simp

/-- The staging of a launch creates the location of the new container and no
other location. -/
theorem replay_launchOps (w : World) (h : List Op) (d : String → Bool) (binaryPath n m : String)
    (hok : LaunchCallsSucceed w) (hm : '/' ∉ m.data) (hn : '/' ∉ n.data) :
    replay w h d (launchOps w h binaryPath n) (".containers/" ++ m) =
      (d (".containers/" ++ m) || decide (m = n)) := by
  have hmk : ∀ h p m, w.err h (Op.mkdirAll p m) = none := fun h p m => hok h _ rfl
  have hcp : ∀ h a b, w.err h (Op.copy a b) = none := fun h a b => hok h _ rfl
  have hwf : ∀ h a b c, w.err h (Op.writeFile a b c) = none := fun h a b c => hok h _ rfl
  have p1 := pathWithin_location_below m n "/root_fs" _ hm hn rfl
  have p2 := pathWithin_location_below m n "/resolv.conf" _ hm hn rfl
  have p3 := pathWithin_location_below m n ("/root_fs" ++ "/home/container") _ hm hn rfl
  have p4 := pathWithin_location_below m n
    ("/root_fs" ++ "/home/container" ++ "/container-app") _ hm hn rfl
  have q1 := (location_ne_below m n "/hosts" _ hm rfl).symm
  have q2 := (location_ne_below m n "/hostname" _ hm rfl).symm
  simp only [← String.append_assoc] at p3 p4
  simp only [launchOps, replay, applyOp, hmk, hcp, hwf, Option.isNone_none, if_true,
    List.cons_append, List.nil_append, p1, p2, p3, p4, q1, q2, decide_False, Bool.or_false,
    Bool.or_assoc, Bool.or_self, Bool.false_or]

/-! ## Registries and disk stay in step -/

theorem writeRandomBytes_inert (w : World) :
    ∀ (n : Nat) (sb : String) (s : State),
      ∃ ops, (writeRandomBytes w n sb s).2 = { s with trace := s.trace ++ ops } ∧
        ∀ op ∈ ops, Op.touchesDisk op = false
  | 0, sb, s => ⟨[], by simp [writeRandomBytes, pure_eq], fun op hop => by cases hop⟩
  | n + 1, sb, s => by
    unfold writeRandomBytes
    simp only [bind_eq, bind_apply, randIntn]
    cases hk : charset.data[w.intn s.trace charset.length]? with
    | none =>
      refine ⟨[Op.randIntn charset.length], by simp [halt_apply], ?_⟩
      intro op hop
      simp only [List.mem_singleton] at hop
      rw [hop]; rfl
    | some c =>
      obtain ⟨ops, h1, h2⟩ := writeRandomBytes_inert w n (sb.push c)
        { s with trace := s.trace ++ [Op.randIntn charset.length] }
      refine ⟨Op.randIntn charset.length :: ops, ?_, ?_⟩
      · simp only [h1]
        simp
      · intro op hop
        rcases List.mem_cons.1 hop with rfl | hop
        · rfl
        · exact h2 op hop

theorem GenerateRandomContainerName_inert (w : World) (s : State) :
    ∃ ops, (GenerateRandomContainerName w 7 s).2 = { s with trace := s.trace ++ ops } ∧
      ∀ op ∈ ops, Op.touchesDisk op = false := by
  obtain ⟨ops, h1, h2⟩ := writeRandomBytes_inert w 7 "" s
  refine ⟨ops, ?_, h2⟩
  have h7 : ¬ ((7 : Int) < 0) := by decide
  simp only [GenerateRandomContainerName, h7, if_false, bind_eq, pure_eq, bind_apply]
  have h7' : (7 : Int).toNat = 7 := rfl
  rw [h7']
  rcases hw : writeRandomBytes w 7 "" s with ⟨_ | x, s'⟩
  · rw [hw] at h1
    simpa [pure_apply] using h1
  · rw [hw] at h1
    simpa using h1

/-- The disk at the moment a launch has drawn its name is the disk before the
launch. -/
theorem disk_atDraw (w : World) (d0 : String → Bool) (binaryPath : String) (s : State) :
    (GenerateRandomContainerName w 7 (s.atDraw binaryPath)).2.ContainersRunning =
        s.ContainersRunning ∧
    (GenerateRandomContainerName w 7 (s.atDraw binaryPath)).2.ContainersStarting =
        s.ContainersStarting ∧
    (GenerateRandomContainerName w 7 (s.atDraw binaryPath)).2.ContainerStopped =
        s.ContainerStopped ∧
    diskAfter w d0 (GenerateRandomContainerName w 7 (s.atDraw binaryPath)).2.trace =
      diskAfter w d0 s.trace := by
  obtain ⟨ops, h1, h2⟩ := GenerateRandomContainerName_inert w (s.atDraw binaryPath)
  rw [h1]
  refine ⟨rfl, rfl, rfl, ?_⟩
  show diskAfter w d0 (s.trace ++ [Op.stdout _] ++ [Op.stdout _] ++ ops) = _
  rw [List.append_assoc, List.append_assoc, diskAfter_append]
  refine replay_inert w _ _ _ ?_
  intro op hop
  simp only [List.mem_append, List.mem_singleton] at hop
  rcases hop with hx | hx | hx
  · rw [hx]; rfl
  · rw [hx]; rfl
  · exact h2 op hx

/-- A launch whose name generation stops the process. -/
theorem LaunchContainer_no_name (w : World) (binaryPath : String) (s s1 : State) (x : Halt)
    (hgen : GenerateRandomContainerName w 7 (s.atDraw binaryPath) = (Outcome.halt x, s1)) :
    LaunchContainer w binaryPath s = (Outcome.halt x, s1) := by
  have hgen' : GenerateRandomContainerName w 7
      { s with trace := s.trace ++
          [Op.stdout ("Launching container with binary: " ++ binaryPath ++ "\n")] ++
          [Op.stdout "Preparing root filesystem..\n"] } = (Outcome.halt x, s1) := hgen
  simp only [LaunchContainer, prepareNewContainerRootFs, bind_eq, bind_apply, Printf_apply,
    hgen']

/-- A launch whose calls succeed and whose name is new keeps registries and
disk in step. -/
theorem tidy_after_launch (w : World) (d0 : String → Bool) (binaryPath : String) (s : State)
    (hok : LaunchCallsSucceed w)
    (hfresh : ∀ n s1, GenerateRandomContainerName w 7 (s.atDraw binaryPath) =
      (Outcome.ret n, s1) → n ∉ s.names)
    (ht : Tidy w d0 s) : Tidy w d0 (LaunchContainer w binaryPath s).2 := by
  obtain ⟨hst, hsp, hn0, hrec, hdisk⟩ := ht
  have hnodup := names_after_launch w binaryPath s hfresh hn0
  obtain ⟨gr, gs, gp, gd⟩ := disk_atDraw w d0 binaryPath s
  rcases hgen : GenerateRandomContainerName w 7 (s.atDraw binaryPath) with ⟨n | x, s1⟩
  · rw [hgen] at gr gs gp gd
    have hname : '/' ∉ n.data := by
      obtain ⟨-, -, hq⟩ := GenerateRandomContainerName_keeps w 7 (s.atDraw binaryPath)
      obtain ⟨cs, h1, -, h3⟩ := hq n (by rw [hgen])
      exact slash_not_in_name n cs h1 h3
    have hnew : ∀ c ∈ s.ContainersRunning, c.Name ≠ n := by
      intro c hc hcn
      apply hfresh n s1 hgen
      simp only [State.names, List.mem_map, List.mem_append]
      exact ⟨c, Or.inl (Or.inl hc), hcn⟩
    have hrun := LaunchContainer_success w binaryPath s s1 n hok hgen
    rw [hrun] at hnodup ⊢
    refine ⟨gs.trans hst, gp.trans hsp, hnodup, ?_, ?_⟩
    · intro c hc
      have hc' : c ∈ s1.ContainersRunning ++ [_] := hc
      rw [gr, List.mem_append, List.mem_singleton] at hc'
      rcases hc' with hc' | hc'
      · exact hrec c hc'
      · rw [hc']
        exact ⟨hname, rfl⟩
    · intro m hm
      show diskAfter w d0 (s1.trace ++ launchOps w s1.trace binaryPath n) _ = true ↔
        ∃ c ∈ s1.ContainersRunning ++ [_], c.Name = m
      rw [gr, diskAfter_append, replay_launchOps w _ _ binaryPath n m hok hm hname, gd,
        Bool.or_eq_true, hdisk m hm, decide_eq_true_eq]
      constructor
      · rintro (⟨c, hc, hcm⟩ | rfl)
        · exact ⟨c, List.mem_append_left _ hc, hcm⟩
        · exact ⟨_, List.mem_append_right _ (List.mem_singleton_self _), rfl⟩
      · rintro ⟨c, hc, hcm⟩
        rcases List.mem_append.1 hc with hc | hc
        · exact Or.inl ⟨c, hc, hcm⟩
        · rw [List.mem_singleton] at hc
          rw [hc] at hcm
          exact Or.inr hcm.symm
  · rw [hgen] at gr gs gp gd
    rw [LaunchContainer_no_name w binaryPath s s1 x hgen] at hnodup ⊢
    refine ⟨gs.trans hst, gp.trans hsp, hnodup, ?_, ?_⟩
    · intro c hc
      exact hrec c (gr ▸ hc)
    · intro m hm
      show diskAfter w d0 s1.trace _ = true ↔ ∃ c ∈ s1.ContainersRunning, c.Name = m
      rw [gd, gr]
      exact hdisk m hm

/-- A delete whose `RemoveAll` succeeds keeps registries and disk in step. -/
theorem tidy_after_delete (w : World) (d0 : String → Bool) (name : String) (s : State)
    (hrm : RemovalsSucceed w) (ht : Tidy w d0 s) : Tidy w d0 (DeleteContainer w name s).2 := by
  obtain ⟨hst, hsp, hn0, hrec, hdisk⟩ := ht
  have hnd := List.Nodup.sublist (names_after_delete w name s) hn0
  by_cases hr : ∃ x ∈ s.ContainersRunning, x.Name = name
  · obtain ⟨pre, c, post, hl, hpre, hc⟩ := exists_first_match name _ hr
    obtain ⟨kops, nw, hstop, hinert, -, -⟩ := stopAndRemove_run w c s
    have hrun := DeleteContainer_running w name s _ pre post c hl hpre hc hstop rfl
    rw [hrun] at hnd ⊢
    have hcloc := (hrec c (by rw [hl]; simp)).2
    have hsub : ∀ x, x ∈ pre ++ post → x ∈ s.ContainersRunning := by
      intro x hx
      rw [hl]
      rcases List.mem_append.1 hx with h | h
      · exact List.mem_append_left _ h
      · exact List.mem_append_right _ (List.mem_cons_of_mem _ h)
    have hout : ∀ x ∈ pre ++ post, x.Name ≠ c.Name := by
      have hperm : (s.names).Perm (c.Name :: (pre ++ post).map Container.Name) := by
        simp only [State.names, hst, hsp, hl, List.append_nil, List.map_append, List.map_cons]
        exact List.perm_middle
      have := (List.Perm.nodup_iff hperm).1 hn0
      intro x hx hxc
      exact (List.nodup_cons.1 this).1 (hxc ▸ List.mem_map_of_mem _ hx)
    refine ⟨hst, hsp, hnd, (fun x hx => hrec x (hsub x hx)), ?_⟩
    intro m hm
    show diskAfter w d0 (s.trace ++ (kops ++ Op.removeAll c.Location ::
        removeError (w.err (s.trace ++ kops) (Op.removeAll c.Location))) ++
        [Op.stdout ("Container '" ++ name ++ "' deleted successfully\n")]) _ = true ↔
      ∃ x ∈ pre ++ post, x.Name = m
    have hshape : s.trace ++ (kops ++ Op.removeAll c.Location ::
        removeError (w.err (s.trace ++ kops) (Op.removeAll c.Location))) ++
        [Op.stdout ("Container '" ++ name ++ "' deleted successfully\n")] =
        s.trace ++ (kops ++ Op.removeAll c.Location ::
          (removeError (w.err (s.trace ++ kops) (Op.removeAll c.Location)) ++
            [Op.stdout ("Container '" ++ name ++ "' deleted successfully\n")])) := by
      simp
    rw [hshape, diskAfter_append, replay_remove w s.trace kops _ _ c.Location hinert
      (fun op hop => by
        rcases List.mem_append.1 hop with h | h
        · exact removeError_inert _ op h
        · simp only [List.mem_singleton] at h; rw [h]; rfl),
      hrm, Option.isNone_none, if_pos rfl, hcloc, pathWithin_location m c.Name hm,
      Bool.and_eq_true, hdisk m hm, Bool.not_eq_true', decide_eq_false_iff_not]
    constructor
    · rintro ⟨⟨x, hx, hxm⟩, hne⟩
      refine ⟨x, ?_, hxm⟩
      rw [hl] at hx
      rcases List.mem_append.1 hx with h | h
      · exact List.mem_append_left _ h
      · rcases List.mem_cons.1 h with h | h
        · exact absurd (by rw [← hxm, h]) hne
        · exact List.mem_append_right _ h
    · rintro ⟨x, hx, hxm⟩
      exact ⟨⟨x, hsub x hx, hxm⟩, fun h => hout x hx (hxm.trans h)⟩
  · have hr' : ∀ x ∈ s.ContainersRunning, x.Name ≠ name := fun x hx hn => hr ⟨x, hx, hn⟩
    have hrun := DeleteContainer_not_found w name s hr' (by rw [hst]; intro x hx; cases hx)
    rw [hrun] at hnd ⊢
    refine ⟨hst, hsp, hnd, hrec, ?_⟩
    intro m hm
    show diskAfter w d0 (s.trace ++ [Op.stdout _]) _ = true ↔ _
    rw [diskAfter_append, replay_inert w _ _ _
      (fun op hop => by simp only [List.mem_singleton] at hop; rw [hop]; rfl)]
    exact hdisk m hm

/-- Launches and deletes keep registries and disk in step, as long as the
calls of every launch and every `RemoveAll` succeed and every launch draws a
new name. -/
theorem tidy_after_cmds (w : World) (d0 : String → Bool) (hok : LaunchCallsSucceed w)
    (hrm : RemovalsSucceed w) :
    ∀ (cmds : List Cmd) (s : State), (∀ c ∈ cmds, Cmd.isLaunchOrDelete c = true) →
      FreshNames w s cmds → Tidy w d0 s → Tidy w d0 (runCmds w cmds s).2
  | [], s, _, _, ht => ht
  | c :: cs, s, hcmds, hfresh, ht => by
    have hstep : Tidy w d0 (Cmd.run w c s).2 := by
      cases c with
      | launch binaryPath =>
        exact tidy_after_launch w d0 binaryPath s hok
          (fun n s1 h => hfresh.1 binaryPath n s1 rfl h) ht
      | delete name => exact tidy_after_delete w d0 name s hrm ht
      | list => exact absurd (hcmds Cmd.list (List.mem_cons_self _ _)) (by decide)
      | cleanup => exact absurd (hcmds Cmd.cleanup (List.mem_cons_self _ _)) (by decide)
    show Tidy w d0 (Proc.bind (Cmd.run w c) (fun _ => forEach cs (Cmd.run w)) s).2
    rcases hc : Cmd.run w c s with ⟨_ | x, s'⟩
    · rw [bind_ret hc]
      rw [hc] at hstep
      exact tidy_after_cmds w d0 hok hrm cs s'
        (fun c hc => hcmds c (List.mem_cons_of_mem _ hc)) (hfresh.2 s' hc) hstep
    · rw [bind_halt hc]
      rw [hc] at hstep
      exact hstep

theorem tidy_initial (w : World) (d0 : String → Bool)
    (hd0 : ∀ n : String, '/' ∉ n.data → d0 (".containers/" ++ n) = false) :
    Tidy w d0 State.initial := by
  refine ⟨rfl, rfl, List.nodup_nil, (fun c hc => by cases hc), ?_⟩
  intro n hn
  show d0 (".containers/" ++ n) = true ↔ ∃ c ∈ ([] : List Container), c.Name = n
  rw [hd0 n hn]
  simp

/-! ## Claims about locations on disk -/

theorem spawnDenied_name (s : State) :
    GenerateRandomContainerName spawnDeniedWorld 7 s =
      (Outcome.ret "container-aaaaaaa",
        { s with trace := s.trace ++ [Op.randIntn 62] ++ [Op.randIntn 62] ++ [Op.randIntn 62] ++
            [Op.randIntn 62] ++ [Op.randIntn 62] ++ [Op.randIntn 62] ++ [Op.randIntn 62] }) :=
  rfl

/-- The staging of a launch whose spawn is refused creates the location of the
new container and no other location. -/
theorem replay_failedLaunchOps (w : World) (h : List Op) (d : String → Bool)
    (binaryPath n e m : String)
    (hmk : ∀ h p m, w.err h (Op.mkdirAll p m) = none)
    (hcp : ∀ h a b, w.err h (Op.copy a b) = none)
    (hwf : ∀ h a b c, w.err h (Op.writeFile a b c) = none)
    (hm : '/' ∉ m.data) (hn : '/' ∉ n.data) :
    replay w h d (failedLaunchOps w h binaryPath n e) (".containers/" ++ m) =
      (d (".containers/" ++ m) || decide (m = n)) := by
  have p1 := pathWithin_location_below m n "/root_fs" _ hm hn rfl
  have p2 := pathWithin_location_below m n "/resolv.conf" _ hm hn rfl
  have p3 := pathWithin_location_below m n ("/root_fs" ++ "/home/container") _ hm hn rfl
  have p4 := pathWithin_location_below m n
    ("/root_fs" ++ "/home/container" ++ "/container-app") _ hm hn rfl
  have q1 := (location_ne_below m n "/hosts" _ hm rfl).symm
  have q2 := (location_ne_below m n "/hostname" _ hm rfl).symm
  simp only [← String.append_assoc] at p3 p4
  simp only [failedLaunchOps, launchOps, List.take_succ_cons, List.take_zero, replay, applyOp,
    hmk, hcp, hwf, Option.isNone_none, if_true,
    List.cons_append, List.nil_append, p1, p2, p3, p4, q1, q2, decide_False, Bool.or_false,
    Bool.or_assoc, Bool.or_self, Bool.false_or]

/-- One launch in the world that refuses to spawn. -/
theorem spawnDenied_launch :
    runCmds spawnDeniedWorld [Cmd.launch "/bin/sh"] State.initial =
      (Outcome.ret (),
        { State.initial with
          trace := firstDraw "/bin/sh" ++ failedLaunchOps spawnDeniedWorld (firstDraw "/bin/sh")
            "/bin/sh" "container-aaaaaaa" "operation not permitted" }) := by
  have hl := LaunchContainer_spawn_refused spawnDeniedWorld "/bin/sh" State.initial _
    "container-aaaaaaa" "operation not permitted" (fun _ _ _ => rfl) (fun _ _ _ => rfl)
    (fun _ _ _ _ => rfl) (fun _ _ _ => rfl) (fun _ => rfl) (fun _ _ _ _ _ _ => rfl)
    (spawnDenied_name _)
  show Proc.bind (LaunchContainer spawnDeniedWorld "/bin/sh") (fun _ => Proc.pure ())
    State.initial = _
  rw [bind_ret hl]
  rfl

theorem removeDenied_name (s : State) :
    GenerateRandomContainerName removeDeniedWorld 7 s =
      (Outcome.ret "container-aaaaaaa",
        { s with trace := s.trace ++ [Op.randIntn 62] ++ [Op.randIntn 62] ++ [Op.randIntn 62] ++
            [Op.randIntn 62] ++ [Op.randIntn 62] ++ [Op.randIntn 62] ++ [Op.randIntn 62] }) :=
  rfl

theorem removeDenied_launchCalls : LaunchCallsSucceed removeDeniedWorld := by
  intro h op hop
  cases op <;> first | rfl | cases hop

/-- One launch in the world that refuses removals. -/
theorem removeDenied_launch :
    runCmds removeDeniedWorld [Cmd.launch "/bin/sh"] State.initial =
      (Outcome.ret (),
        { State.initial with
          ContainersRunning := [calmContainer]
          trace := firstDraw "/bin/sh" ++
            launchOps removeDeniedWorld (firstDraw "/bin/sh") "/bin/sh" "container-aaaaaaa" }) := by
  have hl := LaunchContainer_success removeDeniedWorld "/bin/sh" State.initial _
    "container-aaaaaaa" removeDenied_launchCalls (removeDenied_name _)
  show Proc.bind (LaunchContainer removeDeniedWorld "/bin/sh") (fun _ => Proc.pure ())
    State.initial = _
  rw [bind_ret hl]
  rfl

/-- When `RemoveAll` is refused, `DeleteContainer` reports the error, removes
the record all the same and reports success: the directory
`.containers/container-aaaaaaa` stays on disk and no registry holds a record
for it. -/
theorem failed_removal_leaves_the_directory :
    (reached removeDeniedWorld [Cmd.launch "/bin/sh"]).ContainersRunning = [calmContainer] ∧
    ∃ s' : State,
      DeleteContainer removeDeniedWorld "container-aaaaaaa"
        (reached removeDeniedWorld [Cmd.launch "/bin/sh"]) = (Outcome.ret (), s') ∧
      performed (DeleteContainer removeDeniedWorld "container-aaaaaaa")
        (reached removeDeniedWorld [Cmd.launch "/bin/sh"]) =
        [Op.kill 4242 0, Op.removeAll ".containers/container-aaaaaaa",
         Op.stdout "Error removing container directory: permission denied\n",
         Op.stdout "Container 'container-aaaaaaa' deleted successfully\n"] ∧
      s'.live = [] ∧ s'.ContainerStopped = [] ∧
      diskAfter removeDeniedWorld emptyDisk s'.trace ".containers/container-aaaaaaa" = true := by
  have hrun := removeDenied_launch
  have hs : reached removeDeniedWorld [Cmd.launch "/bin/sh"] = _ := congrArg Prod.snd hrun
  rw [hs]
  refine ⟨rfl, ?_⟩
  generalize ht : firstDraw "/bin/sh" ++
    launchOps removeDeniedWorld (firstDraw "/bin/sh") "/bin/sh" "container-aaaaaaa" = t
  have hstop := stopAndRemove_dead removeDeniedWorld calmContainer
    { State.initial with ContainersRunning := [calmContainer], trace := t }
    "no such process" (by decide) rfl
  have hdel := DeleteContainer_running removeDeniedWorld "container-aaaaaaa"
    { State.initial with ContainersRunning := [calmContainer], trace := t } _ [] []
    calmContainer rfl (fun x hx => by cases hx) rfl hstop rfl
  have hshape : t ++ ([Op.kill 4242 0, Op.removeAll ".containers/container-aaaaaaa"] ++
      removeError (some "permission denied")) ++
      [Op.stdout "Container 'container-aaaaaaa' deleted successfully\n"] =
      t ++ ([Op.kill 4242 0] ++ Op.removeAll ".containers/container-aaaaaaa" ::
        [Op.stdout "Error removing container directory: permission denied\n",
         Op.stdout "Container 'container-aaaaaaa' deleted successfully\n"]) := by
    simp only [removeError, List.append_assoc, List.cons_append, List.nil_append,
      List.singleton_append]
    rfl
  refine ⟨_, hdel, ?_, rfl, rfl, ?_⟩
  · refine performed_of_run hdel ?_
    exact hshape
  · show diskAfter removeDeniedWorld emptyDisk
      (t ++ ([Op.kill 4242 0, Op.removeAll ".containers/container-aaaaaaa"] ++
        removeError (some "permission denied")) ++
        [Op.stdout "Container 'container-aaaaaaa' deleted successfully\n"])
      (".containers/" ++ "container-aaaaaaa") = true
    have hslash : '/' ∉ "container-aaaaaaa".data := by decide
    rw [hshape, diskAfter_append, replay_remove removeDeniedWorld t _ _ _ _
      (fun op hop => by simp only [List.mem_singleton] at hop; rw [hop]; rfl)
      (fun op hop => by
        simp only [List.mem_cons, List.mem_singleton] at hop
        rcases hop with hx | hx | hx <;> first | (rw [hx]; rfl) | cases hx)]
    rw [show (removeDeniedWorld.err (t ++ [Op.kill 4242 0])
      (Op.removeAll ".containers/container-aaaaaaa")).isNone = false from rfl]
    rw [if_neg (by decide), ← ht, diskAfter_append,
      replay_launchOps _ _ _ _ _ _ removeDenied_launchCalls hslash hslash]
    simp

/-! ## The generated name -/

theorem charset_length : charset.length = 62 := by decide

theorem charset_alphanumeric : ∀ c ∈ charset.data, c.isAlphanum = true := by decide

/-- The loop of `GenerateRandomContainerName` when the random source stays in
range: it returns, having drawn `n` numbers and appended, for each, the
character of the alphabet at that index. -/
theorem writeRandomBytes_run (w : World) (hrand : ∀ h, w.intn h 62 < 62) :
    ∀ (n : Nat) (sb : String) (s : State),
      ∃ cs : List Char,
        writeRandomBytes w n sb s =
          (Outcome.ret (String.mk (sb.data ++ cs)),
            { s with trace := s.trace ++ List.replicate n (Op.randIntn 62) }) ∧
        cs.length = n ∧
        ∀ i, i < n →
          charset.data[w.intn (s.trace ++ List.replicate i (Op.randIntn 62)) 62]? = cs[i]?
  | 0, sb, s => ⟨[], by simp [writeRandomBytes], rfl, fun i hi => absurd hi (Nat.not_lt_zero i)⟩
  | n + 1, sb, s => by
    have hk : w.intn s.trace 62 < charset.data.length := hrand s.trace
    obtain ⟨cs, hrun, hlen, hget⟩ := writeRandomBytes_run w hrand n
      (sb.push (charset.data[w.intn s.trace 62])) { s with trace := s.trace ++ [Op.randIntn 62] }
    refine ⟨charset.data[w.intn s.trace 62] :: cs, ?_, by simp [hlen], ?_⟩
    · unfold writeRandomBytes
      simp only [bind_eq, bind_apply, randIntn, charset_length, List.getElem?_eq_getElem hk, hrun]
      simp [List.replicate_succ]
    · intro i hi
      cases i with
      | zero => simp [List.getElem?_eq_getElem hk]
      | succ j =>
        have := hget j (by omega)
        simpa [List.replicate_succ] using this

/-- C12: when every value of the random source lies in [0, 62),
`GenerateRandomContainerName length` with `length ≥ 0` returns, after exactly
`length` draws, the string `container-` followed by `length` characters, the
i-th being the character of the 62-character alphabet at the i-th value
drawn; each of them is an ASCII letter or digit, and the result has length
`10 + length`.  For `length = 7` this is a string matching
`container-[A-Za-z0-9]{7}`. -/
theorem GenerateRandomContainerName_matches (w : World) (length : Int) (s : State)
    (hlen : 0 ≤ length) (hrand : ∀ h, w.intn h 62 < 62) :
    ∃ cs : List Char,
      GenerateRandomContainerName w length s =
        (Outcome.ret ("container-" ++ String.mk cs),
          { s with trace := s.trace ++ List.replicate length.toNat (Op.randIntn 62) }) ∧
      cs.length = length.toNat ∧
      (∀ c ∈ cs, c ∈ charset.data ∧ c.isAlphanum = true) ∧
      (∀ i, i < length.toNat →
        charset.data[w.intn (s.trace ++ List.replicate i (Op.randIntn 62)) 62]? = cs[i]?) ∧
      (("container-" ++ String.mk cs).length : Int) = 10 + length := by
  obtain ⟨cs, hrun, hcs, hget⟩ := writeRandomBytes_run w hrand length.toNat "" s
  have hmem : ∀ c ∈ cs, c ∈ charset.data := by
    intro c hc
    obtain ⟨i, hi, hci⟩ := List.getElem_of_mem hc
    have h1 := hget i (by omega)
    rw [List.getElem?_eq_getElem hi, hci] at h1
    exact List.getElem?_mem h1
  refine ⟨cs, ?_, hcs, fun c hc => ⟨hmem c hc, charset_alphanumeric c (hmem c hc)⟩, hget, ?_⟩
  · have hneg : ¬ length < 0 := by omega
    simp only [GenerateRandomContainerName, hneg, if_false, bind_eq, pure_eq, bind_apply, hrun,
      pure_apply]
    rfl
  · have h10 : ("container-" ++ String.mk cs).length = 10 + cs.length := by
      rw [String.length_append]
      rfl
    rw [h10, hcs]
    push_cast
    rw [Int.toNat_of_nonneg hlen]

/-- Witness of C12: seven draws of 0 give `container-aaaaaaa`. -/
theorem GenerateRandomContainerName_matches_witness :
    (0 : Int) ≤ 7 ∧ (∀ h, calmWorld.intn h 62 < 62) ∧
    ∃ cs : List Char,
      GenerateRandomContainerName calmWorld 7 State.initial =
        (Outcome.ret ("container-" ++ String.mk cs),
          { State.initial with
            trace := State.initial.trace ++ List.replicate (7 : Int).toNat (Op.randIntn 62) }) ∧
      cs.length = (7 : Int).toNat ∧
      (∀ c ∈ cs, c ∈ charset.data ∧ c.isAlphanum = true) ∧
      (∀ i, i < (7 : Int).toNat →
        charset.data[calmWorld.intn
          (State.initial.trace ++ List.replicate i (Op.randIntn 62)) 62]? = cs[i]?) ∧
      (("container-" ++ String.mk cs).length : Int) = 10 + 7 :=
  ⟨by decide, fun _ => show (0 : Nat) < 62 by decide,
    GenerateRandomContainerName_matches calmWorld 7 State.initial (by decide)
      (fun _ => show (0 : Nat) < 62 by decide)⟩

/-! ## What a delete keeps -/

/-- C13: `DeleteContainer name` returns and removes at most one record.  If
running holds a record with the name, running loses the first such record
(the records before and after it stay, in their order) and starting is
unchanged; otherwise, if starting holds one, starting loses its first such
record and running is unchanged; otherwise both are unchanged.  Stopped is
never changed. -/
theorem DeleteContainer_removes_first_match_only (w : World) (name : String) (s : State) :
    ∃ s' : State,
      DeleteContainer w name s = (Outcome.ret (), s') ∧
      s'.ContainerStopped = s.ContainerStopped ∧
      ((∃ x ∈ s.ContainersRunning, x.Name = name) →
        ∃ pre c post, s.ContainersRunning = pre ++ c :: post ∧ (∀ x ∈ pre, x.Name ≠ name) ∧
          c.Name = name ∧ s'.ContainersRunning = pre ++ post ∧
          s'.ContainersStarting = s.ContainersStarting) ∧
      ((∀ x ∈ s.ContainersRunning, x.Name ≠ name) →
        (∃ x ∈ s.ContainersStarting, x.Name = name) →
        ∃ pre c post, s.ContainersStarting = pre ++ c :: post ∧ (∀ x ∈ pre, x.Name ≠ name) ∧
          c.Name = name ∧ s'.ContainersStarting = pre ++ post ∧
          s'.ContainersRunning = s.ContainersRunning) ∧
      ((∀ x ∈ s.ContainersRunning, x.Name ≠ name) →
        (∀ x ∈ s.ContainersStarting, x.Name ≠ name) →
        s'.ContainersRunning = s.ContainersRunning ∧
          s'.ContainersStarting = s.ContainersStarting) ∧
      s.live.length ≤ s'.live.length + 1 := by
  by_cases hr : ∃ x ∈ s.ContainersRunning, x.Name = name
  · obtain ⟨pre, c, post, hl, hpre, hc⟩ := exists_first_match name _ hr
    obtain ⟨kops, nw, hstop, -⟩ := stopAndRemove_run w c s
    have hrun := DeleteContainer_running w name s _ pre post c hl hpre hc hstop rfl
    refine ⟨_, hrun, rfl, fun _ => ⟨pre, c, post, hl, hpre, hc, rfl, rfl⟩, ?_, ?_, ?_⟩
    · intro hno
      obtain ⟨x, hx, hxn⟩ := hr
      exact absurd hxn (hno x hx)
    · intro hno
      obtain ⟨x, hx, hxn⟩ := hr
      exact absurd hxn (hno x hx)
    · show (s.ContainersRunning ++ s.ContainersStarting).length ≤
        ((pre ++ post) ++ s.ContainersStarting).length + 1
      rw [hl]
      simp only [List.length_append, List.length_cons]
      omega
  · have hr' : ∀ x ∈ s.ContainersRunning, x.Name ≠ name := fun x hx hn => hr ⟨x, hx, hn⟩
    by_cases hs : ∃ x ∈ s.ContainersStarting, x.Name = name
    · obtain ⟨pre, c, post, hl, hpre, hc⟩ := exists_first_match name _ hs
      obtain ⟨kops, nw, hstop, -⟩ := stopAndRemove_run w c s
      have hrun := DeleteContainer_starting w name s _ pre post c hr' hl hpre hc hstop rfl
      refine ⟨_, hrun, rfl, fun h => absurd h hr,
        fun _ _ => ⟨pre, c, post, hl, hpre, hc, rfl, rfl⟩, ?_, ?_⟩
      · intro _ hno
        obtain ⟨x, hx, hxn⟩ := hs
        exact absurd hxn (hno x hx)
      · show (s.ContainersRunning ++ s.ContainersStarting).length ≤
          (s.ContainersRunning ++ (pre ++ post)).length + 1
        rw [hl]
        simp only [List.length_append, List.length_cons]
        omega
    · have hs' : ∀ x ∈ s.ContainersStarting, x.Name ≠ name := fun x hx hn => hs ⟨x, hx, hn⟩
      refine ⟨_, DeleteContainer_not_found w name s hr' hs', rfl, fun h => absurd h hr,
        fun _ h => absurd h hs, fun _ _ => ⟨rfl, rfl⟩, ?_⟩
      exact Nat.le_succ _

/-- Witness of C13: deleting `container-aaaaaaa` from the state with two
records of that name in running removes the first and keeps the second. -/
theorem DeleteContainer_removes_first_match_only_witness :
    ∃ s' : State,
      DeleteContainer calmWorld "container-aaaaaaa" twinState = (Outcome.ret (), s') ∧
      s'.ContainersRunning = [calmContainer] ∧ s'.ContainersStarting = [] ∧
      s'.ContainerStopped = [] := by
  obtain ⟨s', hrun, hp, hA, -, -, -⟩ :=
    DeleteContainer_removes_first_match_only calmWorld "container-aaaaaaa" twinState
  obtain ⟨hr, hs, hpp⟩ := twinState_registries
  obtain ⟨pre, c, post, hl, hpre, hc, hr', hs'⟩ :=
    hA ⟨calmContainer, by rw [hr]; exact List.mem_cons_self _ _, rfl⟩
  rw [hr] at hl
  cases pre with
  | nil =>
    simp only [List.nil_append, List.cons.injEq] at hl
    obtain ⟨-, rfl⟩ := hl
    exact ⟨s', hrun, hr', hs'.trans hs, hp.trans hpp⟩
  | cons a pre' =>
    simp only [List.cons_append, List.cons.injEq] at hl
    have ha : a.Name = "container-aaaaaaa" := by rw [← hl.1]; rfl
    exact absurd ha (hpre a (List.mem_cons_self _ _))

/-! ## Bulk cleanup visits every record -/

theorem cleanupOne_of_kill (w : World) (kind : String) (c : Container) (s s2 : State)
    (r : Option String) (hpid : 0 < c.NamespacePID)
    (hk : killAndWait w c.NamespacePID (5 * Second)
      { s with trace := s.trace ++ [Op.stdout ("Killing namespace process (PID " ++
        toString c.NamespacePID ++ ") for container: " ++ c.Name ++ "\n")] } =
      (Outcome.ret r, s2)) :
    cleanupOne w kind c s =
      (Outcome.ret (),
        { s2 with
          trace := (s2.trace ++ [cleanupResultLine c.NamespacePID r] ++
            [Op.removeAll c.Location] ++
            cleanupFailLine kind c.Name
              (w.err (s2.trace ++ [cleanupResultLine c.NamespacePID r])
                (Op.removeAll c.Location))) }) := by
  cases r with
  | none =>
    cases hr : w.err (s2.trace ++ [cleanupResultLine c.NamespacePID none])
        (Op.removeAll c.Location) <;>
      simp only [cleanupResultLine] at hr <;>
      simp [cleanupOne, bind_apply, hpid, hk, cleanupResultLine, cleanupFailLine, hr]
  | some msg =>
    cases hr : w.err (s2.trace ++ [cleanupResultLine c.NamespacePID (some msg)])
        (Op.removeAll c.Location) <;>
      simp only [cleanupResultLine] at hr <;>
      simp [cleanupOne, bind_apply, hpid, hk, cleanupResultLine, cleanupFailLine, hr]

theorem cleanupOne_no_pid (w : World) (kind : String) (c : Container) (s : State)
    (hpid : c.NamespacePID ≤ 0) :
    cleanupOne w kind c s =
      (Outcome.ret (),
        { s with
          trace := (s.trace ++ [Op.removeAll c.Location] ++
            cleanupFailLine kind c.Name (w.err s.trace (Op.removeAll c.Location))) }) := by
  have hn : ¬ c.NamespacePID > 0 := by omega
  cases hr : w.err s.trace (Op.removeAll c.Location) <;>
    simp [cleanupOne, bind_apply, hn, cleanupFailLine, hr]

theorem cleanupResultLine_stdout (pid : Int) (r : Option String) :
    ∃ text, cleanupResultLine pid r = Op.stdout text := by
  cases r with
  | none => exact ⟨_, rfl⟩
  | some err => exact ⟨_, rfl⟩

theorem cleanupFailLine_stdout (kind name : String) (r : Option String) :
    ∀ op ∈ cleanupFailLine kind name r, ∃ text, op = Op.stdout text := by
  intro op hop
  cases r with
  | none => cases hop
  | some err =>
    simp only [cleanupFailLine, List.mem_singleton] at hop
    exact ⟨_, hop⟩

theorem filter_isRemoval_stdout (outs : List Op)
    (h : ∀ op ∈ outs, ∃ text, op = Op.stdout text) : outs.filter Op.isRemoval = [] := by
  rw [List.filter_eq_nil_iff]
  intro op hop
  obtain ⟨text, rfl⟩ := h op hop
  simp [Op.isRemoval]

theorem no_kill_in_stdout (outs : List Op) (h : ∀ op ∈ outs, ∃ text, op = Op.stdout text)
    (pid : Int) (sig : Nat) : Op.kill pid sig ∉ outs := by
  intro hmem
  obtain ⟨text, ht⟩ := h _ hmem
  cases ht

theorem visit_of_kill (w : World) (c : Container) (s s2 : State) (r : Option String)
    (k line : String) (fl : List Op) (hpid : 0 < c.NamespacePID)
    (hk : killAndWait w c.NamespacePID (5 * Second)
      { s with trace := s.trace ++ [Op.stdout k] } = (Outcome.ret r, s2))
    (hfl : ∀ op ∈ fl, ∃ text, op = Op.stdout text) :
    Visit w c s
      { s2 with trace := (s2.trace ++ [Op.stdout line] ++ [Op.removeAll c.Location] ++ fl) } := by
  refine ⟨{ s with trace := s.trace ++ [Op.stdout k] }, s2,
    { s2 with trace := s2.trace ++ [Op.stdout line] },
    ⟨[Op.stdout k], (fun op hop => ⟨k, List.mem_singleton.1 hop⟩), rfl⟩, ?_,
    ⟨[Op.stdout line], (fun op hop => ⟨line, List.mem_singleton.1 hop⟩), rfl⟩,
    ⟨fl, hfl, rfl⟩⟩
  rw [if_pos hpid]
  exact ⟨r, hk⟩

theorem visit_no_pid (w : World) (c : Container) (s : State) (fl : List Op)
    (hpid : ¬ 0 < c.NamespacePID) (hfl : ∀ op ∈ fl, ∃ text, op = Op.stdout text) :
    Visit w c s { s with trace := (s.trace ++ [Op.removeAll c.Location] ++ fl) } := by
  refine ⟨s, s, s, ⟨[], (fun op hop => by cases hop), by simp⟩, ?_,
    ⟨[], (fun op hop => by cases hop), by simp⟩, ⟨fl, hfl, rfl⟩⟩
  rw [if_neg hpid]

/-- What `cleanupOne` does with one record, whatever the world answers. -/
theorem cleanupOne_visit (w : World) (kind : String) (c : Container) (s : State) :
    ∃ (s' : State) (ops : List Op),
      cleanupOne w kind c s = (Outcome.ret (), s') ∧ Visit w c s s' ∧
      s'.trace = s.trace ++ ops ∧
      ops.filter Op.isRemoval = [Op.removeAll c.Location] ∧
      (∀ pid sig, Op.kill pid sig ∈ ops → 0 < c.NamespacePID ∧ pid = c.NamespacePID) ∧
      (c.NamespacePID ≤ 0 → s'.now = s.now) ∧
      s'.ContainersRunning = s.ContainersRunning ∧
      s'.ContainersStarting = s.ContainersStarting ∧
      s'.ContainerStopped = s.ContainerStopped := by
  by_cases hpid : 0 < c.NamespacePID
  · obtain ⟨r, h, nw, hk, -, -, hops⟩ := killAndWait_total w c.NamespacePID (5 * Second)
      { s with trace := s.trace ++ [Op.stdout ("Killing namespace process (PID " ++
        toString c.NamespacePID ++ ") for container: " ++ c.Name ++ "\n")] }
    have hrun := cleanupOne_of_kill w kind c s _ r hpid hk
    generalize w.err _ (Op.removeAll c.Location) = e at hrun
    obtain ⟨line, hline⟩ := cleanupResultLine_stdout c.NamespacePID r
    have hfail := cleanupFailLine_stdout kind c.Name
    have hh : h.filter Op.isRemoval = [] := by
      rw [List.filter_eq_nil_iff]
      intro op hop
      rcases hops op hop with hx | hx | hx | hx <;> rw [hx] <;> simp [Op.isRemoval]
    refine ⟨_, [Op.stdout ("Killing namespace process (PID " ++
        toString c.NamespacePID ++ ") for container: " ++ c.Name ++ "\n")] ++
        (h ++ [Op.kill c.NamespacePID 0]) ++ [cleanupResultLine c.NamespacePID r] ++
        [Op.removeAll c.Location] ++ cleanupFailLine kind c.Name e,
      hrun, ?_, ?_, ?_, ?_, ?_, rfl, rfl, rfl⟩
    · rw [hline]
      exact visit_of_kill w c s _ r _ line _ hpid hk (hfail e)
    · simp only [List.append_assoc]
    · simp only [List.filter_append, hh, filter_isRemoval_stdout _ (hfail e), hline]
      simp [Op.isRemoval]
    · intro pid sig hmem
      simp only [List.mem_append, List.mem_singleton, hline] at hmem
      rcases hmem with ((((hx | (hx | hx)) | hx) | hx) | hx)
      · cases hx
      · rcases hops _ hx with hy | hy | hy | hy
        · cases hy; exact ⟨hpid, rfl⟩
        · cases hy; exact ⟨hpid, rfl⟩
        · cases hy; exact ⟨hpid, rfl⟩
        · cases hy
      · cases hx; exact ⟨hpid, rfl⟩
      · cases hx
      · cases hx
      · exact absurd hx (no_kill_in_stdout _ (hfail e) pid sig)
    · intro hle
      omega
  · have hle : c.NamespacePID ≤ 0 := by omega
    have hrun := cleanupOne_no_pid w kind c s hle
    generalize w.err _ (Op.removeAll c.Location) = e at hrun
    have hfail := cleanupFailLine_stdout kind c.Name
    refine ⟨_, [Op.removeAll c.Location] ++ cleanupFailLine kind c.Name e, hrun, ?_, ?_, ?_, ?_,
      fun _ => rfl, rfl, rfl, rfl⟩
    · exact visit_no_pid w c s _ hpid (hfail e)
    · simp only [List.append_assoc]
    · simp only [List.filter_append, filter_isRemoval_stdout _ (hfail e)]
      simp [Op.isRemoval]
    · intro pid sig hmem
      simp only [List.mem_append, List.mem_singleton] at hmem
      rcases hmem with hx | hx
      · cases hx
      · exact absurd hx (no_kill_in_stdout _ (hfail e) pid sig)

/-- The loop of a cleanup pass visits the records in order. -/
theorem cleanupEach_visits (w : World) (kind : String) :
    ∀ (cs : List Container) (s : State),
      ∃ (s' : State) (ops : List Op),
        forEach cs (cleanupOne w kind) s = (Outcome.ret (), s') ∧ Visits w cs s s' ∧
        s'.trace = s.trace ++ ops ∧
        ops.filter Op.isRemoval = cs.map (fun c => Op.removeAll c.Location) ∧
        (∀ pid sig, Op.kill pid sig ∈ ops → 0 < pid ∧ ∃ c ∈ cs, c.NamespacePID = pid) ∧
        (cs = [] → s' = s) ∧
        s'.ContainersRunning = s.ContainersRunning ∧
        s'.ContainersStarting = s.ContainersStarting ∧
        s'.ContainerStopped = s.ContainerStopped
  | [], s =>
    ⟨s, [], rfl, rfl, by simp, rfl, (fun _ _ h => by cases h), fun _ => rfl, rfl, rfl, rfl⟩
  | c :: cs, s => by
    obtain ⟨s1, ops1, hrun1, hv1, ht1, hf1, hk1, -, hr1, hs1, hp1⟩ := cleanupOne_visit w kind c s
    obtain ⟨s', ops2, hrun2, hv2, ht2, hf2, hk2, -, hr2, hs2, hp2⟩ :=
      cleanupEach_visits w kind cs s1
    refine ⟨s', ops1 ++ ops2, ?_, ⟨s1, hv1, hv2⟩, ?_, ?_, ?_, (fun h => by cases h),
      hr2.trans hr1, hs2.trans hs1, hp2.trans hp1⟩
    · show Proc.bind (cleanupOne w kind c) (fun _ => forEach cs (cleanupOne w kind)) s = _
      rw [bind_ret hrun1, hrun2]
    · rw [ht2, ht1, List.append_assoc]
    · rw [List.filter_append, hf1, hf2]
      rfl
    · intro pid sig hmem
      rcases List.mem_append.1 hmem with h | h
      · obtain ⟨hpos, hpid⟩ := hk1 pid sig h
        exact ⟨hpid ▸ hpos, c, List.mem_cons_self _ _, hpid.symm⟩
      · obtain ⟨hpos, x, hx, hxp⟩ := hk2 pid sig h
        exact ⟨hpos, x, List.mem_cons_of_mem _ hx, hxp⟩

/-- The pass over running: every record is visited in order, then at most a
summary line is printed. -/
theorem cleanupRunningContainers_visits (w : World) (s : State) :
    ∃ (s1 s' : State) (ops : List Op),
      cleanupRunningContainers w s = (Outcome.ret (), s') ∧
      Visits w s.ContainersRunning s s1 ∧ OnlyOutput s1 s' ∧
      s'.trace = s.trace ++ ops ∧
      ops.filter Op.isRemoval = s.ContainersRunning.map (fun c => Op.removeAll c.Location) ∧
      (∀ pid sig, Op.kill pid sig ∈ ops →
        0 < pid ∧ ∃ c ∈ s.ContainersRunning, c.NamespacePID = pid) ∧
      (s.ContainersRunning = [] → s' = s) ∧
      s'.ContainersRunning = s.ContainersRunning ∧
      s'.ContainersStarting = s.ContainersStarting ∧
      s'.ContainerStopped = s.ContainerStopped := by
  obtain ⟨s1, ops, hrun, hv, ht, hf, hk, hnil, hr, hs, hp⟩ :=
    cleanupEach_visits w "running" s.ContainersRunning s
  by_cases hlen : s.ContainersRunning.length > 0
  · refine ⟨s1, { s1 with trace := s1.trace ++ [Op.stdout "Cleaned-up all running containers.\n"] },
      ops ++ [Op.stdout "Cleaned-up all running containers.\n"], ?_, hv,
      ⟨[_], (fun op hop => ⟨_, List.mem_singleton.1 hop⟩), rfl⟩, ?_, ?_, ?_, ?_, hr, hs, hp⟩
    · simp only [cleanupRunningContainers, bind_eq, pure_eq, bind_apply, getState_apply, hrun, hr,
        hlen, if_true, Printf_apply]
    · show s1.trace ++ _ = _
      rw [ht, List.append_assoc]
    · rw [List.filter_append, hf]
      simp [Op.isRemoval]
    · intro pid sig hmem
      rcases List.mem_append.1 hmem with h | h
      · exact hk pid sig h
      · simp at h
    · intro h
      rw [h] at hlen
      exact absurd hlen (by decide)
  · refine ⟨s1, s1, ops, ?_, hv, ⟨[], (fun op hop => by cases hop), by simp⟩, ht, hf, hk, hnil,
      hr, hs, hp⟩
    simp only [cleanupRunningContainers, bind_eq, pure_eq, bind_apply, getState_apply, hrun, hr,
      hlen, if_false, pure_apply]

/-- The pass over starting: every record is visited in order, then at most a
summary line is printed. -/
theorem cleanupStartingContainers_visits (w : World) (s : State) :
    ∃ (s1 s' : State) (ops : List Op),
      cleanupStartingContainers w s = (Outcome.ret (), s') ∧
      Visits w s.ContainersStarting s s1 ∧ OnlyOutput s1 s' ∧
      s'.trace = s.trace ++ ops ∧
      ops.filter Op.isRemoval = s.ContainersStarting.map (fun c => Op.removeAll c.Location) ∧
      (∀ pid sig, Op.kill pid sig ∈ ops →
        0 < pid ∧ ∃ c ∈ s.ContainersStarting, c.NamespacePID = pid) ∧
      (s.ContainersStarting = [] → s' = s) ∧
      s'.ContainersRunning = s.ContainersRunning ∧
      s'.ContainersStarting = s.ContainersStarting ∧
      s'.ContainerStopped = s.ContainerStopped := by
  obtain ⟨s1, ops, hrun, hv, ht, hf, hk, hnil, hr, hs, hp⟩ :=
    cleanupEach_visits w "starting" s.ContainersStarting s
  by_cases hlen : s.ContainersStarting.length > 0
  · refine ⟨s1,
      { s1 with trace := s1.trace ++ [Op.stdout "Cleaned-up all starting containers.\n"] },
      ops ++ [Op.stdout "Cleaned-up all starting containers.\n"], ?_, hv,
      ⟨[_], (fun op hop => ⟨_, List.mem_singleton.1 hop⟩), rfl⟩, ?_, ?_, ?_, ?_, hr, hs, hp⟩
    · simp only [cleanupStartingContainers, bind_eq, pure_eq, bind_apply, getState_apply, hrun,
        hs, hlen, if_true, Printf_apply]
    · show s1.trace ++ _ = _
      rw [ht, List.append_assoc]
    · rw [List.filter_append, hf]
      simp [Op.isRemoval]
    · intro pid sig hmem
      rcases List.mem_append.1 hmem with h | h
      · exact hk pid sig h
      · simp at h
    · intro h
      rw [h] at hlen
      exact absurd hlen (by decide)
  · refine ⟨s1, s1, ops, ?_, hv, ⟨[], (fun op hop => by cases hop), by simp⟩, ht, hf, hk, hnil,
      hr, hs, hp⟩
    simp only [cleanupStartingContainers, bind_eq, pure_eq, bind_apply, getState_apply, hrun,
      hs, hlen, if_false, pure_apply]

/-- C11: whatever the registries hold and whatever the world answers,
`cleanupContainers` returns after visiting every record of running, in order,
and then every record of starting, in order.  A visit runs `killAndWait` with
the pid of the record and 5 s exactly when that pid is positive and then
calls `RemoveAll` on the location of the record; apart from these the process
only writes to standard output.  So the removals performed are those of the
locations of running followed by those of starting, every signal and probe is
aimed at the positive pid of a record, and the three registries are as
before.  With running and starting empty nothing at all is performed: no
kill, no removal, no summary line. -/
theorem cleanupContainers_visits_running_then_starting (w : World) (s : State) :
    ∃ s1 s2 s3 s' : State,
      cleanupContainers w s = (Outcome.ret (), s') ∧
      Visits w s.ContainersRunning s s1 ∧ OnlyOutput s1 s2 ∧
      Visits w s.ContainersStarting s2 s3 ∧ OnlyOutput s3 s' ∧
      (performed (cleanupContainers w) s).filter Op.isRemoval =
        (s.ContainersRunning ++ s.ContainersStarting).map (fun c => Op.removeAll c.Location) ∧
      (∀ pid sig, Op.kill pid sig ∈ performed (cleanupContainers w) s →
        0 < pid ∧ ∃ c ∈ s.ContainersRunning ++ s.ContainersStarting, c.NamespacePID = pid) ∧
      s'.ContainersRunning = s.ContainersRunning ∧
      s'.ContainersStarting = s.ContainersStarting ∧
      s'.ContainerStopped = s.ContainerStopped ∧
      (s.ContainersRunning = [] → s.ContainersStarting = [] → s' = s) := by
  obtain ⟨s1, s2, ops1, hrun1, hv1, ho1, ht1, hf1, hk1, hnil1, hr1, hs1, hp1⟩ :=
    cleanupRunningContainers_visits w s
  obtain ⟨s3, s', ops2, hrun2, hv2, ho2, ht2, hf2, hk2, hnil2, hr2, hs2, hp2⟩ :=
    cleanupStartingContainers_visits w s2
  have hrun : cleanupContainers w s = (Outcome.ret (), s') := by
    show Proc.bind (cleanupRunningContainers w) (fun _ => cleanupStartingContainers w) s = _
    rw [bind_ret hrun1, hrun2]
  have hperf : performed (cleanupContainers w) s = ops1 ++ ops2 :=
    performed_of_run hrun (by rw [ht2, ht1, List.append_assoc])
  rw [hs1] at hv2 hf2 hk2 hnil2
  refine ⟨s1, s2, s3, s', hrun, hv1, ho1, hv2, ho2, ?_, ?_, hr2.trans hr1, hs2.trans hs1,
    hp2.trans hp1, ?_⟩
  · rw [hperf, List.filter_append, hf1, hf2, List.map_append]
  · intro pid sig hmem
    rw [hperf] at hmem
    rcases List.mem_append.1 hmem with h | h
    · obtain ⟨hpos, c, hc, hcp⟩ := hk1 pid sig h
      exact ⟨hpos, c, List.mem_append_left _ hc, hcp⟩
    · obtain ⟨hpos, c, hc, hcp⟩ := hk2 pid sig h
      exact ⟨hpos, c, List.mem_append_right _ hc, hcp⟩
  · intro h1 h2
    rw [hnil2 h2, hnil1 h1]

/-- Bulk cleanup of one record whose process is already dead, in a world where
removals succeed. -/
theorem cleanupOne_dead (kind : String) (c : Container) (s : State)
    (hpid : 0 < c.NamespacePID) :
    cleanupOne deadProcessWorld kind c s =
      (Outcome.ret (),
        { s with
          trace := (s.trace ++
            [Op.stdout ("Killing namespace process (PID " ++ toString c.NamespacePID ++
              ") for container: " ++ c.Name ++ "\n"),
             Op.kill c.NamespacePID 0,
             Op.stdout ("Confirmed process " ++ toString c.NamespacePID ++ " is terminated\n"),
             Op.removeAll c.Location]) }) := by
  rw [cleanupOne_of_kill deadProcessWorld kind c s _ none hpid
    (killAndWait_dead_run deadProcessWorld c.NamespacePID (5 * Second) _ "no such process" rfl)]
  simp [cleanupResultLine, cleanupFailLine, deadProcessWorld]

/-- Bulk cleanup of `mixedState` when every process is already dead. -/
theorem cleanup_mixedState :
    cleanupContainers deadProcessWorld mixedState =
      (Outcome.ret (),
        { mixedState with
          trace :=
            [Op.stdout "Killing namespace process (PID 4242) for container: container-aaaaaaa\n",
             Op.kill 4242 0,
             Op.stdout "Confirmed process 4242 is terminated\n",
             Op.removeAll ".containers/container-aaaaaaa",
             Op.removeAll ".containers/container-bbbbbbb",
             Op.stdout "Cleaned-up all running containers.\n",
             Op.stdout "Killing namespace process (PID 77) for container: container-ccccccc\n",
             Op.kill 77 0,
             Op.stdout "Confirmed process 77 is terminated\n",
             Op.removeAll ".containers/container-ccccccc",
             Op.stdout "Cleaned-up all starting containers.\n"] }) := by
  have ha := fun s => cleanupOne_dead "running" calmContainer s (by decide)
  have hb := fun s => cleanupOne_no_pid deadProcessWorld "running" idleContainer s (by decide)
  have hc := fun s => cleanupOne_dead "starting" otherContainer s (by decide)
  have hlenR : [calmContainer, idleContainer].length > 0 := by decide
  have hlenS : [otherContainer].length > 0 := by decide
  simp only [cleanupContainers, cleanupRunningContainers, cleanupStartingContainers, bind_eq,
    pure_eq, bind_apply, getState_apply, mixedState, forEach, ha, hb, hc, pure_apply, hlenR,
    hlenS, if_true, Printf_apply]
  simp [State.initial, cleanupFailLine, deadProcessWorld, calmContainer, idleContainer,
    otherContainer]
  decide

/-- Witness of C11: a state with a record without process in running and a
record in starting, in a world where every process is already dead. -/
theorem cleanupContainers_visits_running_then_starting_witness :
    performed (cleanupContainers deadProcessWorld) mixedState =
      [Op.stdout "Killing namespace process (PID 4242) for container: container-aaaaaaa\n",
       Op.kill 4242 0,
       Op.stdout "Confirmed process 4242 is terminated\n",
       Op.removeAll ".containers/container-aaaaaaa",
       Op.removeAll ".containers/container-bbbbbbb",
       Op.stdout "Cleaned-up all running containers.\n",
       Op.stdout "Killing namespace process (PID 77) for container: container-ccccccc\n",
       Op.kill 77 0,
       Op.stdout "Confirmed process 77 is terminated\n",
       Op.removeAll ".containers/container-ccccccc",
       Op.stdout "Cleaned-up all starting containers.\n"] ∧
    ∃ s1 s2 s3 s' : State,
      cleanupContainers deadProcessWorld mixedState = (Outcome.ret (), s') ∧
      Visits deadProcessWorld mixedState.ContainersRunning mixedState s1 ∧ OnlyOutput s1 s2 ∧
      Visits deadProcessWorld mixedState.ContainersStarting s2 s3 ∧ OnlyOutput s3 s' ∧
      (performed (cleanupContainers deadProcessWorld) mixedState).filter Op.isRemoval =
        [Op.removeAll ".containers/container-aaaaaaa",
         Op.removeAll ".containers/container-bbbbbbb",
         Op.removeAll ".containers/container-ccccccc"] ∧
      (∀ pid sig, Op.kill pid sig ∈ performed (cleanupContainers deadProcessWorld) mixedState →
        0 < pid ∧
          ∃ c ∈ mixedState.ContainersRunning ++ mixedState.ContainersStarting,
            c.NamespacePID = pid) ∧
      s'.ContainersRunning = mixedState.ContainersRunning ∧
      s'.ContainersStarting = mixedState.ContainersStarting ∧
      s'.ContainerStopped = mixedState.ContainerStopped ∧
      (mixedState.ContainersRunning = [] → mixedState.ContainersStarting = [] →
        s' = mixedState) :=
  ⟨performed_of_run cleanup_mixedState rfl,
    cleanupContainers_visits_running_then_starting deadProcessWorld mixedState⟩

end Malptainer
